import Mathlib

/-!
SpacemiT K1x timer driver (`drivers/clocksource/timer-k1x.c`).

A shallow embedding of the register write-verify-retry protocol, the clock
switch, counter enable/disable, the one-shot `set_next_event` path, the
interrupt service routine, shutdown/resume and the bring-up of a block and of
its counters, followed by theorems about them.

Modelling conventions.

* `u32` values are natural numbers; every place where C converts to `u32`
  is an explicit `% 2 ^ 32`.
* The register window behind `tm->base` is a state of an arbitrary type `σ`
  driven by a `HwModel σ` (what a read returns, what a write does).
* The driver works on one timer block; its three counters are
  `tm.evt 0 .. tm.evt 2` and an operation on `&tm->evt[k]` takes `k`.
* Every register access, every `pr_err` line of `timer_write_error` and every
  call of the clock-event handler is appended to `Sys.trace`.
* `udelay` and the spin lock have no effect on the sequential state and are
  not represented.
* A C operation without defined result (a division by zero) makes the
  model return `none`.
-/

namespace TimerK1x

/-! ## Machine words -/

/-- Conversion of a value to `u32`. -/
def u32 (x : Nat) : Nat := x % 2 ^ 32

/-- Bitwise complement `~x` on `u32`. -/
def not32 (x : Nat) : Nat := (2 ^ 32 - 1) ^^^ u32 x

/-- Logical negation `!x` of C, as a `u32`. -/
def lnot (x : Nat) : Nat := if x = 0 then 1 else 0

/-! ## Register map and constants -/

def TMR_CCR : Nat := 0x000c
def TMR_TN_MM (n m : Nat) : Nat := u32 (0x0010 + u32 (n <<< 4) + u32 (m <<< 2))
def TMR_CR (n : Nat) : Nat := u32 (0x0090 + u32 (n <<< 2))
def TMR_SR (n : Nat) : Nat := u32 (0x0080 + u32 (n <<< 2))
def TMR_IER (n : Nat) : Nat := u32 (0x0060 + u32 (n <<< 2))
def TMR_PLCR (n : Nat) : Nat := u32 (0x0050 + u32 (n <<< 2))
def TMR_ICR (n : Nat) : Nat := u32 (0x0070 + u32 (n <<< 2))
def TMR_CER : Nat := 0x0000
def TMR_CMR : Nat := 0x0004

def TMR_CCR_CS_0 (x : Nat) : Nat := u32 ((x &&& 0x3) <<< 0)
def TMR_CCR_CS_1 (x : Nat) : Nat := u32 ((x &&& 0x3) <<< 2)
def TMR_CCR_CS_2 (x : Nat) : Nat := u32 ((x &&& 0x3) <<< 5)

/-- The macro picked by the two `switch (tid)` statements of
`timer_counter_switch_clock` for `tid` in 0..2 (the `default` case is the
guard in that function). -/
def TMR_CCR_CS (tid x : Nat) : Nat :=
  if tid = 0 then TMR_CCR_CS_0 x else if tid = 1 then TMR_CCR_CS_1 x else TMR_CCR_CS_2 x

def SPACEMIT_ALL_COUNTERS : Nat := u32 ((1 <<< 3) - 1)
def SPACEMIT_TIMER_ALL_CPU : Nat := 0xFFFFFFFF
def ENOMEM : Int := 12

/-- Conversion of an `int` to `unsigned int`. -/
def int_to_u32 (i : Int) : Nat := (i % 2 ^ 32).toNat

/-- Conversion of an `unsigned int` to `int`. -/
def u32_to_int (n : Nat) : Int :=
  if n % 2 ^ 32 < 2 ^ 31 then ((n % 2 ^ 32 : Nat) : Int) else ((n % 2 ^ 32 : Nat) : Int) - 2 ^ 32

def MAX_DELTA : Nat := 0xfffffffe
def MIN_DELTA : Nat := 5
def SPACEMIT_MAX_COUNTER : Nat := 3
def SPACEMIT_MAX_TIMER : Nat := 3
def SPACEMIT_TIMER_CLOCK_32KHZ : Nat := 32768
def TIMER_ERR_NUM : Nat := 10
def EINVAL : Int := 22
def IRQ_NONE : Nat := 0
def IRQ_HANDLED : Nat := 1

/-- The macro `TMR_CER_COUNTER(cid)`, also written `1 << evt->cid` in the
source; the shift is defined in C for `cid < 32`. -/
def TMR_CER_COUNTER (cid : Nat) : Nat := u32 (1 <<< cid)

/-! ## Data model -/

/-- The fields of `struct spacemit_timer_evt` that the modelled code uses
(`ced`, `irqa` and the back pointer `timer` are structural). -/
structure spacemit_timer_evt where
  freq : Nat
  irq : Nat
  cid : Nat
  tid : Nat
  cpu : Int
  timer_enabled : Bool
  timer_status : Int
  timeout : Nat
deriving DecidableEq, Repr

/-- The driver side of `struct spacemit_timer`; the register window `base`
is the `base` field of `Sys`. -/
structure spacemit_timer where
  id : Nat
  evt : Fin 3 → spacemit_timer_evt
  flag : Nat
  loop_delay_fastclk : Int
  fc_freq : Nat
  freq : Nat

structure timer_werror_info where
  reg : Nat
  target : Nat
  val : Nat
  mask : Nat
deriving DecidableEq, Repr

/-- Observable actions, in program order. -/
inductive Event where
  | rd (reg val : Nat)
  | wr (reg val : Nat)
  | werr (reg target val mask : Nat)
  | handler (cid : Nat)
deriving DecidableEq, Repr

def Event.is_rd : Event → Bool
  | .rd _ _ => true
  | _ => false

def Event.is_wr : Event → Bool
  | .wr _ _ => true
  | _ => false

def Event.is_werr : Event → Bool
  | .werr _ _ _ _ => true
  | _ => false

def Event.is_handler : Event → Bool
  | .handler _ => true
  | _ => false

/-- The event is a write to register `reg`. -/
def Event.is_wr_to (reg : Nat) : Event → Bool
  | .wr r _ => r == reg
  | _ => false

/-- Behaviour of the register window: a read returns a value and may change
the device state, a write changes the device state. -/
structure HwModel (σ : Type) where
  readl : σ → Nat → Nat × σ
  writel : σ → Nat → Nat → σ

/-- Whole state: the device, the block, the static `werr_info`/`werr_index`
and the trace of actions. -/
structure Sys (σ : Type) where
  base : σ
  tm : spacemit_timer
  werr_info : List timer_werror_info
  werr_index : Nat
  trace : List Event

section Driver

variable {σ : Type}

/-- Model of `__raw_readl(tm->base + reg)`. -/
def raw_readl (H : HwModel σ) (w : Sys σ) (reg : Nat) : Nat × Sys σ :=
  let r := H.readl w.base reg
  (u32 r.1, { w with base := r.2, trace := w.trace ++ [Event.rd reg (u32 r.1)] })

/-- Model of `__raw_writel(val, tm->base + reg)`. -/
def raw_writel (H : HwModel σ) (w : Sys σ) (reg val : Nat) : Sys σ :=
  { w with base := H.writel w.base reg (u32 val),
           trace := w.trace ++ [Event.wr reg (u32 val)] }

/-- Update of `tm->evt[k]`. -/
def set_evt (w : Sys σ) (k : Fin 3) (e : spacemit_timer_evt) : Sys σ :=
  { w with tm := { w.tm with evt := Function.update w.tm.evt k e } }

/-- Model of `timer_write_error`: store the failure in slot `werr_index`, advance the
index modulo `TIMER_ERR_NUM`, print the line. -/
def timer_write_error (w : Sys σ) (reg target val mask : Nat) : Sys σ :=
  { w with werr_info := w.werr_info.set w.werr_index ⟨reg, target, val, mask⟩,
           werr_index := (w.werr_index + 1) % TIMER_ERR_NUM,
           trace := w.trace ++ [Event.werr reg target val mask] }

/-- The `while` loop of `timer_write_check` for one write attempt, started
with the local `loop` and the last value read `t_read`.  The result is
`none` when the loop condition fails (the function then returns) and
`some t` when `loop` reached 0 inside the body with `t_read = t` (the
`if (!loop)` block is entered). -/
def timer_write_check_poll (H : HwModel σ) (reg t_check mask : Nat) :
    Nat → Nat → Sys σ → Option Nat × Sys σ
  | 0, _, w => (none, w)
  | loop + 1, t_read, w =>
    if t_read &&& mask ≠ t_check &&& mask then
      let r := raw_readl H w reg
      if loop = 0 then (some r.1, r.2)
      else timer_write_check_poll H reg t_check mask loop r.1 r.2
    else (none, w)

/-- One write attempt of `timer_write_check`: the statements from the label
`reg_re_write` down to the end of the `while` loop or to its `if (!loop)`
block (`loop` is 3 whenever the label is reached).  `sw` is the
forward-declared `timer_counter_switch_clock(tm, tm->fc_freq)`. -/
def timer_write_check_attempt (H : HwModel σ) (sw : Sys σ → Sys σ)
    (reg val mask t_check : Nat) (clk_switch : Bool) (w : Sys σ) : Option Nat × Sys σ :=
  let w1 := raw_writel H w reg val
  let w2 := if clk_switch then sw w1 else w1
  let r := raw_readl H w2 reg
  timer_write_check_poll H reg t_check mask 3 r.1 r.2

/-- The body of `timer_write_check` from the label `reg_re_write`, with the
local `retry` as first argument.  `retry` is 100 on entry and the label is
only reached with `retry > 0`; the case `0` is never executed. -/
def timer_write_check_from (H : HwModel σ) (sw : Sys σ → Sys σ)
    (reg val mask t_check : Nat) (clk_switch : Bool) : Nat → Sys σ → Sys σ
  | 0, w => w
  | retry + 1, w =>
    match timer_write_check_attempt H sw reg val mask t_check clk_switch w with
    | (none, w3) => w3
    | (some t_read, w3) =>
      let w4 := timer_write_error w3 reg t_check t_read mask
      if retry ≠ 0 then timer_write_check_from H sw reg val mask t_check clk_switch retry w4
      else w4

/-- Model of `timer_write_check` with the callee of its `clk_switch` branch passed in. -/
def timer_write_check_core (H : HwModel σ) (sw : Sys σ → Sys σ)
    (reg val mask : Nat) (clr clk_switch : Bool) (w : Sys σ) : Sys σ :=
  let val := u32 val
  let mask := u32 mask
  let t_check := if clr then lnot val else val
  timer_write_check_from H sw reg val mask t_check clk_switch 100 w

/-- Model of `timer_counter_switch_clock(tm, freq)`.  Its call of `timer_write_check`
has `clk_switch = false`, so the callee argument is never run. -/
def timer_counter_switch_clock (H : HwModel σ) (freq : Nat) (w : Sys σ) : Int × Sys σ :=
  let tid := w.tm.id
  let r := raw_readl H w TMR_CCR
  let ccr := r.1
  if tid = 0 ∨ tid = 1 ∨ tid = 2 then
    let mask := TMR_CCR_CS tid 3
    let ccr := ccr &&& not32 mask
    if freq = w.tm.fc_freq ∨ freq = SPACEMIT_TIMER_CLOCK_32KHZ then
      let val := if freq = w.tm.fc_freq then 0 else 1
      let ccr := ccr ||| TMR_CCR_CS tid val
      (0, timer_write_check_core H (fun s => s) TMR_CCR ccr mask false false r.2)
    else (-EINVAL, r.2)
  else (-EINVAL, r.2)

/-- Model of `timer_write_check(tm, reg, val, mask, clr, clk_switch)`. -/
def timer_write_check (H : HwModel σ) (reg val mask : Nat) (clr clk_switch : Bool)
    (w : Sys σ) : Sys σ :=
  timer_write_check_core H (fun s => (timer_counter_switch_clock H s.tm.fc_freq s).2)
    reg val mask clr clk_switch w

/-- Model of `timer_counter_disable(&tm->evt[k])`. -/
def timer_counter_disable (H : HwModel σ) (k : Fin 3) (w : Sys σ) : Sys σ :=
  let evt := w.tm.evt k
  let clk_switch := decide (evt.freq ≠ w.tm.fc_freq)
  let r := raw_readl H w TMR_CER
  let cer := r.1
  let w := timer_write_check H TMR_CER (cer &&& not32 (TMR_CER_COUNTER evt.cid))
    (TMR_CER_COUNTER evt.cid) false clk_switch r.2
  set_evt w k { w.tm.evt k with timer_status := 1 }

/-- Model of `timer_counter_enable(&tm->evt[k])`. -/
def timer_counter_enable (H : HwModel σ) (k : Fin 3) (w : Sys σ) : Sys σ :=
  let evt := w.tm.evt k
  let w := if evt.freq ≠ w.tm.fc_freq then (timer_counter_switch_clock H evt.freq w).2 else w
  let r := raw_readl H w TMR_CER
  let cer := r.1
  let w := timer_write_check H TMR_CER (cer ||| TMR_CER_COUNTER evt.cid)
    (TMR_CER_COUNTER evt.cid) false false r.2
  set_evt w k { w.tm.evt k with timer_status := 0 }

/-- Model of `timer_interrupt` for the clock-event device of `&tm->evt[k]`; the call
`c->event_handler(c)` is recorded as `Event.handler cid`. -/
def timer_interrupt (H : HwModel σ) (k : Fin 3) (w : Sys σ) : Nat × Sys σ :=
  let cnt := (w.tm.evt k).cid
  let r := raw_readl H w (TMR_SR cnt)
  if r.1 &&& 0x1 ≠ 0 then
    let w := timer_counter_disable H k r.2
    let w := timer_write_check H (TMR_IER cnt) 0 0x7 false false w
    let w := timer_write_check H (TMR_ICR cnt) 0x1 0x7 true false w
    (IRQ_HANDLED, { w with trace := w.trace ++ [Event.handler cnt] })
  else (IRQ_NONE, r.2)

/-- Model of `timer_shutdown`. -/
def timer_shutdown (H : HwModel σ) (k : Fin 3) (w : Sys σ) : Int × Sys σ :=
  let w := set_evt w k
    { w.tm.evt k with timer_enabled := decide ((w.tm.evt k).timer_status = 0) }
  (0, timer_counter_disable H k w)

/-- Model of `timer_resume`. -/
def timer_resume (H : HwModel σ) (k : Fin 3) (w : Sys σ) : Int × Sys σ :=
  if (w.tm.evt k).timer_enabled then (0, timer_counter_enable H k w) else (0, w)

/-- Model of `timer_set_next_event(delta, dev)`.  `delta` is an `unsigned long`;
`delta - 1` converted to `u32` is `(delta + 2^32 - 1) % 2^32` whatever the
width of `long`. -/
def timer_set_next_event (H : HwModel σ) (delta : Nat) (k : Fin 3) (w : Sys σ) :
    Int × Sys σ :=
  let cid := (w.tm.evt k).cid
  let r := raw_readl H w TMR_CER
  let cer := r.1
  let w := if cer &&& TMR_CER_COUNTER cid ≠ 0 then timer_counter_disable H k r.2 else r.2
  let w := timer_write_check H (TMR_TN_MM cid 0) (u32 (delta + 2 ^ 32 - 1))
    (u32 (2 ^ 32 - 1)) false false w
  let w := timer_write_check H (TMR_IER cid) 0x1 0x1 false false w
  let w := timer_counter_enable H k w
  let w := set_evt w k { w.tm.evt k with timeout := u32 (delta + 2 ^ 32 - 1) }
  (0, w)

/-! ### Bring-up -/

/-- The loop `while (n--) body`. -/
def loop_times (body : Sys σ → Sys σ) : Nat → Sys σ → Sys σ
  | 0, w => w
  | n + 1, w => loop_times body n (body w)

/-- The loop count of line 438, `((apb_freq * 2) / fc_freq / 8) + 1` in
`u32` arithmetic; `none` when `fc_freq` is 0 (division by zero). -/
def loop_delay (apb_freq fc_freq : Nat) : Option Nat :=
  if fc_freq = 0 then none else some (u32 (u32 (apb_freq * 2) / fc_freq / 8 + 1))

/-- The register accesses of `spacemit_timer_hw_init` after `delay` is
computed: free-running mode, match compare cleared, status cleared, counter
enabled and held enabled through `delay` further writes. -/
def spacemit_timer_hw_init_run (H : HwModel σ) (cid delay : Nat) (w : Sys σ) : Sys σ :=
  let rd := raw_readl H w TMR_CMR
  let tmp := rd.1 ||| TMR_CER_COUNTER cid
  let w := raw_writel H rd.2 TMR_CMR tmp
  let w := raw_writel H w (TMR_PLCR cid) 0x0
  let w := raw_writel H w (TMR_ICR cid) 0x7
  let rd := raw_readl H w TMR_CER
  let tmp := rd.1 ||| TMR_CER_COUNTER cid
  let w := raw_writel H rd.2 TMR_CER tmp
  loop_times (fun s => raw_writel H s TMR_CER tmp) delay w

/-- Model of `spacemit_timer_hw_init(&tm->evt[k])`; `none` is the division
by zero in `tm->fc_freq / freq`. -/
def spacemit_timer_hw_init (H : HwModel σ) (k : Fin 3) (w : Sys σ) : Option (Int × Sys σ) :=
  let cid := (w.tm.evt k).cid
  let freq := (w.tm.evt k).freq
  let r := timer_counter_switch_clock H freq w
  if r.1 ≠ 0 then some (r.1, r.2)
  else
    let w := r.2
    if freq = 0 then none
    else
      let ratio := w.tm.fc_freq / freq
      let delay := u32 (int_to_u32 w.tm.loop_delay_fastclk * ratio)
      some (0, spacemit_timer_hw_init_run H cid delay w)

/-- State during bring-up of one block: the device, the entry
`spacemit_timers[tid]` of the block (`none` is the null pointer), the failure
record and the trace. -/
structure Boot (σ : Type) where
  base : σ
  slot : Option spacemit_timer
  werr_info : List timer_werror_info
  werr_index : Nat
  trace : List Event

/-- Outcomes of the kernel services called by `spacemit_timer_init`. -/
structure init_env where
  kzalloc_ok : Bool
  clk_null : Bool
  clk_is_err : Bool
  clk_prepare_enable_ret : Int
  clk_set_rate_ret : Int
  resets_err : Option Int

/-- What `kzalloc` returns: a block with every field 0. -/
def tm_zero : spacemit_timer :=
  { id := 0, evt := fun _ => ⟨0, 0, 0, 0, 0, false, 0, 0⟩, flag := 0,
    loop_delay_fastclk := 0, fc_freq := 0, freq := 0 }

/-- The hardware part of `spacemit_timer_init`, from the comment "We will
disable all counters" to the end of the `while (delay--)` loop. -/
def spacemit_timer_init_idle (H : HwModel σ) (fc_freq delay : Nat) (w : Sys σ) : Sys σ :=
  let w := (timer_counter_switch_clock H fc_freq w).2
  let rd := raw_readl H w TMR_CER
  let tmp := rd.1 &&& not32 SPACEMIT_ALL_COUNTERS
  let w := raw_writel H rd.2 TMR_CER tmp
  let w := raw_writel H w (TMR_IER 0) 0x00
  let w := raw_writel H w (TMR_IER 1) 0x00
  let w := raw_writel H w (TMR_IER 2) 0x00
  loop_times (fun s =>
    raw_writel H (raw_writel H (raw_writel H (raw_writel H s (TMR_ICR 0) 0x1)
      (TMR_ICR 1) 0x1) (TMR_ICR 2) 0x1) TMR_CER tmp) delay w

/-- The block that `spacemit_timer_init` fills in after `kzalloc`. -/
def spacemit_timer_new (tid flag delay fc_freq freq : Nat) : spacemit_timer :=
  { tm_zero with id := tid, flag := flag, loop_delay_fastclk := u32_to_int delay,
                 fc_freq := fc_freq, freq := freq }

/-- Model of `spacemit_timer_init(np, tid, base, flag, fc_freq, apb_freq,
freq)`; `none` is the division by zero in the loop-count formula. -/
def spacemit_timer_init (H : HwModel σ) (env : init_env)
    (tid flag fc_freq apb_freq freq : Nat) (b : Boot σ) : Option (Int × Boot σ) :=
  if b.slot.isSome then some (-EINVAL, b)
  else if !env.kzalloc_ok then some (-ENOMEM, b)
  else if env.clk_null then some (-EINVAL, b)
  else if env.clk_is_err then some (-EINVAL, b)
  else if env.clk_prepare_enable_ret ≠ 0 then some (-EINVAL, b)
  else if env.clk_set_rate_ret ≠ 0 then some (-EINVAL, b)
  else
    match env.resets_err with
    | some e => some (e, b)
    | none =>
      match loop_delay apb_freq fc_freq with
      | none => none
      | some delay =>
        let w := spacemit_timer_init_idle H fc_freq delay
          { base := b.base, tm := spacemit_timer_new tid flag delay fc_freq freq,
            werr_info := b.werr_info, werr_index := b.werr_index, trace := b.trace }
        some (0, { base := w.base, slot := some w.tm, werr_info := w.werr_info,
                   werr_index := w.werr_index, trace := w.trace })

/-- A counter node of the device tree as `spacemit_of_counter_init` and
`spacemit_timer_setup` see it: each `of_property_read_u32` is the pair of its
return value and the value it stores; `request_irq_ret` is what `request_irq`
returns for the counter's interrupt. -/
structure counter_node where
  available : Bool
  counter_id : Int × Nat
  broadcast : Bool
  counter_cpu : Int × Nat
  irq : Nat
  request_irq_ret : Int

/-- A timer node of the device tree as `spacemit_of_timer_init` sees it. -/
structure timer_node where
  iomap_ok : Bool
  timer_id : Int × Nat
  fastclk_frequency : Int × Nat
  apb_frequency : Int × Nat
  timer_frequency : Int × Nat
  children : List counter_node

/-- Model of `spacemit_timer_setup(&tm->evt[k])`.  The clock-event and
interrupt registrations act on kernel state outside the block and are not
represented; `ncpus` is `num_possible_cpus()`. -/
def spacemit_timer_setup (H : HwModel σ) (ncpus : Nat) (request_irq_ret : Int)
    (k : Fin 3) (w : Sys σ) : Option (Int × Sys σ) :=
  let cpu := int_to_u32 (w.tm.evt k).cpu
  if cpu ≠ SPACEMIT_TIMER_ALL_CPU ∧ cpu ≥ ncpus then some (-EINVAL, w)
  else
    match spacemit_timer_hw_init H k w with
    | none => none
    | some (ret, w) =>
      if ret ≠ 0 then some (ret, w)
      else if request_irq_ret < 0 then some (request_irq_ret, w)
      else some (0, w)

/-- Model of `spacemit_of_counter_init(np, tid)` for a non-null `np`. -/
def spacemit_of_counter_init (H : HwModel σ) (ncpus : Nat) (np : counter_node) (tid : Nat)
    (w : Sys σ) : Option (Int × Sys σ) :=
  let ret := np.counter_id.1
  let cid := np.counter_id.2
  if h : ret = 0 ∧ cid < SPACEMIT_MAX_TIMER then
    if ¬ np.broadcast ∧ np.counter_cpu.1 ≠ 0 then some (np.counter_cpu.1, w)
    else
      let cpu := if np.broadcast then SPACEMIT_TIMER_ALL_CPU else np.counter_cpu.2
      let k : Fin 3 := ⟨cid, h.2⟩
      let w := set_evt w k
        { w.tm.evt k with freq := w.tm.freq, irq := np.irq, cpu := u32_to_int cpu,
                          cid := cid, tid := tid }
      spacemit_timer_setup H ncpus np.request_irq_ret k w
  else some (ret, w)

/-- The loop `for_each_child_of_node` of `spacemit_of_timer_init`. -/
def for_each_child_of_node (H : HwModel σ) (ncpus : Nat) (tid : Nat) :
    List counter_node → Sys σ → Option (Int × Sys σ)
  | [], w => some (0, w)
  | child_np :: rest, w =>
    if !child_np.available then for_each_child_of_node H ncpus tid rest w
    else
      match spacemit_of_counter_init H ncpus child_np tid w with
      | none => none
      | some (ret, w) =>
        if ret ≠ 0 then some (ret, w) else for_each_child_of_node H ncpus tid rest w

/-- Model of `spacemit_of_timer_init(np)`; every path returns `ret`. -/
def spacemit_of_timer_init (H : HwModel σ) (env : init_env) (ncpus : Nat) (np : timer_node)
    (b : Boot σ) : Option (Int × Boot σ) :=
  if !np.iomap_ok then some (-EINVAL, b)
  else
    let ret := np.timer_id.1
    let tid := np.timer_id.2
    if ret ≠ 0 ∨ tid ≥ SPACEMIT_MAX_TIMER then some (ret, b)
    else if np.fastclk_frequency.1 ≠ 0 then some (np.fastclk_frequency.1, b)
    else if np.apb_frequency.1 ≠ 0 then some (np.apb_frequency.1, b)
    else if np.timer_frequency.1 ≠ 0 then some (np.timer_frequency.1, b)
    else
      let fc_freq := np.fastclk_frequency.2
      let apb_freq := np.apb_frequency.2
      let freq := np.timer_frequency.2
      if fc_freq = 0 ∨ apb_freq = 0 then some (-EINVAL, b)
      else
        match spacemit_timer_init H env tid 0 fc_freq apb_freq freq b with
        | none => none
        | some (ret, b) =>
          if ret ≠ 0 then some (ret, b)
          else
            match b.slot with
            | none => some (ret, b)
            | some tm =>
              match for_each_child_of_node H ncpus tid np.children
                { base := b.base, tm := tm, werr_info := b.werr_info,
                  werr_index := b.werr_index, trace := b.trace } with
              | none => none
              | some (ret, w) =>
                some (ret, { base := w.base, slot := some w.tm, werr_info := w.werr_info,
                             werr_index := w.werr_index, trace := w.trace })

end Driver

/-! ## Simulated hardware -/

/-- Registers that read back the value last written. -/
def latchHw : HwModel (Nat → Nat) where
  readl s r := (s r, s)
  writel s r v := Function.update s r v

/-- Latching registers together with write-one-to-clear registers:
`clear_of r = some sr` makes `r` a clear register for the status register
`sr`: writing `v` to `r` clears in `sr` the bits set in `v`, and `r` reads
back 0. -/
def w1cHw (clear_of : Nat → Option Nat) : HwModel (Nat → Nat) where
  readl s r := (if (clear_of r).isSome then 0 else s r, s)
  writel s r v :=
    match clear_of r with
    | none => Function.update s r v
    | some sr => Function.update s sr (s sr &&& not32 v)

/-- The interrupt-clear registers `TMR_ICR(n)` of the three counters and the
status registers `TMR_SR(n)` they clear. -/
def icr_clears (r : Nat) : Option Nat :=
  if r = TMR_ICR 0 then some (TMR_SR 0)
  else if r = TMR_ICR 1 then some (TMR_SR 1)
  else if r = TMR_ICR 2 then some (TMR_SR 2)
  else none

/-- Simulated timer block: every register latches, except that writing the
interrupt-clear register of a counter clears its status bits. -/
def simHw : HwModel (Nat → Nat) := w1cHw icr_clears

/-- The 32-bit content of the latching register `r` in the register file `s`:
the value a read of `r` returns. -/
def reg32 (s : Nat → Nat) (r : Nat) : Nat := u32 (s r)

/-- The simulated match of counter `cid`: the hardware sets bit 0 of its
status register. -/
def raise_match (cid : Nat) (w : Sys (Nat → Nat)) : Sys (Nat → Nat) :=
  { w with base := Function.update w.base (TMR_SR cid) (w.base (TMR_SR cid) ||| 1) }

/-- Effect of `timer_counter_switch_clock(tm, freq)` on a latching register
file (lemma `switch_clock_w1c`): on the accepting path `TMR_CCR` receives the
value computed from the value read, otherwise nothing is written. -/
def switch_regs (tm : spacemit_timer) (freq : Nat) (s : Nat → Nat) : Nat → Nat :=
  if (tm.id = 0 ∨ tm.id = 1 ∨ tm.id = 2) ∧
      (freq = tm.fc_freq ∨ freq = SPACEMIT_TIMER_CLOCK_32KHZ) then
    Function.update s TMR_CCR
      (u32 (u32 (s TMR_CCR) &&& not32 (TMR_CCR_CS tm.id 3) |||
        TMR_CCR_CS tm.id (if freq = tm.fc_freq then 0 else 1)))
  else s

/-- The scenario of a one-shot event on the simulated block: arm counter
`&tm->evt[k]` with `delta`, let the hardware raise its match status, run the
interrupt service routine. -/
def arm_then_interrupt (delta : Nat) (k : Fin 3) (w : Sys (Nat → Nat)) :
    Nat × Sys (Nat → Nat) :=
  timer_interrupt simHw k
    (raise_match (w.tm.evt k).cid (timer_set_next_event simHw delta k w).2)

/-- Hardware that ignores the first `n` writes and latches every later one;
the state is the register file and the number of writes still to ignore. -/
def rejectHw : HwModel ((Nat → Nat) × Nat) where
  readl s r := (s.1 r, s)
  writel s r v := if s.2 = 0 then (Function.update s.1 r v, 0) else (s.1, s.2 - 1)

/-- Hardware whose every read returns the constant `c`. -/
def stuckHw (c : Nat) : HwModel Unit where
  readl _ _ := (c, ())
  writel _ _ _ := ()

/-- Number of events of the trace satisfying `p`. -/
def cnt {σ : Type} (p : Event → Bool) (w : Sys σ) : Nat := w.trace.countP p

/-- The last action of the trace is a read of `reg` whose value passes the
masked comparison of `timer_write_check`. -/
def LastReadOK {σ : Type} (reg mask t_check : Nat) (w : Sys σ) : Prop :=
  ∃ v, w.trace.getLast? = some (Event.rd reg v) ∧ v &&& mask = t_check &&& mask

/-- The list of actions `tr` ends with a read of `reg` whose value `v` passes
the comparison `(v & m) == (c & m)` of `timer_write_check`. -/
def LastOK (reg m c : Nat) (tr : List Event) : Prop :=
  ∃ v, tr.getLast? = some (Event.rd reg v) ∧ v &&& m = c &&& m

/-- The register file with every register 0. -/
def regs0 : Nat → Nat := fun _ => 0

/-- A block in its zero-initialised state with the given id and frequencies. -/
def tm0 (id fc_freq freq : Nat) : spacemit_timer :=
  { id := id, evt := fun i => ⟨freq, 0, i.val, id, 0, false, 0, 0⟩, flag := 0,
    loop_delay_fastclk := 1, fc_freq := fc_freq, freq := freq }

/-- Initial system state over a device state `s`. -/
def sys0 {σ : Type} (s : σ) (t : spacemit_timer) : Sys σ :=
  { base := s, tm := t, werr_info := List.replicate 10 ⟨0, 0, 0, 0⟩, werr_index := 0,
    trace := [] }

/-- The counters of the block have indices in 0..2, pairwise distinct. -/
@[reducible] def counters_wf {σ : Type} (w : Sys σ) : Prop :=
  (∀ j : Fin 3, (w.tm.evt j).cid ≤ 2) ∧
  (∀ i j : Fin 3, i ≠ j → (w.tm.evt i).cid ≠ (w.tm.evt j).cid)

/-- For every counter of the block, `timer_status = 0` if and only if bit
`cid` of `TMR_CER` is set. -/
@[reducible] def cer_agrees (w : Sys (Nat → Nat)) : Prop :=
  ∀ j : Fin 3, ((w.tm.evt j).timer_status = 0 ↔
    (reg32 w.base TMR_CER).testBit (w.tm.evt j).cid = true)

/-- Hardware that is slow to show a written value: the first three reads
return 0, every later read returns 1; the state is the number of reads made
so far. -/
def slowHw : HwModel Nat where
  readl s _ := (if s < 3 then 0 else 1, s + 1)
  writel s _ _ := s

/-- Hardware that shows a written value only after `n` reads: the first `n`
reads return 0, every later read returns 1; the state is the number of reads
made so far. -/
def lateHw (n : Nat) : HwModel Nat where
  readl s _ := (if s < n then 0 else 1, s + 1)
  writel s _ _ := s

/-- The counters in the set `D` have indices in 0..2, pairwise distinct. -/
@[reducible] def counters_wf_on {σ : Type} (D : Fin 3 → Prop) (w : Sys σ) : Prop :=
  (∀ j : Fin 3, D j → (w.tm.evt j).cid ≤ 2) ∧
  (∀ i j : Fin 3, D i → D j → i ≠ j → (w.tm.evt i).cid ≠ (w.tm.evt j).cid)

/-- For every counter in the set `D`, `timer_status = 0` if and only if bit
`cid` of `TMR_CER` is set. -/
@[reducible] def cer_agrees_on (D : Fin 3 → Prop) (w : Sys (Nat → Nat)) : Prop :=
  ∀ j : Fin 3, D j → ((w.tm.evt j).timer_status = 0 ↔
    (reg32 w.base TMR_CER).testBit (w.tm.evt j).cid = true)

/-- Kernel services that all succeed. -/
def env_ok : init_env :=
  { kzalloc_ok := true, clk_null := false, clk_is_err := false, clk_prepare_enable_ret := 0,
    clk_set_rate_ret := 0, resets_err := none }

/-- Bring-up state before any block is registered, every register 0. -/
def boot0 : Boot (Nat → Nat) :=
  { base := regs0, slot := none, werr_info := List.replicate 10 ⟨0, 0, 0, 0⟩, werr_index := 0,
    trace := [] }

/-- A timer node (block 0, 26 MHz fast clock, 52 MHz bus, counters run at the
fast clock) whose children declare the counters listed in `cids`, each as a
broadcast timer. -/
def node_with (cids : List Nat) : timer_node :=
  { iomap_ok := true, timer_id := (0, 0), fastclk_frequency := (0, 26000000),
    apb_frequency := (0, 52000000), timer_frequency := (0, 26000000),
    children := cids.map (fun c =>
      { available := true, counter_id := (0, c), broadcast := true, counter_cpu := (0, 0),
        irq := 0, request_irq_ret := 0 }) }

/-- The device and the registered block that a bring-up leaves; `w` when it
registered no block. -/
def booted {σ : Type} (r : Option (Int × Boot σ)) (w : Sys σ) : Sys σ :=
  match r with
  | some (_, b) =>
    match b.slot with
    | some tm => { base := b.base, tm := tm, werr_info := b.werr_info,
                   werr_index := b.werr_index, trace := b.trace }
    | none => w
  | none => w

/-- The latching block after `spacemit_of_timer_init` on a node that declares
counter 0 only. -/
def one_counter_block : Sys (Nat → Nat) :=
  booted (spacemit_of_timer_init latchHw env_ok 8 (node_with [0]) boot0) (sys0 regs0 tm_zero)

/-- Successive calls of `timer_write_error`, one per entry of `es`, oldest
first. -/
def timer_write_errors {σ : Type} (w : Sys σ) (es : List timer_werror_info) : Sys σ :=
  es.foldl (fun s e => timer_write_error s e.reg e.target e.val e.mask) w

/-! ## Machine-word lemmas -/

theorem u32_lt (x : Nat) : u32 x < 2 ^ 32 := Nat.mod_lt _ (by norm_num)

theorem u32_of_lt {x : Nat} (h : x < 2 ^ 32) : u32 x = x := Nat.mod_eq_of_lt h

@[simp] theorem u32_u32 (x : Nat) : u32 (u32 x) = u32 x := u32_of_lt (u32_lt x)

@[simp] theorem testBit_u32 (x i : Nat) :
    (u32 x).testBit i = (decide (i < 32) && x.testBit i) :=
  Nat.testBit_mod_two_pow x 32 i

@[simp] theorem testBit_not32 (x i : Nat) :
    (not32 x).testBit i = (decide (i < 32) && !x.testBit i) := by
  simp only [not32, Nat.testBit_xor, Nat.testBit_two_pow_sub_one, testBit_u32]
  cases decide (i < 32) <;> cases x.testBit i <;> rfl

theorem not32_lt (x : Nat) : not32 x < 2 ^ 32 := by
  unfold not32
  exact Nat.xor_lt_two_pow (by norm_num) (u32_lt x)

theorem u32_and_of_lt (x m : Nat) (hm : m < 2 ^ 32) : u32 x &&& m = x &&& m := by
  apply Nat.eq_of_testBit_eq
  intro i
  simp only [Nat.testBit_and, testBit_u32]
  by_cases hi : i < 32
  · simp [hi]
  · have : m.testBit i = false :=
      Nat.testBit_lt_two_pow (lt_of_lt_of_le hm (Nat.pow_le_pow_right (by norm_num) (by omega)))
    simp [this]

/-- Clearing a field and or-ing in a value inside the field sets the field. -/
theorem field_set (c m f : Nat) (hf : f &&& m = f) : (c &&& not32 m ||| f) &&& m = f := by
  apply Nat.eq_of_testBit_eq
  intro i
  have h := congrArg (fun x => x.testBit i) hf
  simp only [Nat.testBit_and] at h
  simp only [Nat.testBit_and, Nat.testBit_or, testBit_not32]
  cases hc : c.testBit i <;> cases hm : m.testBit i <;> cases hF : f.testBit i <;>
    cases hd : decide (i < 32) <;> simp_all

/-- Clearing a field and or-ing in a value inside the field keeps the rest. -/
theorem field_keep (c m f : Nat) (hf : f &&& m = f) :
    (c &&& not32 m ||| f) &&& not32 m = c &&& not32 m := by
  apply Nat.eq_of_testBit_eq
  intro i
  have h := congrArg (fun x => x.testBit i) hf
  simp only [Nat.testBit_and] at h
  simp only [Nat.testBit_and, Nat.testBit_or, testBit_not32]
  cases hc : c.testBit i <;> cases hm : m.testBit i <;> cases hF : f.testBit i <;>
    cases hd : decide (i < 32) <;> simp_all

/-- Doing the field update twice is doing it once. -/
theorem field_idem (c n f : Nat) : (c &&& n ||| f) &&& n ||| f = c &&& n ||| f := by
  apply Nat.eq_of_testBit_eq
  intro i
  simp only [Nat.testBit_and, Nat.testBit_or]
  cases c.testBit i <;> cases n.testBit i <;> cases f.testBit i <;> rfl

theorem testBit_zero_raised (x : Nat) : (u32 (x ||| 1)).testBit 0 = true := by
  rw [testBit_u32, Nat.testBit_or, show Nat.testBit 1 0 = true from rfl]
  simp

theorem testBit_zero_cleared (x : Nat) : (u32 (x &&& not32 (u32 0x1))).testBit 0 = false := by
  rw [testBit_u32, Nat.testBit_and, testBit_not32, show (u32 0x1).testBit 0 = true from rfl]
  simp

theorem TMR_CCR_CS_lt (tid x : Nat) : TMR_CCR_CS tid x < 2 ^ 32 := by
  unfold TMR_CCR_CS TMR_CCR_CS_0 TMR_CCR_CS_1 TMR_CCR_CS_2
  split_ifs <;> exact u32_lt _

theorem TMR_CCR_CS_sub (tid v : Nat) (ht : tid = 0 ∨ tid = 1 ∨ tid = 2) (hv : v = 0 ∨ v = 1) :
    TMR_CCR_CS tid v &&& TMR_CCR_CS tid 3 = TMR_CCR_CS tid v := by
  rcases ht with rfl | rfl | rfl <;> rcases hv with rfl | rfl <;> decide

theorem ccr_value_lt (c tid v : Nat) :
    u32 c &&& not32 (TMR_CCR_CS tid 3) ||| TMR_CCR_CS tid v < 2 ^ 32 :=
  Nat.or_lt_two_pow (Nat.and_lt_two_pow _ (not32_lt _)) (TMR_CCR_CS_lt _ _)

/-! ## Traces -/

section General

variable {σ : Type}

theorem countP_map_rd_is_rd (reg : Nat) (vs : List Nat) :
    (vs.map (Event.rd reg)).countP Event.is_rd = vs.length := by
  induction vs with
  | nil => rfl
  | cons v vs ih => simp [List.countP_cons, Event.is_rd, ih]

theorem countP_map_rd_zero (reg : Nat) (vs : List Nat) (p : Event → Bool)
    (hp : ∀ v, p (Event.rd reg v) = false) :
    (vs.map (Event.rd reg)).countP p = 0 := by
  induction vs with
  | nil => rfl
  | cons v vs ih => simp [List.countP_cons, hp, ih]

theorem raw_readl_trace (H : HwModel σ) (w : Sys σ) (reg : Nat) :
    (raw_readl H w reg).2.trace = w.trace ++ [Event.rd reg (raw_readl H w reg).1] := rfl

theorem raw_readl_last (H : HwModel σ) (w : Sys σ) (reg : Nat) :
    (raw_readl H w reg).2.trace.getLast? = some (Event.rd reg (raw_readl H w reg).1) := by
  simp [raw_readl_trace]

/-- The poll loop only reads `reg`: at most `loop` times, and exactly `loop`
times when it ends in the `if (!loop)` block. -/
theorem poll_trace (H : HwModel σ) (reg c m : Nat) (loop t : Nat) (w : Sys σ) :
    ∃ vs : List Nat,
      (timer_write_check_poll H reg c m loop t w).2.trace = w.trace ++ vs.map (Event.rd reg) ∧
      vs.length ≤ loop ∧
      ((timer_write_check_poll H reg c m loop t w).1 ≠ none → vs.length = loop) := by
  induction loop generalizing t w with
  | zero => exact ⟨[], by simp [timer_write_check_poll]⟩
  | succ n ih =>
    unfold timer_write_check_poll
    by_cases hm : t &&& m ≠ c &&& m
    · rw [if_pos hm]
      by_cases hn : n = 0
      · subst hn
        exact ⟨[(raw_readl H w reg).1], by simp [raw_readl_trace]⟩
      · simp only [hn, if_false]
        obtain ⟨vs, h1, h2, h3⟩ := ih (raw_readl H w reg).1 (raw_readl H w reg).2
        refine ⟨(raw_readl H w reg).1 :: vs, ?_, ?_, ?_⟩
        · rw [h1, raw_readl_trace]; simp
        · simp; omega
        · intro h; simp [h3 h]
    · rw [if_neg hm]
      exact ⟨[], by simp⟩

/-- The poll loop changes neither the block nor the failure record. -/
theorem poll_frame (H : HwModel σ) (reg c m : Nat) (loop t : Nat) (w : Sys σ) :
    (timer_write_check_poll H reg c m loop t w).2.tm = w.tm ∧
    (timer_write_check_poll H reg c m loop t w).2.werr_info = w.werr_info ∧
    (timer_write_check_poll H reg c m loop t w).2.werr_index = w.werr_index := by
  induction loop generalizing t w with
  | zero => simp [timer_write_check_poll]
  | succ n ih =>
    unfold timer_write_check_poll
    by_cases hm : t &&& m ≠ c &&& m
    · rw [if_pos hm]
      by_cases hn : n = 0
      · subst hn; simp [raw_readl]
      · simp only [hn, if_false]
        have := ih (raw_readl H w reg).1 (raw_readl H w reg).2
        simpa [raw_readl] using this
    · rw [if_neg hm]; simp

/-- When the poll loop falls out of the `while`, the last action was a read
of `reg` that passed the comparison. -/
theorem poll_last (H : HwModel σ) (reg c m : Nat) (loop t : Nat) (w : Sys σ)
    (hl : loop ≠ 0) (ht : w.trace.getLast? = some (Event.rd reg t))
    (hr : (timer_write_check_poll H reg c m loop t w).1 = none) :
    LastReadOK reg m c (timer_write_check_poll H reg c m loop t w).2 := by
  induction loop generalizing t w with
  | zero => exact absurd rfl hl
  | succ n ih =>
    unfold timer_write_check_poll at hr ⊢
    by_cases hm : t &&& m ≠ c &&& m
    · rw [if_pos hm] at hr ⊢
      by_cases hn : n = 0
      · subst hn; simp at hr
      · simp only [hn, if_false] at hr ⊢
        exact ih _ _ hn (raw_readl_last H w reg) hr
    · rw [if_neg hm]
      exact ⟨t, ht, not_not.mp hm⟩

/-- The trace of one write attempt up to the end of its poll loop. -/
theorem attempt_trace (H : HwModel σ) (sw : Sys σ → Sys σ) (reg val m c : Nat) (cs : Bool)
    (w : Sys σ) (hsw : ∀ s, ∃ tr, (sw s).trace = s.trace ++ tr) :
    ∃ (swtr : List Event) (t0 : Nat) (vs : List Nat),
      (timer_write_check_attempt H sw reg val m c cs w).2.trace =
        w.trace ++ (Event.wr reg (u32 val) :: (swtr ++ Event.rd reg t0 :: vs.map (Event.rd reg))) ∧
      (cs = false → swtr = []) ∧ vs.length ≤ 3 ∧
      ((timer_write_check_attempt H sw reg val m c cs w).1 ≠ none → vs.length = 3) := by
  unfold timer_write_check_attempt
  obtain ⟨vs, h1, h2, h3⟩ := poll_trace H reg c m 3
    (raw_readl H (if cs then sw (raw_writel H w reg val) else raw_writel H w reg val) reg).1
    (raw_readl H (if cs then sw (raw_writel H w reg val) else raw_writel H w reg val) reg).2
  cases cs with
  | false =>
    refine ⟨[], (raw_readl H (raw_writel H w reg val) reg).1, vs, ?_, fun _ => rfl, h2, h3⟩
    simp only [Bool.false_eq_true, ↓reduceIte] at h1 ⊢
    rw [h1, raw_readl_trace]
    simp [raw_writel]
  | true =>
    obtain ⟨tr, htr⟩ := hsw (raw_writel H w reg val)
    refine ⟨tr, (raw_readl H (sw (raw_writel H w reg val)) reg).1, vs, ?_,
      fun h => absurd h (by simp), h2, h3⟩
    simp only [↓reduceIte] at h1 ⊢
    rw [h1, raw_readl_trace, htr]
    simp [raw_writel]

/-- A fall out of the `while` loop leaves a verified read as last action. -/
theorem attempt_last (H : HwModel σ) (sw : Sys σ → Sys σ) (reg val m c : Nat) (cs : Bool)
    (w : Sys σ) (h : (timer_write_check_attempt H sw reg val m c cs w).1 = none) :
    LastReadOK reg m c (timer_write_check_attempt H sw reg val m c cs w).2 :=
  poll_last H reg c m 3 _ _ (by decide) (raw_readl_last H _ reg) h

theorem LastOK_append (reg m c : Nat) (a b : List Event) (h : LastOK reg m c b) :
    LastOK reg m c (a ++ b) := by
  obtain ⟨v, h1, h2⟩ := h
  exact ⟨v, by simp [List.getLast?_append, h1], h2⟩

/-- The trace of an attempt that fell out of the `while` loop. -/
theorem attempt_none (H : HwModel σ) (sw : Sys σ → Sys σ) (reg val m c : Nat) (cs : Bool)
    (w w3 : Sys σ) (hsw : ∀ s, ∃ tr, (sw s).trace = s.trace ++ tr)
    (hp : timer_write_check_attempt H sw reg val m c cs w = (none, w3)) :
    ∃ tr : List Event, w3.trace = w.trace ++ tr ∧ LastOK reg m c tr ∧
      (cs = false → tr.countP Event.is_wr = 1 ∧
        tr.countP (fun e => decide (e = Event.wr reg (u32 val))) = 1 ∧
        tr.countP Event.is_rd ≤ 4 ∧ tr.countP Event.is_werr = 0) := by
  obtain ⟨swtr, t0, vs, h1, h2, h3, -⟩ := attempt_trace H sw reg val m c cs w hsw
  have hl := attempt_last H sw reg val m c cs w
  rw [hp] at h1 hl
  obtain ⟨v, hv1, hv2⟩ := hl rfl
  refine ⟨_, h1, ⟨v, ?_, hv2⟩, ?_⟩
  · simp only [] at hv1 h1
    rw [h1, List.getLast?_append] at hv1
    simpa using hv1
  · intro hcs
    rw [h2 hcs]
    simp [-List.countP_map, List.countP_cons, Event.is_wr, Event.is_rd, Event.is_werr,
      countP_map_rd_is_rd, countP_map_rd_zero]
    omega

/-- The trace of an attempt that ended in the `if (!loop)` block, the failure
entry included. -/
theorem attempt_some (H : HwModel σ) (sw : Sys σ → Sys σ) (reg val m c : Nat) (cs : Bool)
    (w w3 : Sys σ) (t : Nat) (hsw : ∀ s, ∃ tr, (sw s).trace = s.trace ++ tr)
    (hp : timer_write_check_attempt H sw reg val m c cs w = (some t, w3)) :
    ∃ tr : List Event, (timer_write_error w3 reg c t m).trace = w.trace ++ tr ∧
      1 ≤ tr.countP (fun e => decide (e = Event.wr reg (u32 val))) ∧
      1 ≤ tr.countP Event.is_werr ∧
      (cs = false → tr.countP Event.is_wr = 1 ∧
        tr.countP (fun e => decide (e = Event.wr reg (u32 val))) = 1 ∧
        tr.countP Event.is_rd = 4 ∧ tr.countP Event.is_werr = 1) := by
  obtain ⟨swtr, t0, vs, h1, h2, -, h4⟩ := attempt_trace H sw reg val m c cs w hsw
  rw [hp] at h1 h4
  have hv : vs.length = 3 := h4 (by simp)
  refine ⟨Event.wr reg (u32 val) :: (swtr ++ Event.rd reg t0 :: vs.map (Event.rd reg))
    ++ [Event.werr reg c t m], ?_, ?_, ?_, ?_⟩
  · simp only [] at h1
    simp [timer_write_error, h1]
  · simp [-List.countP_map, List.countP_cons, List.countP_append]
  · simp [-List.countP_map, List.countP_cons, List.countP_append, Event.is_werr]
    omega
  · intro hcs
    rw [h2 hcs]
    simp [-List.countP_map, List.countP_cons, List.countP_append, Event.is_wr, Event.is_rd,
      Event.is_werr, countP_map_rd_is_rd, countP_map_rd_zero, hv]

/-- Exit analysis of the retry loop of `timer_write_check`, entered with
`retry = n + 1`. -/
theorem from_trace (H : HwModel σ) (sw : Sys σ → Sys σ) (reg val m c : Nat) (cs : Bool)
    (hsw : ∀ s, ∃ tr, (sw s).trace = s.trace ++ tr) (n : Nat) (w : Sys σ) :
    ∃ tr : List Event,
      (timer_write_check_from H sw reg val m c cs (n + 1) w).trace = w.trace ++ tr ∧
      (LastOK reg m c tr ∨
        (n + 1 ≤ tr.countP (fun e => decide (e = Event.wr reg (u32 val))) ∧
          n + 1 ≤ tr.countP Event.is_werr)) ∧
      (cs = false →
        tr.countP Event.is_wr ≤ n + 1 ∧
        tr.countP Event.is_wr = tr.countP (fun e => decide (e = Event.wr reg (u32 val))) ∧
        tr.countP Event.is_rd ≤ 4 * (n + 1) ∧
        tr.countP Event.is_werr ≤ n + 1 ∧
        (LastOK reg m c tr ∨
          (tr.countP Event.is_wr = n + 1 ∧ tr.countP Event.is_werr = n + 1 ∧
            tr.countP Event.is_rd = 4 * (n + 1)))) := by
  induction n generalizing w with
  | zero =>
    rw [timer_write_check_from]
    rcases hp : timer_write_check_attempt H sw reg val m c cs w with ⟨_ | t, w3⟩
    · obtain ⟨tr, h1, h2, h3⟩ := attempt_none H sw reg val m c cs w w3 hsw hp
      refine ⟨tr, h1, Or.inl h2, fun hcs => ?_⟩
      obtain ⟨a, b, c', d⟩ := h3 hcs
      exact ⟨by omega, by omega, by omega, by omega, Or.inl h2⟩
    · obtain ⟨tr, h1, h2, h3, h4⟩ := attempt_some H sw reg val m c cs w w3 t hsw hp
      refine ⟨tr, by simpa using h1, Or.inr ⟨by omega, by omega⟩, fun hcs => ?_⟩
      obtain ⟨a, b, c', d⟩ := h4 hcs
      exact ⟨by omega, by omega, by omega, by omega, Or.inr ⟨by omega, by omega, by omega⟩⟩
  | succ n ih =>
    rw [timer_write_check_from]
    rcases hp : timer_write_check_attempt H sw reg val m c cs w with ⟨_ | t, w3⟩
    · obtain ⟨tr, h1, h2, h3⟩ := attempt_none H sw reg val m c cs w w3 hsw hp
      refine ⟨tr, h1, Or.inl h2, fun hcs => ?_⟩
      obtain ⟨a, b, c', d⟩ := h3 hcs
      exact ⟨by omega, by omega, by omega, by omega, Or.inl h2⟩
    · obtain ⟨tr, h1, h2, h3, h4⟩ := attempt_some H sw reg val m c cs w w3 t hsw hp
      obtain ⟨tr', g1, g2, g3⟩ := ih (timer_write_error w3 reg c t m)
      simp only [if_pos (Nat.succ_ne_zero n)]
      refine ⟨tr ++ tr', ?_, ?_, fun hcs => ?_⟩
      · rw [g1, h1, List.append_assoc]
      · rcases g2 with g2 | ⟨g2, g2'⟩
        · exact Or.inl (LastOK_append _ _ _ _ _ g2)
        · right
          rw [List.countP_append, List.countP_append]
          constructor <;> omega
      · obtain ⟨a, b, c', d⟩ := h4 hcs
        obtain ⟨k1, k2, k3, k4, k5⟩ := g3 hcs
        simp only [List.countP_append]
        refine ⟨by omega, by omega, by omega, by omega, ?_⟩
        rcases k5 with k5 | ⟨k5, k5', k5''⟩
        · exact Or.inl (LastOK_append _ _ _ _ _ k5)
        · right; omega

/-- The poll loop appends no handler call. -/
theorem poll_cnt_handler (H : HwModel σ) (reg c m : Nat) (loop t : Nat) (w : Sys σ) :
    cnt Event.is_handler (timer_write_check_poll H reg c m loop t w).2 =
      cnt Event.is_handler w := by
  obtain ⟨vs, h1, -, -⟩ := poll_trace H reg c m loop t w
  unfold cnt
  rw [h1, List.countP_append, countP_map_rd_zero reg vs _ (fun _ => rfl)]
  rfl

theorem attempt_cnt_handler (H : HwModel σ) (sw : Sys σ → Sys σ) (reg val m c : Nat)
    (cs : Bool) (w : Sys σ)
    (hsw : ∀ s, cnt Event.is_handler (sw s) = cnt Event.is_handler s) :
    cnt Event.is_handler (timer_write_check_attempt H sw reg val m c cs w).2 =
      cnt Event.is_handler w := by
  unfold timer_write_check_attempt
  rw [poll_cnt_handler]
  cases cs with
  | false => simp [cnt, raw_readl, raw_writel, List.countP_append, Event.is_handler]
  | true =>
    have := hsw (raw_writel H w reg val)
    simp only [cnt] at this
    simp [cnt, raw_readl, List.countP_append, Event.is_handler, this]
    simp [raw_writel, List.countP_append, Event.is_handler]

theorem attempt_tm (H : HwModel σ) (sw : Sys σ → Sys σ) (reg val m c : Nat)
    (cs : Bool) (w : Sys σ) (hsw : ∀ s, (sw s).tm = s.tm) :
    (timer_write_check_attempt H sw reg val m c cs w).2.tm = w.tm := by
  unfold timer_write_check_attempt
  rw [(poll_frame H reg c m 3 _ _).1]
  cases cs with
  | false => simp [raw_readl, raw_writel]
  | true => simp [raw_readl, hsw, raw_writel]

/-- The retry loop appends no handler call and leaves the block alone. -/
theorem from_frame (H : HwModel σ) (sw : Sys σ → Sys σ) (reg val m c : Nat) (cs : Bool)
    (hsw : ∀ s, cnt Event.is_handler (sw s) = cnt Event.is_handler s)
    (hsw' : ∀ s, (sw s).tm = s.tm) (n : Nat) (w : Sys σ) :
    cnt Event.is_handler (timer_write_check_from H sw reg val m c cs n w) =
      cnt Event.is_handler w ∧
    (timer_write_check_from H sw reg val m c cs n w).tm = w.tm := by
  induction n generalizing w with
  | zero => simp [timer_write_check_from]
  | succ n ih =>
    rw [timer_write_check_from]
    have h1 := attempt_cnt_handler H sw reg val m c cs w hsw
    have h2 := attempt_tm H sw reg val m c cs w hsw'
    rcases hp : timer_write_check_attempt H sw reg val m c cs w with ⟨_ | t, w3⟩
    · rw [hp] at h1 h2
      exact ⟨h1, h2⟩
    · rw [hp] at h1 h2
      simp only [] at h1 h2 ⊢
      have h3 : cnt Event.is_handler (timer_write_error w3 reg c t m) =
          cnt Event.is_handler w := by
        rw [← h1]
        simp [cnt, timer_write_error, List.countP_append, Event.is_handler]
      have h4 : (timer_write_error w3 reg c t m).tm = w.tm := by
        rw [← h2]; rfl
      by_cases hn : n = 0
      · simp only [hn, ne_eq, not_true_eq_false, if_false]
        exact ⟨h3, h4⟩
      · simp only [ne_eq, hn, not_false_eq_true, if_true]
        obtain ⟨i1, i2⟩ := ih (timer_write_error w3 reg c t m)
        exact ⟨i1.trans h3, i2.trans h4⟩

/-- An attempt whose first read-back passes ends the call. -/
theorem from_first (H : HwModel σ) (sw : Sys σ → Sys σ) (reg val m c : Nat) (cs : Bool)
    (n : Nat) (w : Sys σ)
    (h : (raw_readl H (if cs then sw (raw_writel H w reg val) else raw_writel H w reg val)
      reg).1 &&& m = c &&& m) :
    timer_write_check_from H sw reg val m c cs (n + 1) w =
      (raw_readl H (if cs then sw (raw_writel H w reg val) else raw_writel H w reg val)
        reg).2 := by
  rw [timer_write_check_from]
  simp [timer_write_check_attempt, timer_write_check_poll, h]

theorem core_trace (H : HwModel σ) (sw : Sys σ → Sys σ) (reg val mask : Nat)
    (clr cs : Bool) (hsw : ∀ s, ∃ tr, (sw s).trace = s.trace ++ tr) (w : Sys σ) :
    ∃ tr, (timer_write_check_core H sw reg val mask clr cs w).trace = w.trace ++ tr := by
  obtain ⟨tr, h, -⟩ := from_trace H sw reg (u32 val) (u32 mask)
    (if clr then lnot (u32 val) else u32 val) cs hsw 99 w
  exact ⟨tr, h⟩

/-- The accepting path of `timer_counter_switch_clock`. -/
theorem switch_clock_ok (H : HwModel σ) (freq : Nat) (w : Sys σ)
    (h1 : w.tm.id = 0 ∨ w.tm.id = 1 ∨ w.tm.id = 2)
    (h2 : freq = w.tm.fc_freq ∨ freq = SPACEMIT_TIMER_CLOCK_32KHZ) :
    timer_counter_switch_clock H freq w =
      (0, timer_write_check_core H (fun s => s) TMR_CCR
        ((raw_readl H w TMR_CCR).1 &&& not32 (TMR_CCR_CS w.tm.id 3) |||
          TMR_CCR_CS w.tm.id (if freq = w.tm.fc_freq then 0 else 1))
        (TMR_CCR_CS w.tm.id 3) false false (raw_readl H w TMR_CCR).2) := by
  unfold timer_counter_switch_clock
  simp only [if_pos h1, if_pos h2]

/-- The rejecting paths of `timer_counter_switch_clock`. -/
theorem switch_clock_bad (H : HwModel σ) (freq : Nat) (w : Sys σ)
    (h : ¬ ((w.tm.id = 0 ∨ w.tm.id = 1 ∨ w.tm.id = 2) ∧
      (freq = w.tm.fc_freq ∨ freq = SPACEMIT_TIMER_CLOCK_32KHZ))) :
    timer_counter_switch_clock H freq w = (-EINVAL, (raw_readl H w TMR_CCR).2) := by
  unfold timer_counter_switch_clock
  by_cases h1 : w.tm.id = 0 ∨ w.tm.id = 1 ∨ w.tm.id = 2
  · have h2 : ¬ (freq = w.tm.fc_freq ∨ freq = SPACEMIT_TIMER_CLOCK_32KHZ) :=
      fun h2 => h ⟨h1, h2⟩
    simp only [if_pos h1, if_neg h2]
  · simp only [if_neg h1]

theorem switch_clock_trace (H : HwModel σ) (freq : Nat) (w : Sys σ) :
    ∃ tr, (timer_counter_switch_clock H freq w).2.trace = w.trace ++ tr := by
  by_cases h : (w.tm.id = 0 ∨ w.tm.id = 1 ∨ w.tm.id = 2) ∧
      (freq = w.tm.fc_freq ∨ freq = SPACEMIT_TIMER_CLOCK_32KHZ)
  · rw [switch_clock_ok H freq w h.1 h.2]
    obtain ⟨tr, h⟩ := core_trace H (fun s => s) TMR_CCR
      ((raw_readl H w TMR_CCR).1 &&& not32 (TMR_CCR_CS w.tm.id 3) |||
        TMR_CCR_CS w.tm.id (if freq = w.tm.fc_freq then 0 else 1))
      (TMR_CCR_CS w.tm.id 3) false false
      (fun s => ⟨[], by simp⟩) (raw_readl H w TMR_CCR).2
    refine ⟨Event.rd TMR_CCR (raw_readl H w TMR_CCR).1 :: tr, ?_⟩
    simp only []
    rw [h, raw_readl_trace]; simp
  · rw [switch_clock_bad H freq w h]
    exact ⟨[Event.rd TMR_CCR (raw_readl H w TMR_CCR).1], raw_readl_trace H w TMR_CCR⟩

/-- The clock switch appends no handler call and leaves the block alone. -/
theorem switch_clock_frame (H : HwModel σ) (freq : Nat) (w : Sys σ) :
    cnt Event.is_handler (timer_counter_switch_clock H freq w).2 = cnt Event.is_handler w ∧
    (timer_counter_switch_clock H freq w).2.tm = w.tm := by
  have hr : cnt Event.is_handler (raw_readl H w TMR_CCR).2 = cnt Event.is_handler w := by
    simp [cnt, raw_readl, List.countP_append, Event.is_handler]
  by_cases h : (w.tm.id = 0 ∨ w.tm.id = 1 ∨ w.tm.id = 2) ∧
      (freq = w.tm.fc_freq ∨ freq = SPACEMIT_TIMER_CLOCK_32KHZ)
  · rw [switch_clock_ok H freq w h.1 h.2]
    obtain ⟨a, b⟩ := from_frame H (fun s => s) TMR_CCR
      (u32 ((raw_readl H w TMR_CCR).1 &&& not32 (TMR_CCR_CS w.tm.id 3) |||
        TMR_CCR_CS w.tm.id (if freq = w.tm.fc_freq then 0 else 1)))
      (u32 (TMR_CCR_CS w.tm.id 3))
      (u32 ((raw_readl H w TMR_CCR).1 &&& not32 (TMR_CCR_CS w.tm.id 3) |||
        TMR_CCR_CS w.tm.id (if freq = w.tm.fc_freq then 0 else 1))) false
      (fun _ => rfl) (fun _ => rfl) 100 (raw_readl H w TMR_CCR).2
    exact ⟨a.trans hr, b⟩
  · rw [switch_clock_bad H freq w h]
    exact ⟨hr, rfl⟩

/-- The function `timer_write_check` appends no handler call and leaves the block alone. -/
theorem write_check_frame (H : HwModel σ) (reg val mask : Nat) (clr cs : Bool) (w : Sys σ) :
    cnt Event.is_handler (timer_write_check H reg val mask clr cs w) =
      cnt Event.is_handler w ∧
    (timer_write_check H reg val mask clr cs w).tm = w.tm :=
  from_frame H _ reg _ _ _ cs (fun s => (switch_clock_frame H s.tm.fc_freq s).1)
    (fun s => (switch_clock_frame H s.tm.fc_freq s).2) 100 w

theorem write_check_trace (H : HwModel σ) (reg val mask : Nat) (clr cs : Bool) (w : Sys σ) :
    ∃ tr, (timer_write_check H reg val mask clr cs w).trace = w.trace ++ tr :=
  core_trace H _ reg val mask clr cs (fun s => switch_clock_trace H s.tm.fc_freq s) w

/-- Against reads that never pass the comparison the poll loop ends in the
`if (!loop)` block. -/
theorem poll_stuck (H : HwModel σ) (reg c m : Nat)
    (hns : ∀ s, u32 (H.readl s reg).1 &&& m ≠ c &&& m) (loop t : Nat) (w : Sys σ)
    (hl : loop ≠ 0) (ht : t &&& m ≠ c &&& m) :
    (timer_write_check_poll H reg c m loop t w).1 ≠ none := by
  induction loop generalizing t w with
  | zero => exact absurd rfl hl
  | succ n ih =>
    unfold timer_write_check_poll
    rw [if_pos ht]
    by_cases hn : n = 0
    · subst hn; simp
    · simp only [hn, if_false]
      exact ih _ _ hn (hns _)

theorem attempt_stuck (H : HwModel σ) (sw : Sys σ → Sys σ) (reg val m c : Nat) (cs : Bool)
    (hns : ∀ s, u32 (H.readl s reg).1 &&& m ≠ c &&& m) (w : Sys σ) :
    (timer_write_check_attempt H sw reg val m c cs w).1 ≠ none :=
  poll_stuck H reg c m hns 3 _ _ (by decide) (hns _)

/-- Against reads that never pass the comparison every one of the `n + 1`
attempts is made and fails. -/
theorem from_stuck (H : HwModel σ) (sw : Sys σ → Sys σ) (reg val m c : Nat)
    (hns : ∀ s, u32 (H.readl s reg).1 &&& m ≠ c &&& m)
    (hsw : ∀ s, ∃ tr, (sw s).trace = s.trace ++ tr) (n : Nat) (w : Sys σ) :
    ∃ tr : List Event,
      (timer_write_check_from H sw reg val m c false (n + 1) w).trace = w.trace ++ tr ∧
      tr.countP Event.is_wr = n + 1 ∧ tr.countP Event.is_werr = n + 1 ∧
      tr.countP Event.is_rd = 4 * (n + 1) := by
  induction n generalizing w with
  | zero =>
    rw [timer_write_check_from]
    have hs := attempt_stuck H sw reg val m c false hns w
    rcases hp : timer_write_check_attempt H sw reg val m c false w with ⟨_ | t, w3⟩
    · rw [hp] at hs; exact absurd rfl hs
    · obtain ⟨tr, h1, -, -, h4⟩ := attempt_some H sw reg val m c false w w3 t hsw hp
      obtain ⟨a, -, b, d⟩ := h4 rfl
      exact ⟨tr, by simpa using h1, a, d, b⟩
  | succ n ih =>
    rw [timer_write_check_from]
    have hs := attempt_stuck H sw reg val m c false hns w
    rcases hp : timer_write_check_attempt H sw reg val m c false w with ⟨_ | t, w3⟩
    · rw [hp] at hs; exact absurd rfl hs
    · obtain ⟨tr, h1, -, -, h4⟩ := attempt_some H sw reg val m c false w w3 t hsw hp
      obtain ⟨a, -, b, d⟩ := h4 rfl
      obtain ⟨tr', g1, g2, g3, g4⟩ := ih (timer_write_error w3 reg c t m)
      simp only [if_pos (Nat.succ_ne_zero n)]
      refine ⟨tr ++ tr', by rw [g1, h1, List.append_assoc], ?_, ?_, ?_⟩ <;>
        simp only [List.countP_append] <;> omega

end General

/-! ## Latching and write-one-to-clear hardware -/

section W1C

variable (d : Nat → Option Nat)

theorem latchHw_eq : latchHw = w1cHw (fun _ => none) := rfl

theorem w1c_readl (w : Sys (Nat → Nat)) (reg : Nat) :
    raw_readl (w1cHw d) w reg =
      (u32 (if (d reg).isSome then 0 else w.base reg),
        { w with trace := w.trace ++
            [Event.rd reg (u32 (if (d reg).isSome then 0 else w.base reg))] }) := rfl

theorem w1c_readl_latch (w : Sys (Nat → Nat)) (reg : Nat) (hd : d reg = none) :
    raw_readl (w1cHw d) w reg =
      (reg32 w.base reg, { w with trace := w.trace ++ [Event.rd reg (reg32 w.base reg)] }) := by
  rw [w1c_readl]; simp [hd, reg32]

theorem w1c_writel_latch (w : Sys (Nat → Nat)) (reg val : Nat) (hd : d reg = none) :
    raw_writel (w1cHw d) w reg val =
      { w with base := Function.update w.base reg (u32 val),
               trace := w.trace ++ [Event.wr reg (u32 val)] } := by
  simp [raw_writel, w1cHw, hd]

theorem w1c_writel_clear (w : Sys (Nat → Nat)) (reg val sr : Nat) (hd : d reg = some sr) :
    raw_writel (w1cHw d) w reg val =
      { w with base := Function.update w.base sr (w.base sr &&& not32 (u32 val)),
               trace := w.trace ++ [Event.wr reg (u32 val)] } := by
  simp [raw_writel, w1cHw, hd]

/-- On a latching register a write without inverted check is verified by the
first read-back. -/
theorem core_latch (sw : Sys (Nat → Nat) → Sys (Nat → Nat)) (reg val mask : Nat)
    (w : Sys (Nat → Nat)) (hd : d reg = none) :
    timer_write_check_core (w1cHw d) sw reg val mask false false w =
      { w with base := Function.update w.base reg (u32 val),
               trace := w.trace ++ [Event.wr reg (u32 val), Event.rd reg (u32 val)] } := by
  unfold timer_write_check_core
  simp only [Bool.false_eq_true, if_false]
  rw [from_first]
  · simp [w1c_writel_latch d _ _ _ hd, w1c_readl_latch d _ _ hd, reg32]
  · simp [w1c_writel_latch d _ _ _ hd, w1c_readl_latch d _ _ hd, reg32]

/-- With `clk_switch` set, on a latching register that the clock switch does
not touch, the first read-back still verifies the write. -/
theorem core_latch_sw (sw : Sys (Nat → Nat) → Sys (Nat → Nat)) (reg val mask : Nat)
    (w : Sys (Nat → Nat)) (hd : d reg = none) (hsw : ∀ s, (sw s).base reg = s.base reg) :
    timer_write_check_core (w1cHw d) sw reg val mask false true w =
      (raw_readl (w1cHw d) (sw (raw_writel (w1cHw d) w reg (u32 val))) reg).2 := by
  unfold timer_write_check_core
  simp only [Bool.false_eq_true, if_false]
  rw [from_first]
  · simp
  · simp [w1c_readl_latch d _ _ hd, reg32, hsw, w1c_writel_latch d _ _ _ hd]

/-- On a write-one-to-clear register an inverted check of a non-zero value
is verified by the first read-back, which returns 0. -/
theorem core_clear (sw : Sys (Nat → Nat) → Sys (Nat → Nat)) (reg val mask sr : Nat)
    (w : Sys (Nat → Nat)) (hd : d reg = some sr) (hv : u32 val ≠ 0) :
    timer_write_check_core (w1cHw d) sw reg val mask true false w =
      { w with base := Function.update w.base sr (w.base sr &&& not32 (u32 val)),
               trace := w.trace ++ [Event.wr reg (u32 val), Event.rd reg 0] } := by
  unfold timer_write_check_core
  simp only [if_true]
  rw [from_first]
  · simp [w1c_writel_clear d _ _ _ _ hd, w1c_readl, hd, u32]
  · have hv' : lnot (u32 val) = 0 := by simp [lnot, hv]
    rw [hv']
    simp [w1c_writel_clear d _ _ _ _ hd, w1c_readl, hd, u32]

theorem switch_regs_ne (tm : spacemit_timer) (freq : Nat) (s : Nat → Nat) (r : Nat)
    (hr : r ≠ TMR_CCR) : switch_regs tm freq s r = s r := by
  unfold switch_regs
  by_cases h : (tm.id = 0 ∨ tm.id = 1 ∨ tm.id = 2) ∧
      (freq = tm.fc_freq ∨ freq = SPACEMIT_TIMER_CLOCK_32KHZ)
  · rw [if_pos h]; exact Function.update_noteq hr _ _
  · rw [if_neg h]

/-- The clock switch on hardware whose `TMR_CCR` latches. -/
theorem switch_clock_w1c (freq : Nat) (w : Sys (Nat → Nat)) (hd : d TMR_CCR = none) :
    (timer_counter_switch_clock (w1cHw d) freq w).2.base = switch_regs w.tm freq w.base ∧
    (timer_counter_switch_clock (w1cHw d) freq w).2.werr_info = w.werr_info ∧
    (timer_counter_switch_clock (w1cHw d) freq w).2.werr_index = w.werr_index := by
  by_cases h : (w.tm.id = 0 ∨ w.tm.id = 1 ∨ w.tm.id = 2) ∧
      (freq = w.tm.fc_freq ∨ freq = SPACEMIT_TIMER_CLOCK_32KHZ)
  · rw [switch_clock_ok _ freq w h.1 h.2, core_latch d _ _ _ _ _ hd]
    simp [switch_regs, h, w1c_readl_latch d _ _ hd, reg32]
  · rw [switch_clock_bad _ freq w h]
    simp [switch_regs, h, w1c_readl_latch d _ _ hd]

/-- The return value of the clock switch, for every hardware. -/
theorem switch_clock_ret {σ : Type} (H : HwModel σ) (freq : Nat) (w : Sys σ) :
    (timer_counter_switch_clock H freq w).1 =
      if (w.tm.id = 0 ∨ w.tm.id = 1 ∨ w.tm.id = 2) ∧
        (freq = w.tm.fc_freq ∨ freq = SPACEMIT_TIMER_CLOCK_32KHZ) then 0 else -EINVAL := by
  by_cases h : (w.tm.id = 0 ∨ w.tm.id = 1 ∨ w.tm.id = 2) ∧
      (freq = w.tm.fc_freq ∨ freq = SPACEMIT_TIMER_CLOCK_32KHZ)
  · rw [switch_clock_ok _ freq w h.1 h.2, if_pos h]
  · rw [switch_clock_bad _ freq w h, if_neg h]

/-- The function `timer_write_check` without inverted check on a latching register other
than `TMR_CCR`. -/
theorem write_check_w1c (reg val mask : Nat) (cs : Bool) (w : Sys (Nat → Nat))
    (hd : d reg = none) (hc : d TMR_CCR = none) (hr : reg ≠ TMR_CCR) :
    (timer_write_check (w1cHw d) reg val mask false cs w).base =
      (if cs then switch_regs w.tm w.tm.fc_freq (Function.update w.base reg (u32 val))
        else Function.update w.base reg (u32 val)) ∧
    (timer_write_check (w1cHw d) reg val mask false cs w).werr_info = w.werr_info ∧
    (timer_write_check (w1cHw d) reg val mask false cs w).werr_index = w.werr_index := by
  cases cs with
  | false =>
    unfold timer_write_check
    rw [core_latch d _ _ _ _ _ hd]
    simp
  | true =>
    unfold timer_write_check
    rw [core_latch_sw d _ _ _ _ _ hd]
    · simp only [w1c_readl_latch d _ _ hd, w1c_writel_latch d _ _ _ hd, u32_u32, if_true]
      have h := switch_clock_w1c d w.tm.fc_freq
        { w with base := Function.update w.base reg (u32 val),
                 trace := w.trace ++ [Event.wr reg (u32 val)] } hc
      exact h
    · intro s
      rw [(switch_clock_w1c d s.tm.fc_freq s hc).1]
      exact switch_regs_ne _ _ _ _ hr

/-- The function `timer_counter_enable` on hardware whose `TMR_CER` and `TMR_CCR` latch. -/
theorem enable_w1c (k : Fin 3) (w : Sys (Nat → Nat)) (he : d TMR_CER = none)
    (hc : d TMR_CCR = none) :
    (timer_counter_enable (w1cHw d) k w).base =
      Function.update
        (if (w.tm.evt k).freq ≠ w.tm.fc_freq then switch_regs w.tm (w.tm.evt k).freq w.base
          else w.base)
        TMR_CER
        (u32 (reg32 w.base TMR_CER ||| TMR_CER_COUNTER (w.tm.evt k).cid)) ∧
    (timer_counter_enable (w1cHw d) k w).tm =
      { w.tm with evt := Function.update w.tm.evt k { w.tm.evt k with timer_status := 0 } } ∧
    (timer_counter_enable (w1cHw d) k w).werr_info = w.werr_info ∧
    (timer_counter_enable (w1cHw d) k w).werr_index = w.werr_index := by
  have hne : TMR_CER ≠ TMR_CCR := by decide
  unfold timer_counter_enable
  by_cases hf : (w.tm.evt k).freq ≠ w.tm.fc_freq
  · simp only [if_pos hf]
    have hs := switch_clock_w1c d (w.tm.evt k).freq w hc
    have ht := (switch_clock_frame (w1cHw d) (w.tm.evt k).freq w).2
    simp only [w1c_readl_latch d _ _ he, set_evt, write_check_w1c d _ _ _ _ _ he hc hne,
      (write_check_frame _ _ _ _ _ _ _).2, hs, ht, Bool.false_eq_true, if_false, reg32,
      switch_regs_ne _ _ _ _ hne, and_self]
  · simp only [if_neg hf]
    simp only [w1c_readl_latch d _ _ he, set_evt, write_check_w1c d _ _ _ _ _ he hc hne,
      (write_check_frame _ _ _ _ _ _ _).2, Bool.false_eq_true, if_false, reg32, and_self]

/-- The function `timer_counter_disable` on hardware whose `TMR_CER` and `TMR_CCR` latch. -/
theorem disable_w1c (k : Fin 3) (w : Sys (Nat → Nat)) (he : d TMR_CER = none)
    (hc : d TMR_CCR = none) :
    (timer_counter_disable (w1cHw d) k w).base =
      (if (w.tm.evt k).freq ≠ w.tm.fc_freq then
        switch_regs w.tm w.tm.fc_freq
          (Function.update w.base TMR_CER
            (u32 (reg32 w.base TMR_CER &&& not32 (TMR_CER_COUNTER (w.tm.evt k).cid))))
      else
        Function.update w.base TMR_CER
          (u32 (reg32 w.base TMR_CER &&& not32 (TMR_CER_COUNTER (w.tm.evt k).cid)))) ∧
    (timer_counter_disable (w1cHw d) k w).tm =
      { w.tm with evt := Function.update w.tm.evt k { w.tm.evt k with timer_status := 1 } } ∧
    (timer_counter_disable (w1cHw d) k w).werr_info = w.werr_info ∧
    (timer_counter_disable (w1cHw d) k w).werr_index = w.werr_index := by
  have hne : TMR_CER ≠ TMR_CCR := by decide
  unfold timer_counter_disable
  by_cases hf : (w.tm.evt k).freq ≠ w.tm.fc_freq
  · simp only [w1c_readl_latch d _ _ he, set_evt, write_check_w1c d _ _ _ _ _ he hc hne,
      (write_check_frame _ _ _ _ _ _ _).2, hf, decide_True, if_true, reg32, and_self,
      not_false_eq_true, ne_eq]
  · simp only [w1c_readl_latch d _ _ he, set_evt, write_check_w1c d _ _ _ _ _ he hc hne,
      (write_check_frame _ _ _ _ _ _ _).2, hf, decide_False, Bool.false_eq_true, if_false,
      reg32, and_self]

end W1C

/-! ## The clock switch (claims C7, C8, C9) -/

/-- The content of `TMR_CCR` after an accepted clock switch on latching
hardware. -/
theorem switch_regs_ccr (tm : spacemit_timer) (freq : Nat) (s : Nat → Nat)
    (h1 : tm.id = 0 ∨ tm.id = 1 ∨ tm.id = 2)
    (h2 : freq = tm.fc_freq ∨ freq = SPACEMIT_TIMER_CLOCK_32KHZ) :
    reg32 (switch_regs tm freq s) TMR_CCR =
      reg32 s TMR_CCR &&& not32 (TMR_CCR_CS tm.id 3) |||
        TMR_CCR_CS tm.id (if freq = tm.fc_freq then 0 else 1) := by
  unfold switch_regs reg32
  rw [if_pos ⟨h1, h2⟩, Function.update_same, u32_u32]
  exact u32_of_lt (ccr_value_lt _ _ _)

/-- C7: `timer_counter_switch_clock` returns `-EINVAL` when the frequency is
neither `fc_freq` nor 32768 or the selector id is outside 0..2, and then the
only action is its read of `TMR_CCR` (no register is written); for every
other input it returns 0, and on latching hardware the selected clock-select
field of `TMR_CCR` then holds 0 when the frequency is `fc_freq` and 1 when it
is 32768 and not `fc_freq`. -/
theorem timer_counter_switch_clock_contract {σ : Type} (H : HwModel σ) (freq : Nat)
    (w : Sys σ) (wl : Sys (Nat → Nat)) :
    (¬ ((w.tm.id = 0 ∨ w.tm.id = 1 ∨ w.tm.id = 2) ∧
        (freq = w.tm.fc_freq ∨ freq = SPACEMIT_TIMER_CLOCK_32KHZ)) →
      (timer_counter_switch_clock H freq w).1 = -EINVAL ∧
      (timer_counter_switch_clock H freq w).2.base = (H.readl w.base TMR_CCR).2 ∧
      (timer_counter_switch_clock H freq w).2.trace =
        w.trace ++ [Event.rd TMR_CCR (u32 (H.readl w.base TMR_CCR).1)]) ∧
    ((w.tm.id = 0 ∨ w.tm.id = 1 ∨ w.tm.id = 2) ∧
        (freq = w.tm.fc_freq ∨ freq = SPACEMIT_TIMER_CLOCK_32KHZ) →
      (timer_counter_switch_clock H freq w).1 = 0) ∧
    ((wl.tm.id = 0 ∨ wl.tm.id = 1 ∨ wl.tm.id = 2) →
      (freq = wl.tm.fc_freq →
        reg32 (timer_counter_switch_clock latchHw freq wl).2.base TMR_CCR &&&
          TMR_CCR_CS wl.tm.id 3 = TMR_CCR_CS wl.tm.id 0) ∧
      (freq = SPACEMIT_TIMER_CLOCK_32KHZ → freq ≠ wl.tm.fc_freq →
        reg32 (timer_counter_switch_clock latchHw freq wl).2.base TMR_CCR &&&
          TMR_CCR_CS wl.tm.id 3 = TMR_CCR_CS wl.tm.id 1)) := by
  refine ⟨fun h => ?_, fun h => ?_, fun h1 => ⟨fun h2 => ?_, fun h2 h3 => ?_⟩⟩
  · rw [switch_clock_bad H freq w h]
    exact ⟨rfl, rfl, rfl⟩
  · rw [switch_clock_ok H freq w h.1 h.2]
  · rw [latchHw_eq, (switch_clock_w1c _ freq wl rfl).1,
      switch_regs_ccr _ _ _ h1 (Or.inl h2), if_pos h2]
    exact field_set _ _ _ (TMR_CCR_CS_sub _ _ h1 (Or.inl rfl))
  · rw [latchHw_eq, (switch_clock_w1c _ freq wl rfl).1,
      switch_regs_ccr _ _ _ h1 (Or.inr h2), if_neg h3]
    exact field_set _ _ _ (TMR_CCR_CS_sub _ _ h1 (Or.inr rfl))

/-- C7 at a block with id 1 and fast clock 26 MHz: 12345 Hz is rejected,
32768 Hz selects the low-power clock in field 1. -/
theorem timer_counter_switch_clock_contract_witness :
    (timer_counter_switch_clock latchHw 12345
        (sys0 regs0 (tm0 1 26000000 32768))).1 = -EINVAL ∧
    reg32 (timer_counter_switch_clock latchHw 32768
        (sys0 regs0 (tm0 1 26000000 32768))).2.base TMR_CCR &&&
      TMR_CCR_CS 1 3 = TMR_CCR_CS 1 1 :=
  ⟨((timer_counter_switch_clock_contract latchHw 12345
      (sys0 regs0 (tm0 1 26000000 32768))
      (sys0 regs0 (tm0 1 26000000 32768))).1 (by decide)).1,
   ((timer_counter_switch_clock_contract latchHw 32768
      (sys0 regs0 (tm0 1 26000000 32768))
      (sys0 regs0 (tm0 1 26000000 32768))).2.2 (by decide)).2 (by decide) (by decide)⟩

theorem switch_clock_accepts {σ : Type} (H : HwModel σ) (freq : Nat) (w : Sys σ)
    (h : (timer_counter_switch_clock H freq w).1 = 0) :
    (w.tm.id = 0 ∨ w.tm.id = 1 ∨ w.tm.id = 2) ∧
      (freq = w.tm.fc_freq ∨ freq = SPACEMIT_TIMER_CLOCK_32KHZ) := by
  by_contra hn
  rw [switch_clock_ret, if_neg hn] at h
  exact absurd h (by decide)

/-- Bits inside a mask `m'` disjoint from the field `m` are among the bits
outside the field. -/
theorem and_of_outside (a b m m' : Nat) (h : a &&& not32 m = b &&& not32 m)
    (hm : not32 m &&& m' = m') : a &&& m' = b &&& m' := by
  rw [← hm, ← Nat.and_assoc, ← Nat.and_assoc, h]

/-- C8: the three clock-select masks are `0x03`, `0x0C`, `0x60` and pairwise
disjoint; a successful `timer_counter_switch_clock` on latching hardware
leaves `TMR_CCR` equal to its prior content on every bit outside the selected
field and leaves every other register alone, so that setting field 1 alters
neither field 0 nor field 2. -/
theorem timer_counter_switch_clock_frame (freq : Nat) (w : Sys (Nat → Nat)) :
    (TMR_CCR_CS_0 3 = 0x03 ∧ TMR_CCR_CS_1 3 = 0x0C ∧ TMR_CCR_CS_2 3 = 0x60) ∧
    (TMR_CCR_CS_0 3 &&& TMR_CCR_CS_1 3 = 0 ∧ TMR_CCR_CS_0 3 &&& TMR_CCR_CS_2 3 = 0 ∧
      TMR_CCR_CS_1 3 &&& TMR_CCR_CS_2 3 = 0) ∧
    ((timer_counter_switch_clock latchHw freq w).1 = 0 →
      reg32 (timer_counter_switch_clock latchHw freq w).2.base TMR_CCR &&&
          not32 (TMR_CCR_CS w.tm.id 3) =
        reg32 w.base TMR_CCR &&& not32 (TMR_CCR_CS w.tm.id 3) ∧
      (∀ r, r ≠ TMR_CCR → (timer_counter_switch_clock latchHw freq w).2.base r = w.base r) ∧
      (w.tm.id = 1 →
        reg32 (timer_counter_switch_clock latchHw freq w).2.base TMR_CCR &&& TMR_CCR_CS_0 3 =
          reg32 w.base TMR_CCR &&& TMR_CCR_CS_0 3 ∧
        reg32 (timer_counter_switch_clock latchHw freq w).2.base TMR_CCR &&& TMR_CCR_CS_2 3 =
          reg32 w.base TMR_CCR &&& TMR_CCR_CS_2 3)) := by
  refine ⟨by decide, by decide, fun h => ?_⟩
  obtain ⟨h1, h2⟩ := switch_clock_accepts latchHw freq w h
  have hb := (switch_clock_w1c (fun _ => none) freq w rfl).1
  rw [← latchHw_eq] at hb
  have hk : reg32 (timer_counter_switch_clock latchHw freq w).2.base TMR_CCR &&&
      not32 (TMR_CCR_CS w.tm.id 3) =
      reg32 w.base TMR_CCR &&& not32 (TMR_CCR_CS w.tm.id 3) := by
    rw [hb, switch_regs_ccr _ _ _ h1 h2]
    apply field_keep
    by_cases hf : freq = w.tm.fc_freq
    · rw [if_pos hf]; exact TMR_CCR_CS_sub _ _ h1 (Or.inl rfl)
    · rw [if_neg hf]; exact TMR_CCR_CS_sub _ _ h1 (Or.inr rfl)
  refine ⟨hk, fun r hr => ?_, fun hid => ?_⟩
  · rw [hb]; exact switch_regs_ne _ _ _ _ hr
  · rw [hid] at hk
    exact ⟨and_of_outside _ _ _ _ hk (by decide), and_of_outside _ _ _ _ hk (by decide)⟩

/-- C8 at a block with id 1 whose `TMR_CCR` holds `0x63`: switching to the
32 kHz clock keeps fields 0 and 2. -/
theorem timer_counter_switch_clock_frame_witness :
    reg32 (timer_counter_switch_clock latchHw 32768
        (sys0 (fun r => if r = 12 then 0x63 else 0) (tm0 1 26000000 32768))).2.base TMR_CCR &&&
      TMR_CCR_CS_0 3 = 0x63 &&& TMR_CCR_CS_0 3 ∧
    reg32 (timer_counter_switch_clock latchHw 32768
        (sys0 (fun r => if r = 12 then 0x63 else 0) (tm0 1 26000000 32768))).2.base TMR_CCR &&&
      TMR_CCR_CS_2 3 = 0x63 &&& TMR_CCR_CS_2 3 :=
  (((timer_counter_switch_clock_frame 32768
    (sys0 (fun r => if r = 12 then 0x63 else 0) (tm0 1 26000000 32768))).2.2
      (by rw [switch_clock_ret]; decide)).2.2 (by decide))

theorem switch_regs_idem (tm : spacemit_timer) (freq : Nat) (s : Nat → Nat) :
    switch_regs tm freq (switch_regs tm freq s) = switch_regs tm freq s := by
  unfold switch_regs
  by_cases h : (tm.id = 0 ∨ tm.id = 1 ∨ tm.id = 2) ∧
      (freq = tm.fc_freq ∨ freq = SPACEMIT_TIMER_CLOCK_32KHZ)
  · simp only [if_pos h, Function.update_same, Function.update_idem, u32_u32]
    rw [u32_of_lt (ccr_value_lt _ _ _), u32_of_lt (ccr_value_lt (s TMR_CCR) _ _), field_idem]
  · simp only [if_neg h]

/-- C9: on latching hardware a second `timer_counter_switch_clock` with the
same frequency changes neither the registers nor the failure record nor the
block, and returns what the first call returned. -/
theorem timer_counter_switch_clock_idempotent (freq : Nat) (w : Sys (Nat → Nat)) :
    (timer_counter_switch_clock latchHw freq
        (timer_counter_switch_clock latchHw freq w).2).2.base =
      (timer_counter_switch_clock latchHw freq w).2.base ∧
    (timer_counter_switch_clock latchHw freq
        (timer_counter_switch_clock latchHw freq w).2).2.werr_info =
      (timer_counter_switch_clock latchHw freq w).2.werr_info ∧
    (timer_counter_switch_clock latchHw freq
        (timer_counter_switch_clock latchHw freq w).2).2.werr_index =
      (timer_counter_switch_clock latchHw freq w).2.werr_index ∧
    (timer_counter_switch_clock latchHw freq
        (timer_counter_switch_clock latchHw freq w).2).2.tm =
      (timer_counter_switch_clock latchHw freq w).2.tm ∧
    (timer_counter_switch_clock latchHw freq
        (timer_counter_switch_clock latchHw freq w).2).1 =
      (timer_counter_switch_clock latchHw freq w).1 := by
  have ht := (switch_clock_frame latchHw freq w).2
  refine ⟨?_, ?_, ?_, ?_, ?_⟩
  · rw [latchHw_eq, (switch_clock_w1c _ freq _ rfl).1, ← latchHw_eq, ht, latchHw_eq,
      (switch_clock_w1c _ freq w rfl).1]
    exact switch_regs_idem _ _ _
  · rw [latchHw_eq, (switch_clock_w1c _ freq _ rfl).2.1]
  · rw [latchHw_eq, (switch_clock_w1c _ freq _ rfl).2.2]
  · exact (switch_clock_frame latchHw freq _).2
  · rw [switch_clock_ret, switch_clock_ret, ht]

/-! ## Which field a counter's clock switch modifies (claim C10) -/

/-- The register `TMR_CCR` after `timer_counter_enable` on latching hardware. -/
theorem enable_ccr (k : Fin 3) (w : Sys (Nat → Nat)) :
    reg32 (timer_counter_enable latchHw k w).base TMR_CCR =
      reg32 (if (w.tm.evt k).freq ≠ w.tm.fc_freq then
        switch_regs w.tm (w.tm.evt k).freq w.base else w.base) TMR_CCR := by
  rw [latchHw_eq, (enable_w1c _ k w rfl rfl).1]
  unfold reg32
  rw [Function.update_noteq (by decide)]

/-- C10, as stated, fails: in a block with id 0 the counter with index 1,
working at 32768 Hz with a 26 MHz fast clock, has `timer_counter_enable`
change bits 0-1 of `TMR_CCR` (from 0 to 1), which lie outside the field of
index 1 (bits 2-3). -/
theorem timer_counter_enable_field_counterexample :
    ((sys0 regs0 (tm0 0 26000000 32768)).tm.evt 1).cid = 1 ∧
    ((sys0 regs0 (tm0 0 26000000 32768)).tm.evt 1).freq = 32768 ∧
    ((sys0 regs0 (tm0 0 26000000 32768)).tm.evt 1).freq ≠
      (sys0 regs0 (tm0 0 26000000 32768)).tm.fc_freq ∧
    reg32 (sys0 regs0 (tm0 0 26000000 32768)).base TMR_CCR = 0 ∧
    reg32 (timer_counter_enable latchHw 1
      (sys0 regs0 (tm0 0 26000000 32768))).base TMR_CCR = 1 ∧
    reg32 (timer_counter_enable latchHw 1
        (sys0 regs0 (tm0 0 26000000 32768))).base TMR_CCR &&&
        not32 (TMR_CCR_CS_1 3) ≠
      reg32 (sys0 regs0 (tm0 0 26000000 32768)).base TMR_CCR &&&
        not32 (TMR_CCR_CS_1 3) := by
  have h : reg32 (timer_counter_enable latchHw 1
      (sys0 regs0 (tm0 0 26000000 32768))).base TMR_CCR = 1 := by
    rw [enable_ccr]; decide
  refine ⟨rfl, rfl, by decide, rfl, h, ?_⟩
  rw [h]; decide

/-- C10, amended: the clock-select field that `timer_counter_enable` modifies
is the one selected by the block's identifier `tm->id`.  For every block with
id in 0..2 and every counter of it whose working frequency is 32768 and
differs from `fc_freq`, on latching hardware `timer_counter_enable` leaves
every bit of `TMR_CCR` outside the field of index `id` (mask `0x03` for id 0,
`0x0C` for id 1, `0x60` for id 2) unchanged and sets that field to 1,
whatever the counter's index. -/
theorem timer_counter_enable_field (k : Fin 3) (w : Sys (Nat → Nat))
    (hid : w.tm.id = 0 ∨ w.tm.id = 1 ∨ w.tm.id = 2)
    (hf : (w.tm.evt k).freq = SPACEMIT_TIMER_CLOCK_32KHZ)
    (hne : (w.tm.evt k).freq ≠ w.tm.fc_freq) :
    reg32 (timer_counter_enable latchHw k w).base TMR_CCR &&& not32 (TMR_CCR_CS w.tm.id 3) =
      reg32 w.base TMR_CCR &&& not32 (TMR_CCR_CS w.tm.id 3) ∧
    reg32 (timer_counter_enable latchHw k w).base TMR_CCR &&& TMR_CCR_CS w.tm.id 3 =
      TMR_CCR_CS w.tm.id 1 ∧
    (TMR_CCR_CS 0 3 = 0x03 ∧ TMR_CCR_CS 1 3 = 0x0C ∧ TMR_CCR_CS 2 3 = 0x60) := by
  rw [enable_ccr, if_pos hne, switch_regs_ccr _ _ _ hid (Or.inr hf), if_neg hne]
  exact ⟨field_keep _ _ _ (TMR_CCR_CS_sub _ _ hid (Or.inr rfl)),
    field_set _ _ _ (TMR_CCR_CS_sub _ _ hid (Or.inr rfl)), by decide⟩

/-- C10 amended, at block id 2 and counter index 0: field 2 is set to 1. -/
theorem timer_counter_enable_field_witness :
    reg32 (timer_counter_enable latchHw 0
      (sys0 regs0 (tm0 2 26000000 32768))).base TMR_CCR &&& TMR_CCR_CS 2 3 =
      TMR_CCR_CS 2 1 :=
  (timer_counter_enable_field 0 (sys0 regs0 (tm0 2 26000000 32768))
    (by decide) (by decide) (by decide)).2.1

/-! ## The interrupt service routine and the one-shot path (claims C1, C2, C3) -/

theorem and_one_ne_zero_iff (v : Nat) : v &&& 1 ≠ 0 ↔ v.testBit 0 = true := by
  rw [Nat.and_one_is_mod, Nat.testBit_zero]
  simp

/-- The branch of `timer_interrupt` taken when the status bit is set. -/
theorem interrupt_ours {σ : Type} (H : HwModel σ) (k : Fin 3) (w : Sys σ)
    (h : u32 (H.readl w.base (TMR_SR (w.tm.evt k).cid)).1 &&& 1 ≠ 0) :
    timer_interrupt H k w =
      (IRQ_HANDLED,
        { timer_write_check H (TMR_ICR (w.tm.evt k).cid) 0x1 0x7 true false
            (timer_write_check H (TMR_IER (w.tm.evt k).cid) 0 0x7 false false
              (timer_counter_disable H k (raw_readl H w (TMR_SR (w.tm.evt k).cid)).2)) with
          trace := (timer_write_check H (TMR_ICR (w.tm.evt k).cid) 0x1 0x7 true false
            (timer_write_check H (TMR_IER (w.tm.evt k).cid) 0 0x7 false false
              (timer_counter_disable H k (raw_readl H w (TMR_SR (w.tm.evt k).cid)).2))).trace
            ++ [Event.handler (w.tm.evt k).cid] }) := by
  have hv : (raw_readl H w (TMR_SR (w.tm.evt k).cid)).1 =
      u32 (H.readl w.base (TMR_SR (w.tm.evt k).cid)).1 := rfl
  unfold timer_interrupt
  simp only []
  rw [hv, if_pos h]

/-- The branch of `timer_interrupt` taken when the status bit is clear. -/
theorem interrupt_not_ours {σ : Type} (H : HwModel σ) (k : Fin 3) (w : Sys σ)
    (h : ¬ (u32 (H.readl w.base (TMR_SR (w.tm.evt k).cid)).1 &&& 1 ≠ 0)) :
    timer_interrupt H k w = (IRQ_NONE, (raw_readl H w (TMR_SR (w.tm.evt k).cid)).2) := by
  have hv : (raw_readl H w (TMR_SR (w.tm.evt k).cid)).1 =
      u32 (H.readl w.base (TMR_SR (w.tm.evt k).cid)).1 := rfl
  unfold timer_interrupt
  simp only []
  rw [hv, if_neg h]

/-- C3: `timer_interrupt` returns `IRQ_HANDLED` if and only if bit 0 of the
value it reads from `TMR_SR(cid)` is set; when the bit is clear it returns
`IRQ_NONE`, its only action is that read (no register write, no handler
call), and the block with all its counters and the failure record are
unchanged. -/
theorem timer_interrupt_shared_line {σ : Type} (H : HwModel σ) (k : Fin 3) (w : Sys σ) :
    ((timer_interrupt H k w).1 = IRQ_HANDLED ↔
      (u32 (H.readl w.base (TMR_SR (w.tm.evt k).cid)).1).testBit 0 = true) ∧
    ((u32 (H.readl w.base (TMR_SR (w.tm.evt k).cid)).1).testBit 0 = false →
      (timer_interrupt H k w).1 = IRQ_NONE ∧
      (timer_interrupt H k w).2.trace = w.trace ++
        [Event.rd (TMR_SR (w.tm.evt k).cid) (u32 (H.readl w.base (TMR_SR (w.tm.evt k).cid)).1)] ∧
      (timer_interrupt H k w).2.base = (H.readl w.base (TMR_SR (w.tm.evt k).cid)).2 ∧
      (timer_interrupt H k w).2.tm = w.tm ∧
      (timer_interrupt H k w).2.werr_info = w.werr_info ∧
      (timer_interrupt H k w).2.werr_index = w.werr_index) := by
  constructor
  · rw [← and_one_ne_zero_iff]
    by_cases h : u32 (H.readl w.base (TMR_SR (w.tm.evt k).cid)).1 &&& 1 ≠ 0
    · rw [interrupt_ours H k w h]
      exact ⟨fun _ => h, fun _ => rfl⟩
    · rw [interrupt_not_ours H k w h]
      exact ⟨fun h0 => absurd h0 (show IRQ_NONE ≠ IRQ_HANDLED by decide),
        fun h1 => absurd h1 h⟩
  · intro h
    have h' : ¬ (u32 (H.readl w.base (TMR_SR (w.tm.evt k).cid)).1 &&& 1 ≠ 0) := by
      rw [and_one_ne_zero_iff, h]; simp
    rw [interrupt_not_ours H k w h']
    exact ⟨rfl, rfl, rfl, rfl, rfl, rfl⟩

/-- C3 on latching hardware with all registers 0: the line is not ours. -/
theorem timer_interrupt_shared_line_witness :
    (timer_interrupt latchHw 0 (sys0 regs0 (tm0 0 26000000 32768))).1 = IRQ_NONE ∧
    (timer_interrupt latchHw 0 (sys0 regs0 (tm0 0 26000000 32768))).2.trace =
      [Event.rd (TMR_SR 0) 0] :=
  ⟨((timer_interrupt_shared_line latchHw 0 (sys0 regs0 (tm0 0 26000000 32768))).2
      (by decide)).1,
   ((timer_interrupt_shared_line latchHw 0 (sys0 regs0 (tm0 0 26000000 32768))).2
      (by decide)).2.1⟩

/-- The registers of a counter with index at most 2 are pairwise distinct and
distinct from the block-wide registers. -/
theorem reg_facts (c : Nat) (h : c ≤ 2) :
    (TMR_TN_MM c 0 ≠ TMR_CCR ∧ TMR_TN_MM c 0 ≠ TMR_CER ∧ TMR_TN_MM c 0 ≠ TMR_IER c ∧
      TMR_TN_MM c 0 ≠ TMR_SR c) ∧
    (TMR_IER c ≠ TMR_CCR ∧ TMR_IER c ≠ TMR_CER ∧ TMR_IER c ≠ TMR_SR c) ∧
    (TMR_SR c ≠ TMR_CCR ∧ TMR_SR c ≠ TMR_CER) ∧
    (icr_clears (TMR_TN_MM c 0) = none ∧ icr_clears (TMR_IER c) = none ∧
      icr_clears (TMR_SR c) = none ∧ icr_clears (TMR_ICR c) = some (TMR_SR c)) ∧
    (TMR_CER_COUNTER c).testBit c = true := by
  interval_cases c <;> decide

/-- The handler count and the block under `timer_counter_disable`. -/
theorem disable_frame {σ : Type} (H : HwModel σ) (k : Fin 3) (w : Sys σ) :
    cnt Event.is_handler (timer_counter_disable H k w) = cnt Event.is_handler w ∧
    (timer_counter_disable H k w).tm =
      { w.tm with evt := Function.update w.tm.evt k { w.tm.evt k with timer_status := 1 } } := by
  unfold timer_counter_disable
  have hr : cnt Event.is_handler (raw_readl H w TMR_CER).2 = cnt Event.is_handler w := by
    simp [cnt, raw_readl, List.countP_append, Event.is_handler]
  constructor
  · show cnt Event.is_handler (timer_write_check H _ _ _ _ _ _) = _
    rw [(write_check_frame _ _ _ _ _ _ _).1, hr]
  · simp only [set_evt, (write_check_frame _ _ _ _ _ _ _).2]
    rfl

/-- The handler count and the block under `timer_counter_enable`. -/
theorem enable_frame {σ : Type} (H : HwModel σ) (k : Fin 3) (w : Sys σ) :
    cnt Event.is_handler (timer_counter_enable H k w) = cnt Event.is_handler w ∧
    (timer_counter_enable H k w).tm =
      { w.tm with evt := Function.update w.tm.evt k { w.tm.evt k with timer_status := 0 } } := by
  unfold timer_counter_enable
  have hr : ∀ s : Sys σ, cnt Event.is_handler (raw_readl H s TMR_CER).2 =
      cnt Event.is_handler s := by
    intro s
    simp [cnt, raw_readl, List.countP_append, Event.is_handler]
  by_cases hf : (w.tm.evt k).freq ≠ w.tm.fc_freq
  · simp only [if_pos hf]
    constructor
    · show cnt Event.is_handler (timer_write_check H _ _ _ _ _ _) = _
      rw [(write_check_frame _ _ _ _ _ _ _).1, hr, (switch_clock_frame _ _ _).1]
    · simp only [set_evt, (write_check_frame _ _ _ _ _ _ _).2]
      show _ = _
      simp only [raw_readl, (switch_clock_frame _ _ _).2]
  · simp only [if_neg hf]
    constructor
    · show cnt Event.is_handler (timer_write_check H _ _ _ _ _ _) = _
      rw [(write_check_frame _ _ _ _ _ _ _).1, hr]
    · simp only [set_evt, (write_check_frame _ _ _ _ _ _ _).2]
      rfl

/-- The part of `timer_set_next_event` after the optional disable, on
hardware whose registers of counter `c` and block-wide registers latch. -/
theorem arm_tail (d : Nat → Option Nat) (k : Fin 3) (w1 w2 w3 w4 : Sys (Nat → Nat))
    (c v : Nat) (hc : (w1.tm.evt k).cid = c) (hle : c ≤ 2)
    (he : d TMR_CER = none) (hcc : d TMR_CCR = none)
    (hm : d (TMR_TN_MM c 0) = none) (hi : d (TMR_IER c) = none)
    (h2 : w2 = timer_write_check (w1cHw d) (TMR_TN_MM c 0) v (u32 (2 ^ 32 - 1)) false false w1)
    (h3 : w3 = timer_write_check (w1cHw d) (TMR_IER c) 0x1 0x1 false false w2)
    (h4 : w4 = timer_counter_enable (w1cHw d) k w3) :
    w4.base (TMR_TN_MM c 0) = u32 v ∧ w4.base (TMR_IER c) = 1 ∧
    (reg32 w4.base TMR_CER).testBit c = true ∧
    w4.tm = { w1.tm with
      evt := Function.update w1.tm.evt k { w1.tm.evt k with timer_status := 0 } } ∧
    w4.werr_info = w1.werr_info ∧ w4.werr_index = w1.werr_index := by
  obtain ⟨⟨m1, m2, m3, -⟩, ⟨i1, i2, -⟩, -, -, hbit⟩ := reg_facts c hle
  obtain ⟨b2, e2, x2⟩ := write_check_w1c d (TMR_TN_MM c 0) v (u32 (2 ^ 32 - 1)) false w1 hm hcc m1
  have t2 := (write_check_frame (w1cHw d) (TMR_TN_MM c 0) v (u32 (2 ^ 32 - 1)) false false w1).2
  rw [← h2] at b2 e2 x2 t2
  obtain ⟨b3, e3, x3⟩ := write_check_w1c d (TMR_IER c) 0x1 0x1 false w2 hi hcc i1
  have t3 := (write_check_frame (w1cHw d) (TMR_IER c) 0x1 0x1 false false w2).2
  rw [← h3] at b3 e3 x3 t3
  obtain ⟨b4, t4, e4, x4⟩ := enable_w1c d k w3 he hcc
  rw [← h4] at b4 t4 e4 x4
  simp only [Bool.false_eq_true, if_false] at b2 b3
  have hB : ∀ r, r ≠ TMR_CCR →
      (if (w3.tm.evt k).freq ≠ w3.tm.fc_freq then switch_regs w3.tm (w3.tm.evt k).freq w3.base
        else w3.base) r = w3.base r := by
    intro r hr
    by_cases hf : (w3.tm.evt k).freq ≠ w3.tm.fc_freq
    · rw [if_pos hf]; exact switch_regs_ne _ _ _ _ hr
    · rw [if_neg hf]
  refine ⟨?_, ?_, ?_, ?_, ?_, ?_⟩
  · rw [b4, Function.update_noteq m2, hB _ m1, b3, Function.update_noteq m3, b2,
      Function.update_same]
  · rw [b4, Function.update_noteq i2, hB _ i1, b3, Function.update_same]
    rfl
  · rw [b4]
    unfold reg32
    rw [Function.update_same, u32_u32, t3, t2, hc, testBit_u32, Nat.testBit_or, hbit]
    have : c < 32 := by omega
    simp [this]
  · rw [t4, t3, t2]
  · rw [e4, e3, e2]
  · rw [x4, x3, x2]

/-- The function `timer_set_next_event` on hardware whose registers of the counter and
block-wide registers latch. -/
theorem set_next_event_w1c (d : Nat → Option Nat) (k : Fin 3) (w : Sys (Nat → Nat))
    (delta : Nat) (hle : (w.tm.evt k).cid ≤ 2)
    (he : d TMR_CER = none) (hcc : d TMR_CCR = none)
    (hm : d (TMR_TN_MM (w.tm.evt k).cid 0) = none) (hi : d (TMR_IER (w.tm.evt k).cid) = none) :
    (timer_set_next_event (w1cHw d) delta k w).1 = 0 ∧
    (timer_set_next_event (w1cHw d) delta k w).2.base (TMR_TN_MM (w.tm.evt k).cid 0) =
      u32 (delta + 2 ^ 32 - 1) ∧
    (timer_set_next_event (w1cHw d) delta k w).2.base (TMR_IER (w.tm.evt k).cid) = 1 ∧
    (reg32 (timer_set_next_event (w1cHw d) delta k w).2.base TMR_CER).testBit
      (w.tm.evt k).cid = true ∧
    ((timer_set_next_event (w1cHw d) delta k w).2.tm.evt k).timer_status = 0 ∧
    ((timer_set_next_event (w1cHw d) delta k w).2.tm.evt k).timeout =
      u32 (delta + 2 ^ 32 - 1) ∧
    ((timer_set_next_event (w1cHw d) delta k w).2.tm.evt k).cid = (w.tm.evt k).cid := by
  have hw1 : ((if (raw_readl (w1cHw d) w TMR_CER).1 &&& TMR_CER_COUNTER (w.tm.evt k).cid ≠ 0
      then timer_counter_disable (w1cHw d) k (raw_readl (w1cHw d) w TMR_CER).2
      else (raw_readl (w1cHw d) w TMR_CER).2).tm.evt k).cid = (w.tm.evt k).cid := by
    by_cases hb : (raw_readl (w1cHw d) w TMR_CER).1 &&& TMR_CER_COUNTER (w.tm.evt k).cid ≠ 0
    · rw [if_pos hb, (disable_frame _ _ _).2]
      simp [raw_readl]
    · rw [if_neg hb]; rfl
  obtain ⟨a1, a2, a3, a4, -, -⟩ := arm_tail d k _ _ _ _ (w.tm.evt k).cid
    (u32 (delta + 2 ^ 32 - 1)) hw1 hle he hcc hm hi rfl rfl rfl
  rw [u32_u32] at a1
  refine ⟨rfl, a1, a2, a3, ?_, ?_, ?_⟩
  · show ((set_evt _ k _).tm.evt k).timer_status = 0
    simp only [set_evt, Function.update_same]
    rw [a4]
    simp
  · show ((set_evt _ k _).tm.evt k).timeout = _
    simp only [set_evt, Function.update_same]
  · show ((set_evt _ k _).tm.evt k).cid = _
    simp only [set_evt, Function.update_same]
    rw [a4]
    simpa using hw1

/-- C1: on latching hardware, for every counter with index `cid` in 0..2 and
every `delta` with `MIN_DELTA <= delta <= MAX_DELTA`, whatever the prior
state (counter enabled or not), `timer_set_next_event` returns 0 and leaves
`TMR_TN_MM(cid,0)` equal to `delta - 1`, bit 0 of `TMR_IER(cid)` set, bit
`cid` of `TMR_CER` set, `timer_status = 0` and `timeout = delta - 1`. -/
theorem timer_set_next_event_arms (k : Fin 3) (w : Sys (Nat → Nat)) (delta : Nat)
    (hcid : (w.tm.evt k).cid ≤ 2) (hlo : MIN_DELTA ≤ delta) (hhi : delta ≤ MAX_DELTA) :
    (timer_set_next_event latchHw delta k w).1 = 0 ∧
    reg32 (timer_set_next_event latchHw delta k w).2.base (TMR_TN_MM (w.tm.evt k).cid 0) =
      delta - 1 ∧
    (reg32 (timer_set_next_event latchHw delta k w).2.base
      (TMR_IER (w.tm.evt k).cid)).testBit 0 = true ∧
    (reg32 (timer_set_next_event latchHw delta k w).2.base TMR_CER).testBit
      (w.tm.evt k).cid = true ∧
    ((timer_set_next_event latchHw delta k w).2.tm.evt k).timer_status = 0 ∧
    ((timer_set_next_event latchHw delta k w).2.tm.evt k).timeout = delta - 1 := by
  have hd : u32 (delta + 2 ^ 32 - 1) = delta - 1 := by
    unfold MIN_DELTA at hlo
    unfold MAX_DELTA at hhi
    unfold u32
    omega
  obtain ⟨a0, a1, a2, a3, a4, a5, -⟩ :=
    set_next_event_w1c (fun _ => none) k w delta hcid rfl rfl rfl rfl
  rw [← latchHw_eq] at a0 a1 a2 a3 a4 a5
  refine ⟨a0, ?_, ?_, a3, a4, ?_⟩
  · unfold reg32
    rw [a1, u32_u32, hd]
  · unfold reg32
    rw [a2]; decide
  · rw [a5, hd]

/-- C1 at `delta = 1000` on counter 0 of a block with all registers 0: the
match register is programmed with 999. -/
theorem timer_set_next_event_arms_witness :
    reg32 (timer_set_next_event latchHw 1000 0
      (sys0 regs0 (tm0 0 26000000 32768))).2.base (TMR_TN_MM 0 0) = 999 ∧
    ((timer_set_next_event latchHw 1000 0
      (sys0 regs0 (tm0 0 26000000 32768))).2.tm.evt 0).timeout = 999 :=
  ⟨(timer_set_next_event_arms 0 (sys0 regs0 (tm0 0 26000000 32768)) 1000
      (by decide) (by decide) (by decide)).2.1,
   (timer_set_next_event_arms 0 (sys0 regs0 (tm0 0 26000000 32768)) 1000
      (by decide) (by decide) (by decide)).2.2.2.2.2⟩

/-- The function `timer_set_next_event` calls no handler. -/
theorem set_next_event_frame {σ : Type} (H : HwModel σ) (delta : Nat) (k : Fin 3)
    (w : Sys σ) :
    cnt Event.is_handler (timer_set_next_event H delta k w).2 = cnt Event.is_handler w := by
  have hr : cnt Event.is_handler (raw_readl H w TMR_CER).2 = cnt Event.is_handler w := by
    simp [cnt, raw_readl, List.countP_append, Event.is_handler]
  have hw1 : cnt Event.is_handler
      (if (raw_readl H w TMR_CER).1 &&& TMR_CER_COUNTER (w.tm.evt k).cid ≠ 0
        then timer_counter_disable H k (raw_readl H w TMR_CER).2
        else (raw_readl H w TMR_CER).2) = cnt Event.is_handler w := by
    by_cases hb : (raw_readl H w TMR_CER).1 &&& TMR_CER_COUNTER (w.tm.evt k).cid ≠ 0
    · rw [if_pos hb, (disable_frame _ _ _).1, hr]
    · rw [if_neg hb, hr]
  show cnt Event.is_handler (timer_counter_enable H k _) = _
  rw [(enable_frame _ _ _).1, (write_check_frame _ _ _ _ _ _ _).1,
    (write_check_frame _ _ _ _ _ _ _).1]
  exact hw1

/-- The interrupt service routine on hardware whose registers latch, the
interrupt-clear register of the counter being write-one-to-clear, entered
with the match status bit set. -/
theorem interrupt_w1c (d : Nat → Option Nat) (k : Fin 3) (w : Sys (Nat → Nat))
    (hle : (w.tm.evt k).cid ≤ 2) (he : d TMR_CER = none) (hcc : d TMR_CCR = none)
    (hi : d (TMR_IER (w.tm.evt k).cid) = none) (hs : d (TMR_SR (w.tm.evt k).cid) = none)
    (hx : d (TMR_ICR (w.tm.evt k).cid) = some (TMR_SR (w.tm.evt k).cid))
    (hbit : (reg32 w.base (TMR_SR (w.tm.evt k).cid)).testBit 0 = true) :
    (timer_interrupt (w1cHw d) k w).1 = IRQ_HANDLED ∧
    cnt Event.is_handler (timer_interrupt (w1cHw d) k w).2 = cnt Event.is_handler w + 1 ∧
    (reg32 (timer_interrupt (w1cHw d) k w).2.base TMR_CER).testBit (w.tm.evt k).cid = false ∧
    ((timer_interrupt (w1cHw d) k w).2.tm.evt k).timer_status = 1 ∧
    reg32 (timer_interrupt (w1cHw d) k w).2.base (TMR_IER (w.tm.evt k).cid) &&& 0x7 = 0 ∧
    (reg32 (timer_interrupt (w1cHw d) k w).2.base (TMR_SR (w.tm.evt k).cid)).testBit 0 =
      false := by
  obtain ⟨-, ⟨i1, i2, i3⟩, ⟨s1, s2⟩, -, hcb⟩ := reg_facts _ hle
  have h : u32 ((w1cHw d).readl w.base (TMR_SR (w.tm.evt k).cid)).1 &&& 1 ≠ 0 := by
    rw [and_one_ne_zero_iff]
    simpa [w1cHw, hs, reg32] using hbit
  rw [interrupt_ours _ k w h]
  -- the state after the read of the status register
  have ra : (raw_readl (w1cHw d) w (TMR_SR (w.tm.evt k).cid)).2.base = w.base := rfl
  have ta : (raw_readl (w1cHw d) w (TMR_SR (w.tm.evt k).cid)).2.tm = w.tm := rfl
  have ca : cnt Event.is_handler (raw_readl (w1cHw d) w (TMR_SR (w.tm.evt k).cid)).2 =
      cnt Event.is_handler w := by
    simp [cnt, raw_readl, List.countP_append, Event.is_handler]
  -- the disable
  obtain ⟨bb, tb, -, -⟩ := disable_w1c d k (raw_readl (w1cHw d) w (TMR_SR (w.tm.evt k).cid)).2
    he hcc
  have cb := (disable_frame (w1cHw d) k
    (raw_readl (w1cHw d) w (TMR_SR (w.tm.evt k).cid)).2).1
  rw [ra, ta] at bb
  rw [ta] at tb
  rw [ca] at cb
  have hbCER : (timer_counter_disable (w1cHw d) k
      (raw_readl (w1cHw d) w (TMR_SR (w.tm.evt k).cid)).2).base TMR_CER =
      u32 (reg32 w.base TMR_CER &&& not32 (TMR_CER_COUNTER (w.tm.evt k).cid)) := by
    rw [bb]
    by_cases hf : (w.tm.evt k).freq ≠ w.tm.fc_freq
    · rw [if_pos hf, switch_regs_ne _ _ _ _ (by decide), Function.update_same]
    · rw [if_neg hf, Function.update_same]
  have hbSR : (timer_counter_disable (w1cHw d) k
      (raw_readl (w1cHw d) w (TMR_SR (w.tm.evt k).cid)).2).base (TMR_SR (w.tm.evt k).cid) =
      w.base (TMR_SR (w.tm.evt k).cid) := by
    rw [bb]
    by_cases hf : (w.tm.evt k).freq ≠ w.tm.fc_freq
    · rw [if_pos hf, switch_regs_ne _ _ _ _ s1, Function.update_noteq s2]
    · rw [if_neg hf, Function.update_noteq s2]
  -- the two verified writes
  obtain ⟨bc, -, -⟩ := write_check_w1c d (TMR_IER (w.tm.evt k).cid) 0 0x7 false
    (timer_counter_disable (w1cHw d) k (raw_readl (w1cHw d) w (TMR_SR (w.tm.evt k).cid)).2)
    hi hcc i1
  obtain ⟨cc, tc⟩ := write_check_frame (w1cHw d) (TMR_IER (w.tm.evt k).cid) 0 0x7 false false
    (timer_counter_disable (w1cHw d) k (raw_readl (w1cHw d) w (TMR_SR (w.tm.evt k).cid)).2)
  simp only [Bool.false_eq_true, if_false] at bc
  have bd : (timer_write_check (w1cHw d) (TMR_ICR (w.tm.evt k).cid) 0x1 0x7 true false
      (timer_write_check (w1cHw d) (TMR_IER (w.tm.evt k).cid) 0 0x7 false false
        (timer_counter_disable (w1cHw d) k
          (raw_readl (w1cHw d) w (TMR_SR (w.tm.evt k).cid)).2))).base =
      Function.update
        (timer_write_check (w1cHw d) (TMR_IER (w.tm.evt k).cid) 0 0x7 false false
          (timer_counter_disable (w1cHw d) k
            (raw_readl (w1cHw d) w (TMR_SR (w.tm.evt k).cid)).2)).base
        (TMR_SR (w.tm.evt k).cid)
        ((timer_write_check (w1cHw d) (TMR_IER (w.tm.evt k).cid) 0 0x7 false false
          (timer_counter_disable (w1cHw d) k
            (raw_readl (w1cHw d) w (TMR_SR (w.tm.evt k).cid)).2)).base
          (TMR_SR (w.tm.evt k).cid) &&& not32 (u32 0x1)) := by
    unfold timer_write_check
    rw [core_clear d _ _ _ _ _ _ hx (by decide)]
  obtain ⟨cd, td⟩ := write_check_frame (w1cHw d) (TMR_ICR (w.tm.evt k).cid) 0x1 0x7 true false
    (timer_write_check (w1cHw d) (TMR_IER (w.tm.evt k).cid) 0 0x7 false false
      (timer_counter_disable (w1cHw d) k (raw_readl (w1cHw d) w (TMR_SR (w.tm.evt k).cid)).2))
  refine ⟨rfl, ?_, ?_, ?_, ?_, ?_⟩
  · have : ∀ s : Sys (Nat → Nat), ∀ e, cnt Event.is_handler
        { s with trace := s.trace ++ [Event.handler e] } = cnt Event.is_handler s + 1 := by
      intro s e
      simp [cnt, List.countP_append, Event.is_handler]
    simp only []
    rw [this, cd, cc, cb]
  · show (reg32 (timer_write_check (w1cHw d) (TMR_ICR (w.tm.evt k).cid) 0x1 0x7 true false
      _).base TMR_CER).testBit _ = false
    unfold reg32
    rw [bd, Function.update_noteq (Ne.symm s2), bc, Function.update_noteq (Ne.symm i2), hbCER]
    simp [hcb]
  · show ((timer_write_check (w1cHw d) (TMR_ICR (w.tm.evt k).cid) 0x1 0x7 true false
      _).tm.evt k).timer_status = 1
    rw [td, tc, tb]
    simp
  · show reg32 (timer_write_check (w1cHw d) (TMR_ICR (w.tm.evt k).cid) 0x1 0x7 true false
      _).base (TMR_IER (w.tm.evt k).cid) &&& 0x7 = 0
    unfold reg32
    rw [bd, Function.update_noteq i3, bc, Function.update_same]
    decide
  · show (reg32 (timer_write_check (w1cHw d) (TMR_ICR (w.tm.evt k).cid) 0x1 0x7 true false
      _).base (TMR_SR (w.tm.evt k).cid)).testBit 0 = false
    unfold reg32
    rw [bd, Function.update_same]
    exact testBit_zero_cleared _

/-- C2: on the simulated block (registers latch; writing the interrupt-clear
register clears the status bits written as 1 and that register reads back
0), for every counter with index in 0..2 and every `delta` in
`[MIN_DELTA, MAX_DELTA]`, `timer_set_next_event` followed by the match and
one `timer_interrupt` calls the event handler exactly once, returns
`IRQ_HANDLED` and leaves bit `cid` of `TMR_CER` clear, `timer_status = 1`, the
low three bits of `TMR_IER(cid)` 0 and status bit 0 cleared. -/
theorem timer_interrupt_after_arm (k : Fin 3) (w : Sys (Nat → Nat)) (delta : Nat)
    (hcid : (w.tm.evt k).cid ≤ 2) :
    (arm_then_interrupt delta k w).1 = IRQ_HANDLED ∧
    cnt Event.is_handler (arm_then_interrupt delta k w).2 = cnt Event.is_handler w + 1 ∧
    (reg32 (arm_then_interrupt delta k w).2.base TMR_CER).testBit (w.tm.evt k).cid = false ∧
    ((arm_then_interrupt delta k w).2.tm.evt k).timer_status = 1 ∧
    reg32 (arm_then_interrupt delta k w).2.base (TMR_IER (w.tm.evt k).cid) &&& 0x7 = 0 ∧
    (reg32 (arm_then_interrupt delta k w).2.base (TMR_SR (w.tm.evt k).cid)).testBit 0 =
      false := by
  obtain ⟨⟨-, -, -, -⟩, -, -, ⟨d1, d2, d3, d4⟩, -⟩ := reg_facts _ hcid
  obtain ⟨-, -, -, -, -, -, hc⟩ :=
    set_next_event_w1c icr_clears k w delta hcid (by decide) (by decide) d1 d2
  have hf := set_next_event_frame simHw delta k w
  unfold arm_then_interrupt
  have hc' : ((raise_match (w.tm.evt k).cid
      (timer_set_next_event simHw delta k w).2).tm.evt k).cid = (w.tm.evt k).cid := hc
  have hcnt : cnt Event.is_handler (raise_match (w.tm.evt k).cid
      (timer_set_next_event simHw delta k w).2) = cnt Event.is_handler w := hf
  have key := interrupt_w1c icr_clears k
    (raise_match (w.tm.evt k).cid (timer_set_next_event simHw delta k w).2)
    (by rw [hc']; exact hcid) (by decide) (by decide)
    (by rw [hc']; exact d2) (by rw [hc']; exact d3) (by rw [hc']; exact d4)
    (by
      rw [hc']
      unfold raise_match reg32
      simp only [Function.update_same]
      exact testBit_zero_raised _)
  rw [hc', hcnt] at key
  exact key

/-- C2 at `delta = 1000` on counter 0 of a block with all registers 0. -/
theorem timer_interrupt_after_arm_witness :
    (arm_then_interrupt 1000 0 (sys0 regs0 (tm0 0 26000000 32768))).1 = IRQ_HANDLED ∧
    cnt Event.is_handler (arm_then_interrupt 1000 0 (sys0 regs0 (tm0 0 26000000 32768))).2 =
      1 :=
  ⟨(timer_interrupt_after_arm 0 (sys0 regs0 (tm0 0 26000000 32768)) 1000 (by decide)).1,
   (timer_interrupt_after_arm 0 (sys0 regs0 (tm0 0 26000000 32768)) 1000 (by decide)).2.1⟩

/-! ## The write-verify-retry protocol (claim C5) -/

/-- C5: `timer_write_check` is a total function of the hardware behaviour.
With `clk_switch` off the call makes at most 100 writes, all of them of `val`
to `reg`, and at most 400 reads; against hardware whose reads never pass the
comparison (reads of `reg` that never satisfy it) it makes exactly 100 writes
and logs exactly 100 failures (and makes 400 reads). -/
theorem timer_write_check_bounded {σ : Type} (H : HwModel σ) (reg val mask : Nat)
    (clr : Bool) (w : Sys σ) :
    ∃ tr : List Event,
      (timer_write_check H reg val mask clr false w).trace = w.trace ++ tr ∧
      tr.countP Event.is_wr ≤ 100 ∧
      tr.countP Event.is_wr = tr.countP (fun e => decide (e = Event.wr reg (u32 val))) ∧
      tr.countP Event.is_rd ≤ 400 ∧
      ((∀ s, u32 (H.readl s reg).1 &&& u32 mask ≠
          (if clr then lnot (u32 val) else u32 val) &&& u32 mask) →
        tr.countP Event.is_wr = 100 ∧ tr.countP Event.is_werr = 100 ∧
          tr.countP Event.is_rd = 400) := by
  obtain ⟨tr, h1, -, h3⟩ := from_trace H
    (fun s => (timer_counter_switch_clock H s.tm.fc_freq s).2) reg (u32 val) (u32 mask)
    (if clr then lnot (u32 val) else u32 val) false
    (fun s => switch_clock_trace H s.tm.fc_freq s) 99 w
  obtain ⟨a, b, c, -, -⟩ := h3 rfl
  rw [u32_u32] at b
  refine ⟨tr, h1, a, b, c, ?_⟩
  intro hns
  obtain ⟨tr', g1, g2, g3, g4⟩ := from_stuck H
    (fun s => (timer_counter_switch_clock H s.tm.fc_freq s).2) reg (u32 val) (u32 mask)
    (if clr then lnot (u32 val) else u32 val) hns
    (fun s => switch_clock_trace H s.tm.fc_freq s) 99 w
  have : tr = tr' := List.append_cancel_left (h1.symm.trans g1)
  subst this
  exact ⟨g2, g3, g4⟩

/-- C5 at stuck hardware: every read returns 0 while bit 0 is to be set. -/
theorem timer_write_check_bounded_witness :
    ∃ tr : List Event,
      (timer_write_check (stuckHw 0) TMR_CER 1 1 false false
        (sys0 () (tm0 0 26000000 32768))).trace = [] ++ tr ∧
      tr.countP Event.is_wr = 100 ∧ tr.countP Event.is_werr = 100 ∧
      tr.countP Event.is_rd = 400 := by
  obtain ⟨tr, h1, -, -, -, h5⟩ := timer_write_check_bounded (stuckHw 0) TMR_CER 1 1 false
    (sys0 () (tm0 0 26000000 32768))
  exact ⟨tr, h1, h5 (fun _ => by simp [stuckHw, u32])⟩

/-! ## Hardware that rejects the first writes (claim C6) -/

section Reject

variable (sw : Sys ((Nat → Nat) × Nat) → Sys ((Nat → Nat) × Nat))

/-- A write that latches is verified by the first read-back. -/
theorem reject_latched (reg val m : Nat) (n : Nat) (w : Sys ((Nat → Nat) × Nat))
    (hv : u32 val = val) (h0 : w.base.2 = 0) :
    (timer_write_check_from rejectHw sw reg val m val false (n + 1) w).base =
      (Function.update w.base.1 reg val, 0) := by
  rw [from_first]
  · simp [raw_readl, raw_writel, rejectHw, h0, hv]
  · simp [raw_readl, raw_writel, rejectHw, h0, hv]

/-- A rejected write over a content that already passes the comparison is
verified by the first read-back. -/
theorem reject_passing (reg val m c : Nat) (n : Nat) (w : Sys ((Nat → Nat) × Nat))
    (h0 : w.base.2 ≠ 0) (hp : u32 (w.base.1 reg) &&& m = c &&& m) :
    (timer_write_check_from rejectHw sw reg val m c false (n + 1) w).base =
      (w.base.1, w.base.2 - 1) := by
  rw [from_first]
  · simp [raw_readl, raw_writel, rejectHw, h0]
  · simp [raw_readl, raw_writel, rejectHw, h0, hp]

/-- A rejected write over a content that fails the comparison: the attempt
ends in the `if (!loop)` block with the registers unchanged. -/
theorem reject_failing (reg val m c : Nat) (w : Sys ((Nat → Nat) × Nat))
    (h0 : w.base.2 ≠ 0) (hp : u32 (w.base.1 reg) &&& m ≠ c &&& m) :
    ∃ t w3, timer_write_check_attempt rejectHw sw reg val m c false w = (some t, w3) ∧
      w3.base = (w.base.1, w.base.2 - 1) := by
  have h : (timer_write_check_attempt rejectHw sw reg val m c false w).1 =
        some (u32 (w.base.1 reg)) ∧
      (timer_write_check_attempt rejectHw sw reg val m c false w).2.base =
        (w.base.1, w.base.2 - 1) := by
    simp [timer_write_check_attempt, timer_write_check_poll, raw_readl, raw_writel, rejectHw,
      h0, hp]
  exact ⟨u32 (w.base.1 reg), (timer_write_check_attempt rejectHw sw reg val m c false w).2,
    Prod.ext h.1 rfl, h.2⟩

/-- With fewer rejected writes than attempts the register ends verified. -/
theorem reject_success (reg val m : Nat) (hv : u32 val = val) (n : Nat)
    (w : Sys ((Nat → Nat) × Nat)) (hn : w.base.2 < n) :
    u32 ((timer_write_check_from rejectHw sw reg val m val false n w).base.1 reg) &&& m =
      val &&& m := by
  induction n generalizing w with
  | zero => omega
  | succ n ih =>
    by_cases h0 : w.base.2 = 0
    · rw [reject_latched sw reg val m n w hv h0]
      simp [hv]
    · by_cases hp : u32 (w.base.1 reg) &&& m = val &&& m
      · rw [reject_passing sw reg val m val n w h0 hp]
        exact hp
      · obtain ⟨t, w3, h1, h2⟩ := reject_failing sw reg val m val w h0 hp
        rw [timer_write_check_from, h1]
        have hn0 : n ≠ 0 := by omega
        simp only [if_pos hn0]
        apply ih
        show w3.base.2 < n
        rw [h2]
        show w.base.2 - 1 < n
        omega

/-- With at least as many rejected writes as attempts, over a content that
fails the comparison, every attempt fails and the registers are unchanged. -/
theorem reject_exhaust (reg val m c : Nat) (n : Nat) (w : Sys ((Nat → Nat) × Nat))
    (hsw : ∀ s, ∃ tr, (sw s).trace = s.trace ++ tr)
    (hn : n ≤ w.base.2) (hp : u32 (w.base.1 reg) &&& m ≠ c &&& m) :
    (timer_write_check_from rejectHw sw reg val m c false n w).base =
      (w.base.1, w.base.2 - n) ∧
    ∃ tr : List Event,
      (timer_write_check_from rejectHw sw reg val m c false n w).trace = w.trace ++ tr ∧
      tr.countP Event.is_wr = n ∧ tr.countP Event.is_werr = n := by
  induction n generalizing w with
  | zero => exact ⟨rfl, [], by simp [timer_write_check_from]⟩
  | succ n ih =>
    have h0 : w.base.2 ≠ 0 := by omega
    obtain ⟨t, w3, h1, h2⟩ := reject_failing sw reg val m c w h0 hp
    obtain ⟨tr, g1, -, -, g4⟩ := attempt_some rejectHw sw reg val m c false w w3 t hsw h1
    obtain ⟨a, -, -, b⟩ := g4 rfl
    rw [timer_write_check_from, h1]
    simp only []
    by_cases hn0 : n = 0
    · subst hn0
      simp only [ne_eq, not_true_eq_false, if_false]
      exact ⟨h2, tr, g1, a, b⟩
    · simp only [if_pos hn0]
      have hb : (timer_write_error w3 reg c t m).base = (w.base.1, w.base.2 - 1) := h2
      obtain ⟨i1, tr', i2, i3, i4⟩ := ih (timer_write_error w3 reg c t m)
        (by rw [hb]; show n ≤ w.base.2 - 1; omega) (by rw [hb]; exact hp)
      refine ⟨?_, tr ++ tr', ?_, ?_, ?_⟩
      · rw [i1, hb]
        show (w.base.1, w.base.2 - 1 - n) = _
        congr 1
        omega
      · rw [i2, g1, List.append_assoc]
      · rw [List.countP_append]; omega
      · rw [List.countP_append]; omega

end Reject

/-- C6, as stated, fails: on hardware that rejects the first 100 writes
(100 < 300) `timer_write_check` of value 1 with mask 1 to a register holding
0 returns with the register still 0, which does not pass the comparison. -/
theorem timer_write_check_reject_counterexample :
    (100 : Nat) < 300 ∧
    u32 ((timer_write_check rejectHw TMR_CER 1 1 false false
      (sys0 (regs0, 100) (tm0 0 26000000 26000000))).base.1 TMR_CER) &&& u32 1 ≠
      u32 1 &&& u32 1 := by
  have h := (reject_exhaust
    (fun s => (timer_counter_switch_clock rejectHw s.tm.fc_freq s).2) TMR_CER (u32 1) (u32 1)
    (u32 1) 100 (sys0 (regs0, 100) (tm0 0 26000000 26000000))
    (fun s => switch_clock_trace rejectHw s.tm.fc_freq s) (by decide) (by decide)).1
  refine ⟨by decide, ?_⟩
  have h' : (timer_write_check rejectHw TMR_CER 1 1 false false
      (sys0 (regs0, 100) (tm0 0 26000000 26000000))).base = (regs0, 0) := h
  rw [h']
  decide

/-- C6, amended: on hardware that rejects the first `N` writes and latches
every later one, `timer_write_check` (no inverted check, `clk_switch` off)
ends with the register passing the masked comparison with `val` for every
`N < 100`; for `N >= 100`, when the register's content fails the comparison,
it returns after 100 writes with 100 failures logged and the registers
unchanged. -/
theorem timer_write_check_reject (reg val mask : Nat) (w : Sys ((Nat → Nat) × Nat)) :
    (w.base.2 < 100 →
      u32 ((timer_write_check rejectHw reg val mask false false w).base.1 reg) &&& u32 mask =
        u32 val &&& u32 mask) ∧
    (100 ≤ w.base.2 → u32 (w.base.1 reg) &&& u32 mask ≠ u32 val &&& u32 mask →
      (timer_write_check rejectHw reg val mask false false w).base.1 = w.base.1 ∧
      ∃ tr : List Event,
        (timer_write_check rejectHw reg val mask false false w).trace = w.trace ++ tr ∧
        tr.countP Event.is_wr = 100 ∧ tr.countP Event.is_werr = 100) := by
  constructor
  · intro h
    exact reject_success _ reg (u32 val) (u32 mask) (u32_u32 val) 100 w h
  · intro h hp
    obtain ⟨a, b⟩ := reject_exhaust
      (fun s => (timer_counter_switch_clock rejectHw s.tm.fc_freq s).2) reg (u32 val)
      (u32 mask) (u32 val) 100 w (fun s => switch_clock_trace rejectHw s.tm.fc_freq s) h hp
    refine ⟨?_, b⟩
    have a' : (timer_write_check rejectHw reg val mask false false w).base =
        (w.base.1, w.base.2 - 100) := a
    rw [a']

/-- C6 amended, at 99 and at 100 rejected writes of value 1 to `TMR_CER`. -/
theorem timer_write_check_reject_witness :
    u32 ((timer_write_check rejectHw TMR_CER 1 1 false false
      (sys0 (regs0, 99) (tm0 0 26000000 26000000))).base.1 TMR_CER) &&& u32 1 =
      u32 1 &&& u32 1 ∧
    (timer_write_check rejectHw TMR_CER 1 1 false false
      (sys0 (regs0, 100) (tm0 0 26000000 26000000))).base.1 = regs0 :=
  ⟨(timer_write_check_reject TMR_CER 1 1 (sys0 (regs0, 99) (tm0 0 26000000 26000000))).1
      (by decide),
   ((timer_write_check_reject TMR_CER 1 1 (sys0 (regs0, 100) (tm0 0 26000000 26000000))).2
      (by decide) (by decide)).1⟩

/-! ## Two shutdowns in a row (claim C20) -/

/-- The counter after `timer_shutdown`, for every hardware. -/
theorem shutdown_evt {σ : Type} (H : HwModel σ) (k : Fin 3) (w : Sys σ) :
    (timer_shutdown H k w).2.tm.evt k =
      { w.tm.evt k with timer_enabled := decide ((w.tm.evt k).timer_status = 0),
                        timer_status := 1 } := by
  unfold timer_shutdown
  simp only []
  rw [(disable_frame _ _ _).2]
  simp [set_evt]

/-- C20: for every hardware and every prior state, `timer_shutdown` sets
`timer_enabled` to `timer_status == 0` as it was on entry and leaves
`timer_status = 1`; after two consecutive `timer_shutdown` calls the flag is
false, and a following `timer_resume` returns the state unchanged (no
register access at all) with `timer_status` still 1. -/
theorem timer_shutdown_twice {σ : Type} (H : HwModel σ) (k : Fin 3) (w : Sys σ) :
    ((timer_shutdown H k w).2.tm.evt k).timer_enabled =
      decide ((w.tm.evt k).timer_status = 0) ∧
    ((timer_shutdown H k w).2.tm.evt k).timer_status = 1 ∧
    ((timer_shutdown H k (timer_shutdown H k w).2).2.tm.evt k).timer_enabled = false ∧
    timer_resume H k (timer_shutdown H k (timer_shutdown H k w).2).2 =
      (0, (timer_shutdown H k (timer_shutdown H k w).2).2) ∧
    ((timer_resume H k (timer_shutdown H k (timer_shutdown H k w).2).2).2.tm.evt k).timer_status
      = 1 := by
  have h2 : ((timer_shutdown H k (timer_shutdown H k w).2).2.tm.evt k).timer_enabled =
      false := by
    rw [shutdown_evt, shutdown_evt]
    simp
  have h3 : timer_resume H k (timer_shutdown H k (timer_shutdown H k w).2).2 =
      (0, (timer_shutdown H k (timer_shutdown H k w).2).2) := by
    unfold timer_resume
    rw [h2]
    simp
  refine ⟨?_, ?_, h2, h3, ?_⟩
  · rw [shutdown_evt]
  · rw [shutdown_evt]
  · rw [h3, shutdown_evt]

/-! ## The Write-Failure Record (claim C15) -/

/-- The circular log after a run of appends started at any slot. -/
theorem werr_log_from {σ : Type} (es : List timer_werror_info) (w : Sys σ)
    (hlen : w.werr_info.length = 10) (hi : w.werr_index < 10) :
    (timer_write_errors w es).werr_info.length = 10 ∧
    (timer_write_errors w es).werr_index = (w.werr_index + es.length) % 10 ∧
    (∀ j, j < es.length → es.length ≤ j + 10 →
      (timer_write_errors w es).werr_info[(w.werr_index + j) % 10]? = es[j]?) ∧
    (∀ s, (∀ j, j < es.length → (w.werr_index + j) % 10 ≠ s) →
      (timer_write_errors w es).werr_info[s]? = w.werr_info[s]?) := by
  induction es generalizing w with
  | nil =>
    refine ⟨hlen, ?_, ?_, ?_⟩
    · show w.werr_index = (w.werr_index + 0) % 10
      omega
    · intro j hj; exact absurd hj (Nat.not_lt_zero j)
    · intro s _; rfl
  | cons e es ih =>
    have hstep : timer_write_errors w (e :: es) =
        timer_write_errors (timer_write_error w e.reg e.target e.val e.mask) es := rfl
    have hl1 : (timer_write_error w e.reg e.target e.val e.mask).werr_info.length = 10 := by
      simp [timer_write_error, hlen]
    have hi1 : (timer_write_error w e.reg e.target e.val e.mask).werr_index =
        (w.werr_index + 1) % 10 := rfl
    have hinfo : (timer_write_error w e.reg e.target e.val e.mask).werr_info =
        w.werr_info.set w.werr_index e := rfl
    obtain ⟨a, b, c, d⟩ := ih (timer_write_error w e.reg e.target e.val e.mask) hl1
      (by rw [hi1]; omega)
    rw [hstep]
    refine ⟨a, ?_, ?_, ?_⟩
    · rw [b, hi1, List.length_cons]; omega
    · intro j hj hk
      rw [List.length_cons] at hj hk
      cases j with
      | zero =>
        simp only [Nat.add_zero, Nat.mod_eq_of_lt hi, List.getElem?_cons_zero]
        rw [d w.werr_index (by intro j hj'; rw [hi1]; omega), hinfo]
        exact List.getElem?_set_self (by omega)
      | succ j =>
        have := c j (by omega) (by omega)
        rw [hi1] at this
        rw [List.getElem?_cons_succ, ← this]
        congr 1
        omega
    · intro s hs
      rw [d s ?_, hinfo, List.getElem?_set_ne]
      · have := hs 0 (by simp)
        simp only [Nat.add_zero, Nat.mod_eq_of_lt hi] at this
        exact this
      · intro j hj
        have := hs (j + 1) (by simp; omega)
        rw [hi1]
        omega

/-- C15: `timer_write_error` always leaves `werr_index` in 0..9; after `k`
appends to a log of capacity 10 started at index 0, `werr_index` is
`k mod 10`, each of the last `min(k,10)` failures `j` (counted from 0, the
`k`-th failure being `j = k - 1`) is stored in slot `j mod 10`, and the slots
not yet reached keep their initial content. -/
theorem werr_log_circular {σ : Type} (w : Sys σ) (es : List timer_werror_info)
    (hlen : w.werr_info.length = TIMER_ERR_NUM) (h0 : w.werr_index = 0) :
    (∀ (s : Sys σ) (reg target val mask : Nat),
      (timer_write_error s reg target val mask).werr_index < 10) ∧
    (timer_write_errors w es).werr_info.length = 10 ∧
    (timer_write_errors w es).werr_index = es.length % 10 ∧
    (∀ j, j < es.length → es.length ≤ j + 10 →
      (timer_write_errors w es).werr_info[j % 10]? = es[j]?) ∧
    (∀ s, es.length ≤ s → s < 10 →
      (timer_write_errors w es).werr_info[s]? = w.werr_info[s]?) := by
  obtain ⟨a, b, c, d⟩ := werr_log_from es w hlen (by omega)
  rw [h0] at b c d
  refine ⟨?_, a, ?_, ?_, ?_⟩
  · intro s reg target val mask
    show (s.werr_index + 1) % 10 < 10
    omega
  · simpa using b
  · intro j hj hk
    simpa using c j hj hk
  · intro s hs hs'
    apply d
    intro j hj
    omega

/-- C15 at twelve appends to the empty log: the twelfth failure sits in slot
1 and the index is 2. -/
theorem werr_log_circular_witness :
    (timer_write_errors (sys0 regs0 (tm0 0 26000000 32768))
      ((List.range 12).map (fun i => ⟨i, i, i, i⟩))).werr_index = 12 % 10 ∧
    (timer_write_errors (sys0 regs0 (tm0 0 26000000 32768))
      ((List.range 12).map (fun i => ⟨i, i, i, i⟩))).werr_info[11 % 10]? =
      ((List.range 12).map (fun i => (⟨i, i, i, i⟩ : timer_werror_info)))[11]? :=
  ⟨(werr_log_circular (sys0 regs0 (tm0 0 26000000 32768))
      ((List.range 12).map (fun i => ⟨i, i, i, i⟩)) (by decide) (by decide)).2.2.1,
   (werr_log_circular (sys0 regs0 (tm0 0 26000000 32768))
      ((List.range 12).map (fun i => ⟨i, i, i, i⟩)) (by decide) (by decide)).2.2.2.1 11
      (by decide) (by decide)⟩

/-! ## Bring-up (claims C12, C13, C14) -/

/-- Eight times the loop count, in fast-clock cycles, exceeds the dividend. -/
theorem settle_bound (n fc : Nat) (hfc : 0 < fc) : n < 8 * (n / fc / 8 + 1) * fc := by
  have hq := Nat.div_add_mod n fc
  have hr := Nat.mod_lt n hfc
  have h8 : n / fc + 1 ≤ 8 * (n / fc / 8 + 1) := by omega
  have hm := Nat.mul_le_mul_right fc h8
  have he : (n / fc + 1) * fc = fc * (n / fc) + fc := by ring
  omega

theorem loop_times_tm {σ : Type} (body : Sys σ → Sys σ) (h : ∀ s, (body s).tm = s.tm)
    (n : Nat) (w : Sys σ) : (loop_times body n w).tm = w.tm := by
  induction n generalizing w with
  | zero => rfl
  | succ n ih => rw [loop_times, ih, h]

theorem init_idle_tm {σ : Type} (H : HwModel σ) (fc_freq delay : Nat) (w : Sys σ) :
    (spacemit_timer_init_idle H fc_freq delay w).tm = w.tm := by
  unfold spacemit_timer_init_idle
  simp only []
  rw [loop_times_tm]
  · exact (switch_clock_frame H fc_freq w).2
  · intro s; rfl

/-- A return of 0 from `spacemit_timer_init`, the reset line being usable,
is its success path: the block is registered with the computed loop count. -/
theorem init_zero {σ : Type} (H : HwModel σ) (env : init_env)
    (tid flag fc_freq apb_freq freq : Nat) (b b' : Boot σ) (L : Nat)
    (hL : loop_delay apb_freq fc_freq = some L) (hres : env.resets_err = none)
    (h : spacemit_timer_init H env tid flag fc_freq apb_freq freq b = some (0, b')) :
    b'.slot = some (spacemit_timer_new tid flag L fc_freq freq) := by
  unfold spacemit_timer_init at h
  rw [hL, hres] at h
  simp only [] at h
  split_ifs at h
  all_goals first
    | (exfalso
       simp only [Option.some.injEq, Prod.mk.injEq] at h
       exact absurd h.1 (by decide))
    | (simp only [Option.some.injEq, Prod.mk.injEq, true_and] at h
       rw [← h]
       show some (spacemit_timer_init_idle H fc_freq L _).tm = _
       rw [init_idle_tm])

/-- C13: the loop count of `spacemit_timer_init` is
`L = ((apb_freq * 2 mod 2^32) / fc_freq) / 8 + 1`; for `fc_freq > 0` and
`apb_freq < 2^31` it is at least 1 and `8 * L * fc_freq > 2 * apb_freq`; it
is what a successful `spacemit_timer_init` stores in `loop_delay_fastclk`;
for `fc_freq = 26000000`, `apb_freq = 52000000` it is 1. -/
theorem loop_delay_settles (apb_freq fc_freq : Nat) (hfc : 0 < fc_freq)
    (hapb : apb_freq < 2 ^ 31) :
    loop_delay apb_freq fc_freq = some ((apb_freq * 2 % 2 ^ 32) / fc_freq / 8 + 1) ∧
    1 ≤ (apb_freq * 2 % 2 ^ 32) / fc_freq / 8 + 1 ∧
    8 * ((apb_freq * 2 % 2 ^ 32) / fc_freq / 8 + 1) * fc_freq > 2 * apb_freq ∧
    (∀ {σ : Type} (H : HwModel σ) (env : init_env) (tid flag freq : Nat) (b b' : Boot σ),
      env.resets_err = none →
      spacemit_timer_init H env tid flag fc_freq apb_freq freq b = some (0, b') →
      ∃ tm, b'.slot = some tm ∧
        tm.loop_delay_fastclk = (((apb_freq * 2 % 2 ^ 32) / fc_freq / 8 + 1 : Nat) : Int)) ∧
    loop_delay 52000000 26000000 = some 1 := by
  have hnw : apb_freq * 2 % 2 ^ 32 = apb_freq * 2 := Nat.mod_eq_of_lt (by omega)
  have hlt : apb_freq * 2 / fc_freq / 8 + 1 < 2 ^ 31 := by
    have : apb_freq * 2 / fc_freq ≤ apb_freq * 2 := Nat.div_le_self _ _
    omega
  have hL : loop_delay apb_freq fc_freq = some ((apb_freq * 2 % 2 ^ 32) / fc_freq / 8 + 1) := by
    unfold loop_delay u32
    rw [if_neg (by omega), hnw, Nat.mod_eq_of_lt (lt_trans hlt (by norm_num))]
  refine ⟨hL, Nat.le_add_left 1 _, ?_, ?_, by decide⟩
  · rw [hnw]
    have := settle_bound (apb_freq * 2) fc_freq hfc
    omega
  · intro σ H env tid flag freq b b' hres h
    refine ⟨_, init_zero H env tid flag fc_freq apb_freq freq b b' _ hL hres h, ?_⟩
    show u32_to_int _ = _
    unfold u32_to_int
    rw [hnw, Nat.mod_eq_of_lt (lt_trans hlt (by norm_num)), if_pos hlt]

/-- C13 at the 26 MHz fast clock and 52 MHz bus of the scenario. -/
theorem loop_delay_settles_witness :
    loop_delay 52000000 26000000 = some ((52000000 * 2 % 2 ^ 32) / 26000000 / 8 + 1) ∧
    8 * ((52000000 * 2 % 2 ^ 32) / 26000000 / 8 + 1) * 26000000 > 2 * 52000000 :=
  ⟨(loop_delay_settles 52000000 26000000 (by decide) (by decide)).1,
   (loop_delay_settles 52000000 26000000 (by decide) (by decide)).2.2.1⟩

/-- C14, the code at a bad block identifier: with the register window mapped
and every property read succeeding, a `spacemit,timer-id` of 3 or more makes
`spacemit_of_timer_init` return 0, the value left in `ret` by the successful
read, and leave the bring-up state (no block registered) unchanged. -/
theorem spacemit_of_timer_init_bad_id {σ : Type} (H : HwModel σ) (env : init_env)
    (ncpus tid fc_freq apb_freq freq : Nat) (children : List counter_node) (b : Boot σ) :
    spacemit_of_timer_init H env ncpus
      { iomap_ok := true, timer_id := (0, tid + 3), fastclk_frequency := (0, fc_freq),
        apb_frequency := (0, apb_freq), timer_frequency := (0, freq), children := children }
      b = some (0, b) := by
  unfold spacemit_of_timer_init
  simp [SPACEMIT_MAX_TIMER]

/-! ## The last re-read of an attempt (claim C17) -/

/-- C17, the code where only the third re-read passes: writing 1 with mask 1
to a register whose first three reads return 0 and whose fourth read returns
1, `timer_write_check` logs a failure whose observed value equals the
expected one and writes the register a second time. -/
theorem timer_write_check_third_reread :
    (timer_write_check slowHw TMR_CER 1 1 false false
      (sys0 0 (tm0 0 26000000 26000000))).trace =
      [Event.wr TMR_CER 1, Event.rd TMR_CER 0, Event.rd TMR_CER 0, Event.rd TMR_CER 0,
        Event.rd TMR_CER 1, Event.werr TMR_CER 1 1 1, Event.wr TMR_CER 1,
        Event.rd TMR_CER 1] := by
  decide

/-! ## Counter enable and disable (claims C16, C18) -/

theorem testBit_CER_COUNTER (c i : Nat) :
    (TMR_CER_COUNTER c).testBit i = (decide (i < 32) && decide (c = i)) := by
  unfold TMR_CER_COUNTER
  rw [testBit_u32, Nat.one_shiftLeft, Nat.testBit_two_pow]

/-- Bits of `TMR_CER` after or-ing in the counter's bit. -/
theorem testBit_cer_set (x c i : Nat) :
    (u32 (u32 x ||| TMR_CER_COUNTER c)).testBit i =
      (decide (i < 32) && (x.testBit i || decide (c = i))) := by
  rw [testBit_u32, Nat.testBit_or, testBit_u32, testBit_CER_COUNTER]
  cases decide (i < 32) <;> simp

/-- Bits of `TMR_CER` after masking out the counter's bit. -/
theorem testBit_cer_clear (x c i : Nat) :
    (u32 (u32 x &&& not32 (TMR_CER_COUNTER c))).testBit i =
      (decide (i < 32) && (x.testBit i && !decide (c = i))) := by
  rw [testBit_u32, Nat.testBit_and, testBit_u32, testBit_not32, testBit_CER_COUNTER]
  cases decide (i < 32) <;> simp

/-- The register `TMR_CER` after `timer_counter_enable` on latching hardware. -/
theorem enable_cer (k : Fin 3) (w : Sys (Nat → Nat)) :
    reg32 (timer_counter_enable latchHw k w).base TMR_CER =
      u32 (u32 (w.base TMR_CER) ||| TMR_CER_COUNTER (w.tm.evt k).cid) := by
  rw [latchHw_eq, (enable_w1c _ k w rfl rfl).1]
  unfold reg32
  rw [Function.update_same, u32_u32]

/-- The register `TMR_CER` after `timer_counter_disable` on latching hardware. -/
theorem disable_cer (k : Fin 3) (w : Sys (Nat → Nat)) :
    reg32 (timer_counter_disable latchHw k w).base TMR_CER =
      u32 (u32 (w.base TMR_CER) &&& not32 (TMR_CER_COUNTER (w.tm.evt k).cid)) := by
  rw [latchHw_eq, (disable_w1c _ k w rfl rfl).1]
  unfold reg32
  by_cases hf : (w.tm.evt k).freq ≠ w.tm.fc_freq
  · rw [if_pos hf, switch_regs_ne _ _ _ _ (by decide), Function.update_same, u32_u32]
  · rw [if_neg hf, Function.update_same, u32_u32]

/-- C16: on latching hardware, for every prior content of `TMR_CER` and every
counter with index `cid` in 0..2, `timer_counter_enable` sets bit `cid` of
`TMR_CER` and `timer_status` to 0, `timer_counter_disable` clears bit `cid`
and sets `timer_status` to 1, and both leave every other bit of `TMR_CER` as
it was. -/
theorem timer_counter_enable_disable_cer (k : Fin 3) (w : Sys (Nat → Nat))
    (hcid : (w.tm.evt k).cid ≤ 2) :
    ((reg32 (timer_counter_enable latchHw k w).base TMR_CER).testBit (w.tm.evt k).cid = true ∧
      ((timer_counter_enable latchHw k w).tm.evt k).timer_status = 0 ∧
      ∀ i, i ≠ (w.tm.evt k).cid →
        (reg32 (timer_counter_enable latchHw k w).base TMR_CER).testBit i =
          (reg32 w.base TMR_CER).testBit i) ∧
    ((reg32 (timer_counter_disable latchHw k w).base TMR_CER).testBit (w.tm.evt k).cid = false ∧
      ((timer_counter_disable latchHw k w).tm.evt k).timer_status = 1 ∧
      ∀ i, i ≠ (w.tm.evt k).cid →
        (reg32 (timer_counter_disable latchHw k w).base TMR_CER).testBit i =
          (reg32 w.base TMR_CER).testBit i) := by
  have h32 : (w.tm.evt k).cid < 32 := by omega
  refine ⟨⟨?_, ?_, ?_⟩, ?_, ?_, ?_⟩
  · rw [enable_cer, testBit_cer_set]
    simp [h32]
  · rw [(enable_frame _ _ _).2]
    simp
  · intro i hi
    rw [enable_cer, testBit_cer_set]
    unfold reg32
    rw [testBit_u32]
    simp [Ne.symm hi]
  · rw [disable_cer, testBit_cer_clear]
    simp
  · rw [(disable_frame _ _ _).2]
    simp
  · intro i hi
    rw [disable_cer, testBit_cer_clear]
    unfold reg32
    rw [testBit_u32]
    simp [Ne.symm hi]

/-- C16 at counter 1 of a block whose `TMR_CER` holds 5: enabling gives bit 1
and keeps bit 2. -/
theorem timer_counter_enable_disable_cer_witness :
    (reg32 (timer_counter_enable latchHw 1
      (sys0 (fun r => if r = 0 then 5 else 0) (tm0 0 26000000 26000000))).base
      TMR_CER).testBit 1 = true ∧
    (reg32 (timer_counter_enable latchHw 1
      (sys0 (fun r => if r = 0 then 5 else 0) (tm0 0 26000000 26000000))).base
      TMR_CER).testBit 2 =
      (reg32 (sys0 (fun r => if r = 0 then 5 else 0) (tm0 0 26000000 26000000)).base
        TMR_CER).testBit 2 :=
  ⟨(timer_counter_enable_disable_cer 1
      (sys0 (fun r => if r = 0 then 5 else 0) (tm0 0 26000000 26000000)) (by decide)).1.1,
   (timer_counter_enable_disable_cer 1
      (sys0 (fun r => if r = 0 then 5 else 0) (tm0 0 26000000 26000000)) (by decide)).1.2.2 2
      (by decide)⟩

/-- The accepting clock switch on hardware whose `TMR_CCR` latches, as a
whole state. -/
theorem switch_clock_w1c_state (d : Nat → Option Nat) (freq : Nat) (w : Sys (Nat → Nat))
    (hd : d TMR_CCR = none) (h1 : w.tm.id = 0 ∨ w.tm.id = 1 ∨ w.tm.id = 2)
    (h2 : freq = w.tm.fc_freq ∨ freq = SPACEMIT_TIMER_CLOCK_32KHZ) :
    (timer_counter_switch_clock (w1cHw d) freq w).2 =
      { w with
        base := Function.update w.base TMR_CCR
          (u32 (reg32 w.base TMR_CCR &&& not32 (TMR_CCR_CS w.tm.id 3) |||
            TMR_CCR_CS w.tm.id (if freq = w.tm.fc_freq then 0 else 1))),
        trace := w.trace ++
          [Event.rd TMR_CCR (reg32 w.base TMR_CCR),
           Event.wr TMR_CCR (u32 (reg32 w.base TMR_CCR &&& not32 (TMR_CCR_CS w.tm.id 3) |||
             TMR_CCR_CS w.tm.id (if freq = w.tm.fc_freq then 0 else 1))),
           Event.rd TMR_CCR (u32 (reg32 w.base TMR_CCR &&& not32 (TMR_CCR_CS w.tm.id 3) |||
             TMR_CCR_CS w.tm.id (if freq = w.tm.fc_freq then 0 else 1)))] } := by
  rw [switch_clock_ok _ freq w h1 h2, core_latch d _ _ _ _ _ hd]
  simp [w1c_readl_latch d _ _ hd]

/-- The trace of `timer_write_check` of `TMR_CER` without clock switch on
latching hardware. -/
theorem write_check_cer_state (val mask : Nat) (w : Sys (Nat → Nat)) :
    timer_write_check latchHw TMR_CER val mask false false w =
      { w with base := Function.update w.base TMR_CER (u32 val),
               trace := w.trace ++ [Event.wr TMR_CER (u32 val), Event.rd TMR_CER (u32 val)] } := by
  unfold timer_write_check
  rw [latchHw_eq, core_latch _ _ _ _ _ _ rfl]

/-- The actions of `timer_counter_enable` on latching hardware when the
counter works at the fast clock: `TMR_CER` only. -/
theorem enable_trace_fast (k : Fin 3) (w : Sys (Nat → Nat))
    (hf : (w.tm.evt k).freq = w.tm.fc_freq) :
    (timer_counter_enable latchHw k w).trace = w.trace ++
      [Event.rd TMR_CER (reg32 w.base TMR_CER),
       Event.wr TMR_CER (u32 (reg32 w.base TMR_CER ||| TMR_CER_COUNTER (w.tm.evt k).cid)),
       Event.rd TMR_CER (u32 (reg32 w.base TMR_CER ||| TMR_CER_COUNTER (w.tm.evt k).cid))] := by
  unfold timer_counter_enable
  simp only [hf, ne_eq, not_true_eq_false, if_false]
  rw [write_check_cer_state]
  simp [set_evt, latchHw_eq, w1c_readl_latch]

/-- The actions of `timer_counter_disable` on latching hardware when the
counter works at the fast clock: `TMR_CER` only. -/
theorem disable_trace_fast (k : Fin 3) (w : Sys (Nat → Nat))
    (hf : (w.tm.evt k).freq = w.tm.fc_freq) :
    (timer_counter_disable latchHw k w).trace = w.trace ++
      [Event.rd TMR_CER (reg32 w.base TMR_CER),
       Event.wr TMR_CER
         (u32 (reg32 w.base TMR_CER &&& not32 (TMR_CER_COUNTER (w.tm.evt k).cid))),
       Event.rd TMR_CER
         (u32 (reg32 w.base TMR_CER &&& not32 (TMR_CER_COUNTER (w.tm.evt k).cid)))] := by
  unfold timer_counter_disable
  simp only [hf, ne_eq, not_true_eq_false, decide_False]
  rw [write_check_cer_state]
  simp [set_evt, latchHw_eq, w1c_readl_latch]

/-- The actions of `timer_counter_enable` on latching hardware when the
counter's clock is switched: the write of `TMR_CCR` comes before the write of
`TMR_CER`. -/
theorem enable_trace_slow (k : Fin 3) (w : Sys (Nat → Nat))
    (h1 : w.tm.id = 0 ∨ w.tm.id = 1 ∨ w.tm.id = 2)
    (h2 : (w.tm.evt k).freq = SPACEMIT_TIMER_CLOCK_32KHZ)
    (hne : (w.tm.evt k).freq ≠ w.tm.fc_freq) :
    (timer_counter_enable latchHw k w).trace = w.trace ++
      [Event.rd TMR_CCR (reg32 w.base TMR_CCR),
       Event.wr TMR_CCR (u32 (reg32 w.base TMR_CCR &&& not32 (TMR_CCR_CS w.tm.id 3) |||
         TMR_CCR_CS w.tm.id 1)),
       Event.rd TMR_CCR (u32 (reg32 w.base TMR_CCR &&& not32 (TMR_CCR_CS w.tm.id 3) |||
         TMR_CCR_CS w.tm.id 1)),
       Event.rd TMR_CER (reg32 w.base TMR_CER),
       Event.wr TMR_CER (u32 (reg32 w.base TMR_CER ||| TMR_CER_COUNTER (w.tm.evt k).cid)),
       Event.rd TMR_CER (u32 (reg32 w.base TMR_CER ||| TMR_CER_COUNTER (w.tm.evt k).cid))] := by
  unfold timer_counter_enable
  simp only [if_pos hne]
  rw [write_check_cer_state]
  rw [latchHw_eq, switch_clock_w1c_state _ _ w rfl h1 (Or.inr h2), if_neg hne]
  have hne' : TMR_CER ≠ TMR_CCR := by decide
  simp [set_evt, w1c_readl_latch, reg32, Function.update_noteq hne']

/-- C18: on latching hardware, in a block with id in 0..2, for a counter with
index in 0..2 whose working frequency is 32768 and differs from `fc_freq`,
`timer_counter_disable` leaves the block's clock-select field at 0 and the
enable bit clear, and a following `timer_counter_enable` writes `TMR_CCR`
with that field at 1 before it writes `TMR_CER` with the enable bit set, and
leaves the field at 1 and the bit set; for a counter whose working frequency
equals `fc_freq` the actions of either operation are a read, a write and a
read of `TMR_CER`, so that neither writes `TMR_CCR`. -/
theorem timer_counter_clock_handover (k : Fin 3) (w : Sys (Nat → Nat)) :
    (w.tm.id = 0 ∨ w.tm.id = 1 ∨ w.tm.id = 2 → (w.tm.evt k).cid ≤ 2 →
      (w.tm.evt k).freq = SPACEMIT_TIMER_CLOCK_32KHZ → (w.tm.evt k).freq ≠ w.tm.fc_freq →
      (reg32 (timer_counter_disable latchHw k w).base TMR_CCR &&& TMR_CCR_CS w.tm.id 3 =
          TMR_CCR_CS w.tm.id 0 ∧
        (reg32 (timer_counter_disable latchHw k w).base TMR_CER).testBit (w.tm.evt k).cid =
          false) ∧
      (reg32 (timer_counter_enable latchHw k (timer_counter_disable latchHw k w)).base TMR_CCR
            &&& TMR_CCR_CS w.tm.id 3 = TMR_CCR_CS w.tm.id 1 ∧
        (reg32 (timer_counter_enable latchHw k (timer_counter_disable latchHw k w)).base
          TMR_CER).testBit (w.tm.evt k).cid = true) ∧
      ∃ c v e e',
        (timer_counter_enable latchHw k (timer_counter_disable latchHw k w)).trace =
          (timer_counter_disable latchHw k w).trace ++
            [Event.rd TMR_CCR c, Event.wr TMR_CCR v, Event.rd TMR_CCR v,
             Event.rd TMR_CER e, Event.wr TMR_CER e', Event.rd TMR_CER e'] ∧
        v &&& TMR_CCR_CS w.tm.id 3 = TMR_CCR_CS w.tm.id 1 ∧
        e'.testBit (w.tm.evt k).cid = true) ∧
    ((w.tm.evt k).freq = w.tm.fc_freq →
      (∃ e v, (timer_counter_disable latchHw k w).trace =
        w.trace ++ [Event.rd TMR_CER e, Event.wr TMR_CER v, Event.rd TMR_CER v]) ∧
      (∃ e v, (timer_counter_enable latchHw k w).trace =
        w.trace ++ [Event.rd TMR_CER e, Event.wr TMR_CER v, Event.rd TMR_CER v]) ∧
      cnt (Event.is_wr_to TMR_CCR) (timer_counter_disable latchHw k w) =
        cnt (Event.is_wr_to TMR_CCR) w ∧
      cnt (Event.is_wr_to TMR_CCR) (timer_counter_enable latchHw k w) =
        cnt (Event.is_wr_to TMR_CCR) w) := by
  constructor
  · intro hid hcid hf hne
    have h32 : (w.tm.evt k).cid < 32 := by omega
    -- the block and the counter after the disable
    have ht := (disable_frame latchHw k w).2
    have hid1 : (timer_counter_disable latchHw k w).tm.id = w.tm.id := by rw [ht]
    have hfc1 : (timer_counter_disable latchHw k w).tm.fc_freq = w.tm.fc_freq := by rw [ht]
    have hfr1 : ((timer_counter_disable latchHw k w).tm.evt k).freq = (w.tm.evt k).freq := by
      rw [ht]; simp
    have hcid1 : ((timer_counter_disable latchHw k w).tm.evt k).cid = (w.tm.evt k).cid := by
      rw [ht]; simp
    have hsub0 := TMR_CCR_CS_sub w.tm.id 0 hid (Or.inl rfl)
    have hsub1 := TMR_CCR_CS_sub w.tm.id 1 hid (Or.inr rfl)
    refine ⟨⟨?_, ?_⟩, ⟨?_, ?_⟩, ?_⟩
    · rw [latchHw_eq, (disable_w1c _ k w rfl rfl).1, if_pos hne,
        switch_regs_ccr _ _ _ hid (Or.inl rfl), if_pos rfl]
      exact field_set _ _ _ hsub0
    · rw [disable_cer, testBit_cer_clear]
      simp
    · rw [enable_ccr, if_pos (by rw [hfr1, hfc1]; exact hne),
        switch_regs_ccr _ _ _ (by rw [hid1]; exact hid) (Or.inr (by rw [hfr1]; exact hf)),
        if_neg (by rw [hfr1, hfc1]; exact hne), hid1]
      exact field_set _ _ _ hsub1
    · rw [enable_cer, testBit_cer_set, hcid1]
      simp [h32]
    · refine ⟨_, _, _, _, enable_trace_slow k (timer_counter_disable latchHw k w)
        (by rw [hid1]; exact hid) (by rw [hfr1]; exact hf)
        (by rw [hfr1, hfc1]; exact hne), ?_, ?_⟩
      · rw [hid1, u32_of_lt (Nat.or_lt_two_pow
          (Nat.and_lt_two_pow _ (not32_lt _)) (TMR_CCR_CS_lt _ _))]
        exact field_set _ _ _ hsub1
      · rw [hcid1]
        unfold reg32
        rw [testBit_cer_set]
        simp [h32]
  · intro hf
    have hd := disable_trace_fast k w hf
    have he := enable_trace_fast k w hf
    refine ⟨⟨_, _, hd⟩, ⟨_, _, he⟩, ?_, ?_⟩
    · unfold cnt
      rw [hd, List.countP_append]
      simp [List.countP_cons, Event.is_wr_to, TMR_CER, TMR_CCR]
    · unfold cnt
      rw [he, List.countP_append]
      simp [List.countP_cons, Event.is_wr_to, TMR_CER, TMR_CCR]

/-- C18 at block id 0, counter 0, 32768 Hz against a 26 MHz fast clock, and
at a counter working at the fast clock. -/
theorem timer_counter_clock_handover_witness :
    reg32 (timer_counter_enable latchHw 0 (timer_counter_disable latchHw 0
      (sys0 regs0 (tm0 0 26000000 32768)))).base TMR_CCR &&& TMR_CCR_CS 0 3 =
      TMR_CCR_CS 0 1 ∧
    cnt (Event.is_wr_to TMR_CCR)
      (timer_counter_disable latchHw 0 (sys0 regs0 (tm0 0 26000000 26000000))) =
      cnt (Event.is_wr_to TMR_CCR) (sys0 regs0 (tm0 0 26000000 26000000)) :=
  ⟨((timer_counter_clock_handover 0 (sys0 regs0 (tm0 0 26000000 32768))).1
      (by decide) (by decide) (by decide) (by decide)).2.1.1,
   ((timer_counter_clock_handover 0 (sys0 regs0 (tm0 0 26000000 26000000))).2
      (by decide)).2.2.1⟩

/-! ## Counter bring-up (claim C12) -/

/-- Repeating a write of the value a latching register already holds changes
no register. -/
theorem loop_times_same (d : Nat → Option Nat) (reg v : Nat) (hd : d reg = none) (n : Nat)
    (w : Sys (Nat → Nat)) (hw : w.base reg = u32 v) :
    (loop_times (fun s => raw_writel (w1cHw d) s reg v) n w).base = w.base := by
  induction n generalizing w with
  | zero => rfl
  | succ n ih =>
    have hb : (raw_writel (w1cHw d) w reg v).base = w.base := by
      rw [w1c_writel_latch d _ _ _ hd]
      show Function.update w.base reg (u32 v) = w.base
      rw [← hw, Function.update_eq_self]
    rw [loop_times, ih _ (by rw [hb]; exact hw), hb]

/-- The registers of a counter with index at most 2 that bring-up touches
are distinct from each other and from the block-wide registers. -/
theorem reg_facts_init (c : Nat) (h : c ≤ 2) :
    (TMR_PLCR c ≠ TMR_CER ∧ TMR_PLCR c ≠ TMR_CMR ∧ TMR_PLCR c ≠ TMR_SR c) ∧
    (TMR_SR c ≠ TMR_CER ∧ TMR_SR c ≠ TMR_CMR) ∧
    (icr_clears TMR_CMR = none ∧ icr_clears TMR_CER = none ∧ icr_clears TMR_CCR = none ∧
      icr_clears (TMR_PLCR c) = none ∧ icr_clears (TMR_ICR c) = some (TMR_SR c)) := by
  interval_cases c <;> decide

/-- The register file after the register accesses of `spacemit_timer_hw_init`
on hardware whose mode, enable and preload-control registers latch and whose
interrupt-clear register clears the status register `sr`. -/
theorem hw_init_run_w1c (d : Nat → Option Nat) (cid delay sr : Nat) (w : Sys (Nat → Nat))
    (hm : d TMR_CMR = none) (he : d TMR_CER = none) (hp : d (TMR_PLCR cid) = none)
    (hx : d (TMR_ICR cid) = some sr) :
    (spacemit_timer_hw_init_run (w1cHw d) cid delay w).base =
      Function.update
        (Function.update
          (Function.update
            (Function.update w.base TMR_CMR (u32 (reg32 w.base TMR_CMR ||| TMR_CER_COUNTER cid)))
            (TMR_PLCR cid) 0)
          sr
          ((Function.update
            (Function.update w.base TMR_CMR (u32 (reg32 w.base TMR_CMR ||| TMR_CER_COUNTER cid)))
            (TMR_PLCR cid) 0) sr &&& not32 (u32 0x7)))
        TMR_CER
        (u32 (reg32
          (Function.update
            (Function.update
              (Function.update w.base TMR_CMR
                (u32 (reg32 w.base TMR_CMR ||| TMR_CER_COUNTER cid)))
              (TMR_PLCR cid) 0)
            sr
            ((Function.update
              (Function.update w.base TMR_CMR
                (u32 (reg32 w.base TMR_CMR ||| TMR_CER_COUNTER cid)))
              (TMR_PLCR cid) 0) sr &&& not32 (u32 0x7))) TMR_CER ||| TMR_CER_COUNTER cid)) := by
  unfold spacemit_timer_hw_init_run
  simp only []
  rw [loop_times_same d _ _ he]
  · simp only [w1c_readl_latch d _ _ hm, w1c_readl_latch d _ _ he, w1c_writel_latch d _ _ _ hm,
      w1c_writel_latch d _ _ _ he, w1c_writel_latch d _ _ _ hp, w1c_writel_clear d _ _ _ _ hx]
    rfl
  · simp only [w1c_readl_latch d _ _ hm, w1c_readl_latch d _ _ he, w1c_writel_latch d _ _ _ hm,
      w1c_writel_latch d _ _ _ he, w1c_writel_latch d _ _ _ hp, w1c_writel_clear d _ _ _ _ hx,
      Function.update_same]

theorem u32_and_not32_and (x m : Nat) : u32 (x &&& not32 m) &&& m = 0 := by
  apply Nat.eq_of_testBit_eq
  intro i
  simp only [Nat.testBit_and, testBit_u32, testBit_not32, Nat.zero_testBit]
  cases decide (i < 32) <;> cases x.testBit i <;> cases m.testBit i <;> rfl

/-- C12: on the simulated block, for a counter with index in 0..2 and a valid
working frequency (`fc_freq` or 32768) in a block with id in 0..2,
`spacemit_timer_hw_init` returns 0 whenever the working frequency is not 0,
and after a return of 0 the counter's bit in `TMR_CER` and in `TMR_CMR` is
set, `TMR_PLCR(cid)` is 0, the three status bits of `TMR_SR(cid)` are 0, and
every other bit of `TMR_CER` and `TMR_CMR` is as before. -/
theorem spacemit_timer_hw_init_baseline (k : Fin 3) (w : Sys (Nat → Nat))
    (hid : w.tm.id = 0 ∨ w.tm.id = 1 ∨ w.tm.id = 2)
    (hfreq : (w.tm.evt k).freq = w.tm.fc_freq ∨
      (w.tm.evt k).freq = SPACEMIT_TIMER_CLOCK_32KHZ)
    (hcid : (w.tm.evt k).cid ≤ 2) :
    ((w.tm.evt k).freq ≠ 0 → ∃ w', spacemit_timer_hw_init simHw k w = some (0, w')) ∧
    (∀ w', spacemit_timer_hw_init simHw k w = some (0, w') →
      (reg32 w'.base TMR_CER).testBit (w.tm.evt k).cid = true ∧
      (reg32 w'.base TMR_CMR).testBit (w.tm.evt k).cid = true ∧
      reg32 w'.base (TMR_PLCR (w.tm.evt k).cid) = 0 ∧
      reg32 w'.base (TMR_SR (w.tm.evt k).cid) &&& 0x7 = 0 ∧
      (∀ i, i ≠ (w.tm.evt k).cid →
        (reg32 w'.base TMR_CER).testBit i = (reg32 w.base TMR_CER).testBit i ∧
        (reg32 w'.base TMR_CMR).testBit i = (reg32 w.base TMR_CMR).testBit i)) := by
  obtain ⟨⟨p1, p2, p3⟩, ⟨s1, s2⟩, d1, d2, d3, d4, d5⟩ := reg_facts_init _ hcid
  have h32 : (w.tm.evt k).cid < 32 := by omega
  have hret : (timer_counter_switch_clock simHw (w.tm.evt k).freq w).1 = 0 := by
    rw [switch_clock_ret, if_pos ⟨hid, hfreq⟩]
  have hrun : ∀ delay, (spacemit_timer_hw_init_run simHw (w.tm.evt k).cid delay
      (timer_counter_switch_clock simHw (w.tm.evt k).freq w).2).base = _ :=
    fun delay => hw_init_run_w1c icr_clears (w.tm.evt k).cid delay _ _ d1 d2 d4 d5
  have hsw : (timer_counter_switch_clock simHw (w.tm.evt k).freq w).2.base =
      switch_regs w.tm (w.tm.evt k).freq w.base := (switch_clock_w1c icr_clears _ w d3).1
  have hcer : switch_regs w.tm (w.tm.evt k).freq w.base TMR_CER = w.base TMR_CER :=
    switch_regs_ne _ _ _ _ (by decide)
  have hcmr : switch_regs w.tm (w.tm.evt k).freq w.base TMR_CMR = w.base TMR_CMR :=
    switch_regs_ne _ _ _ _ (by decide)
  have key : ∀ w', spacemit_timer_hw_init simHw k w = some (0, w') →
      ∃ delay, w' = spacemit_timer_hw_init_run simHw (w.tm.evt k).cid delay
        (timer_counter_switch_clock simHw (w.tm.evt k).freq w).2 := by
    intro w' h
    unfold spacemit_timer_hw_init at h
    simp only [hret, ne_eq, not_true_eq_false, if_false] at h
    by_cases h0 : (w.tm.evt k).freq = 0
    · rw [if_pos h0] at h; exact absurd h (by simp)
    · rw [if_neg h0] at h
      simp only [Option.some.injEq, Prod.mk.injEq, true_and] at h
      exact ⟨_, h.symm⟩
  constructor
  · intro h0
    unfold spacemit_timer_hw_init
    simp only [hret, ne_eq, not_true_eq_false, if_false, if_neg h0]
    exact ⟨_, rfl⟩
  · intro w' h
    obtain ⟨delay, rfl⟩ := key w' h
    unfold reg32
    rw [hrun delay, hsw]
    refine ⟨?_, ?_, ?_, ?_, ?_⟩
    · rw [Function.update_same]
      simp only [reg32, u32_u32, testBit_cer_set]
      simp [h32]
    · rw [Function.update_noteq (by decide), Function.update_noteq (Ne.symm s2),
        Function.update_noteq (Ne.symm p2), Function.update_same]
      simp only [reg32, u32_u32, testBit_cer_set]
      simp [h32]
    · rw [Function.update_noteq p1, Function.update_noteq p3, Function.update_same]
      rfl
    · rw [Function.update_noteq s1, Function.update_same]
      exact u32_and_not32_and _ 0x7
    · intro i hi
      constructor
      · rw [Function.update_same]
        simp only [reg32, u32_u32, testBit_cer_set]
        rw [Function.update_noteq (Ne.symm s1),
          Function.update_noteq (Ne.symm p1), Function.update_noteq (by decide), hcer,
          testBit_u32]
        simp [Ne.symm hi]
      · rw [Function.update_noteq (by decide), Function.update_noteq (Ne.symm s2),
          Function.update_noteq (Ne.symm p2), Function.update_same]
        simp only [reg32, u32_u32, testBit_cer_set]
        rw [hcmr, testBit_u32]
        simp [Ne.symm hi]

/-- C12 at counter 0 of block 0 working at 32768 Hz with a 26 MHz fast clock,
all registers 0 beforehand. -/
theorem spacemit_timer_hw_init_baseline_witness :
    ∃ w', spacemit_timer_hw_init simHw 0 (sys0 regs0 (tm0 0 26000000 32768)) = some (0, w') ∧
      (reg32 w'.base TMR_CER).testBit 0 = true ∧
      reg32 w'.base (TMR_SR 0) &&& 0x7 = 0 := by
  obtain ⟨a, b⟩ := spacemit_timer_hw_init_baseline 0 (sys0 regs0 (tm0 0 26000000 32768))
    (by decide) (by decide) (by decide)
  obtain ⟨w', hw'⟩ := a (by decide)
  exact ⟨w', hw', (b w' hw').1, (b w' hw').2.2.2.1⟩

/-! ## Shutdown followed by resume (claim C11) -/

/-- The clock switch on a latching register file depends on the block only
through its id and fast-clock frequency. -/
theorem switch_regs_congr (tm tm' : spacemit_timer) (freq : Nat) (s : Nat → Nat)
    (h1 : tm'.id = tm.id) (h2 : tm'.fc_freq = tm.fc_freq) :
    switch_regs tm' freq s = switch_regs tm freq s := by
  unfold switch_regs
  rw [h1, h2]

/-- The content of `TMR_CCR` after a clock switch does not depend on a prior
write of `TMR_CER`. -/
theorem switch_regs_update_cer (tm : spacemit_timer) (freq : Nat) (s : Nat → Nat) (v : Nat) :
    switch_regs tm freq (Function.update s TMR_CER v) TMR_CCR = switch_regs tm freq s TMR_CCR := by
  have hne : TMR_CCR ≠ TMR_CER := by decide
  unfold switch_regs
  by_cases h : (tm.id = 0 ∨ tm.id = 1 ∨ tm.id = 2) ∧
      (freq = tm.fc_freq ∨ freq = SPACEMIT_TIMER_CLOCK_32KHZ)
  · rw [if_pos h, if_pos h, Function.update_same, Function.update_same,
      Function.update_noteq hne]
  · rw [if_neg h, if_neg h, Function.update_noteq hne]

/-- The register `TMR_CCR` after `timer_counter_disable` on latching hardware. -/
theorem disable_ccr (k : Fin 3) (w : Sys (Nat → Nat)) :
    reg32 (timer_counter_disable latchHw k w).base TMR_CCR =
      reg32 (if (w.tm.evt k).freq ≠ w.tm.fc_freq then
        switch_regs w.tm w.tm.fc_freq w.base else w.base) TMR_CCR := by
  have hne : TMR_CCR ≠ TMR_CER := by decide
  rw [latchHw_eq, (disable_w1c _ k w rfl rfl).1]
  unfold reg32
  by_cases hf : (w.tm.evt k).freq ≠ w.tm.fc_freq
  · rw [if_pos hf, if_pos hf, switch_regs_update_cer]
  · rw [if_neg hf, if_neg hf, Function.update_noteq hne]

/-- The field of a block with valid id after a clock switch away from it. -/
theorem switch_regs_field (tm : spacemit_timer) (freq : Nat) (s : Nat → Nat)
    (h1 : tm.id = 0 ∨ tm.id = 1 ∨ tm.id = 2)
    (h2 : freq = tm.fc_freq ∨ freq = SPACEMIT_TIMER_CLOCK_32KHZ) :
    reg32 (switch_regs tm freq s) TMR_CCR &&& TMR_CCR_CS tm.id 3 =
      TMR_CCR_CS tm.id (if freq = tm.fc_freq then 0 else 1) := by
  rw [switch_regs_ccr _ _ _ h1 h2]
  apply field_set
  by_cases hf : freq = tm.fc_freq
  · rw [if_pos hf]; exact TMR_CCR_CS_sub _ _ h1 (Or.inl rfl)
  · rw [if_neg hf]; exact TMR_CCR_CS_sub _ _ h1 (Or.inr rfl)

/-- A clock switch that is rejected leaves the register file alone. -/
theorem switch_regs_reject (tm : spacemit_timer) (freq : Nat) (s : Nat → Nat)
    (h : ¬ ((tm.id = 0 ∨ tm.id = 1 ∨ tm.id = 2) ∧
      (freq = tm.fc_freq ∨ freq = SPACEMIT_TIMER_CLOCK_32KHZ))) :
    switch_regs tm freq s = s := by
  unfold switch_regs
  rw [if_neg h]

/-- The state after `timer_shutdown` on latching hardware. -/
theorem shutdown_latch (k : Fin 3) (w : Sys (Nat → Nat)) :
    reg32 (timer_shutdown latchHw k w).2.base TMR_CER =
      u32 (u32 (w.base TMR_CER) &&& not32 (TMR_CER_COUNTER (w.tm.evt k).cid)) ∧
    reg32 (timer_shutdown latchHw k w).2.base TMR_CCR =
      reg32 (if (w.tm.evt k).freq ≠ w.tm.fc_freq then
        switch_regs w.tm w.tm.fc_freq w.base else w.base) TMR_CCR ∧
    (timer_shutdown latchHw k w).2.tm.id = w.tm.id ∧
    (timer_shutdown latchHw k w).2.tm.fc_freq = w.tm.fc_freq := by
  have hflag : ∀ e : spacemit_timer_evt, (set_evt w k e).base = w.base := fun _ => rfl
  refine ⟨?_, ?_, ?_, ?_⟩
  · show reg32 (timer_counter_disable latchHw k (set_evt w k _)).base TMR_CER = _
    rw [disable_cer]
    simp [set_evt]
  · show reg32 (timer_counter_disable latchHw k (set_evt w k _)).base TMR_CCR = _
    rw [disable_ccr]
    simp only [set_evt, Function.update_same, switch_regs]
  · show (timer_counter_disable latchHw k (set_evt w k _)).tm.id = _
    rw [(disable_frame _ _ _).2]
    rfl
  · show (timer_counter_disable latchHw k (set_evt w k _)).tm.fc_freq = _
    rw [(disable_frame _ _ _).2]
    rfl

/-- C11, as stated, fails: counter 0 of block 0, working at 32768 Hz with a
26 MHz fast clock, is stopped (`timer_status = 1`, enable bit clear) while the
block's clock-select field holds 1; `timer_shutdown` followed by
`timer_resume` leaves that field at 0. -/
theorem timer_shutdown_resume_counterexample :
    ((set_evt (sys0 (fun r => if r = 12 then 1 else 0) (tm0 0 26000000 32768)) 0
      ⟨32768, 0, 0, 0, 0, false, 1, 0⟩).tm.evt 0).timer_status = 1 ∧
    (reg32 (set_evt (sys0 (fun r => if r = 12 then 1 else 0) (tm0 0 26000000 32768)) 0
      ⟨32768, 0, 0, 0, 0, false, 1, 0⟩).base TMR_CER).testBit 0 = false ∧
    reg32 (set_evt (sys0 (fun r => if r = 12 then 1 else 0) (tm0 0 26000000 32768)) 0
      ⟨32768, 0, 0, 0, 0, false, 1, 0⟩).base TMR_CCR &&& TMR_CCR_CS 0 3 = 1 ∧
    reg32 (timer_resume latchHw 0 (timer_shutdown latchHw 0
      (set_evt (sys0 (fun r => if r = 12 then 1 else 0) (tm0 0 26000000 32768)) 0
        ⟨32768, 0, 0, 0, 0, false, 1, 0⟩)).2).2.base TMR_CCR &&& TMR_CCR_CS 0 3 = 0 := by
  decide

/-- C11, amended: on latching hardware, for every counter whose
`timer_status` is 0 or 1 and agrees with its `TMR_CER` enable bit,
`timer_shutdown` followed by `timer_resume` restores `timer_status` and every
bit of `TMR_CER`; it restores the block's clock-select field (index `tm->id`,
id in 0..2) whenever the working frequency equals `fc_freq`, and otherwise
when the field held beforehand the value the two operations establish: 1 for
a running counter working at 32768 Hz, 0 for any other counter. -/
theorem timer_shutdown_resume_restores (k : Fin 3) (w : Sys (Nat → Nat))
    (hst : (w.tm.evt k).timer_status = 0 ∨ (w.tm.evt k).timer_status = 1)
    (hagree : (w.tm.evt k).timer_status = 0 ↔
      (reg32 w.base TMR_CER).testBit (w.tm.evt k).cid = true)
    (hfield : (w.tm.evt k).freq ≠ w.tm.fc_freq → (w.tm.id = 0 ∨ w.tm.id = 1 ∨ w.tm.id = 2) →
      reg32 w.base TMR_CCR &&& TMR_CCR_CS w.tm.id 3 =
        TMR_CCR_CS w.tm.id
          (if (w.tm.evt k).timer_status = 0 ∧
            (w.tm.evt k).freq = SPACEMIT_TIMER_CLOCK_32KHZ then 1 else 0)) :
    ((timer_resume latchHw k (timer_shutdown latchHw k w).2).2.tm.evt k).timer_status =
      (w.tm.evt k).timer_status ∧
    (∀ i, (reg32 (timer_resume latchHw k (timer_shutdown latchHw k w).2).2.base
        TMR_CER).testBit i = (reg32 w.base TMR_CER).testBit i) ∧
    reg32 (timer_resume latchHw k (timer_shutdown latchHw k w).2).2.base TMR_CCR &&&
        TMR_CCR_CS w.tm.id 3 =
      reg32 w.base TMR_CCR &&& TMR_CCR_CS w.tm.id 3 := by
  obtain ⟨s1, s2, s3, s4⟩ := shutdown_latch k w
  have hev := shutdown_evt latchHw k w
  -- the clock-select field after the shutdown
  have hccr1 : reg32 (timer_shutdown latchHw k w).2.base TMR_CCR &&& TMR_CCR_CS w.tm.id 3 =
      if (w.tm.evt k).freq ≠ w.tm.fc_freq ∧ (w.tm.id = 0 ∨ w.tm.id = 1 ∨ w.tm.id = 2) then
        TMR_CCR_CS w.tm.id 0
      else reg32 w.base TMR_CCR &&& TMR_CCR_CS w.tm.id 3 := by
    rw [s2]
    by_cases hf : (w.tm.evt k).freq ≠ w.tm.fc_freq
    · by_cases hid : w.tm.id = 0 ∨ w.tm.id = 1 ∨ w.tm.id = 2
      · rw [if_pos hf, if_pos ⟨hf, hid⟩, switch_regs_field _ _ _ hid (Or.inl rfl), if_pos rfl]
      · rw [if_pos hf, if_neg (fun h => hid h.2), switch_regs_reject _ _ _ (fun h => hid h.1)]
    · rw [if_neg hf, if_neg (fun h => hf h.1)]
  rcases hst with h0 | h1
  · -- the counter was running: the resume enables it
    have hbit := hagree.mp h0
    have hen : ((timer_shutdown latchHw k w).2.tm.evt k).timer_enabled = true := by
      rw [hev]; simp [h0]
    have hres : timer_resume latchHw k (timer_shutdown latchHw k w).2 =
        (0, timer_counter_enable latchHw k (timer_shutdown latchHw k w).2) := by
      unfold timer_resume
      rw [hen]; simp
    have hfr : ((timer_shutdown latchHw k w).2.tm.evt k).freq = (w.tm.evt k).freq := by
      rw [hev]
    have hcid : ((timer_shutdown latchHw k w).2.tm.evt k).cid = (w.tm.evt k).cid := by
      rw [hev]
    rw [hres]
    refine ⟨?_, ?_, ?_⟩
    · show ((timer_counter_enable latchHw k _).tm.evt k).timer_status = _
      rw [(enable_frame _ _ _).2, h0]
      simp
    · intro i
      show (reg32 (timer_counter_enable latchHw k _).base TMR_CER).testBit i = _
      rw [enable_cer, testBit_cer_set, hcid]
      unfold reg32 at s1 hbit ⊢
      rw [testBit_u32] at hbit ⊢
      by_cases hi : i < 32
      · have hW : ((timer_shutdown latchHw k w).2.base TMR_CER).testBit i =
            ((w.base TMR_CER).testBit i && !decide ((w.tm.evt k).cid = i)) := by
          have h := testBit_u32 ((timer_shutdown latchHw k w).2.base TMR_CER) i
          rw [s1, testBit_cer_clear] at h
          simpa [hi] using h.symm
        rw [hW]
        by_cases hc : (w.tm.evt k).cid = i
        · subst hc
          simp only [hi, decide_True, Bool.true_and] at hbit
          simp [hi, hbit]
        · simp [hi, hc]
      · simp [hi]
    · show reg32 (timer_counter_enable latchHw k _).base TMR_CCR &&& _ = _
      rw [enable_ccr, hfr, s4]
      by_cases hf : (w.tm.evt k).freq ≠ w.tm.fc_freq
      · rw [if_pos hf]
        by_cases hid : w.tm.id = 0 ∨ w.tm.id = 1 ∨ w.tm.id = 2
        · have hfd := hfield hf hid
          by_cases h32k : (w.tm.evt k).freq = SPACEMIT_TIMER_CLOCK_32KHZ
          · rw [switch_regs_congr w.tm _ _ _ s3 s4,
              switch_regs_field _ _ _ hid (Or.inr h32k), if_neg hf, hfd,
              if_pos ⟨h0, h32k⟩]
          · rw [switch_regs_congr w.tm _ _ _ s3 s4,
              switch_regs_reject _ _ _ (fun h => h.2.elim hf h32k), hccr1,
              if_pos ⟨hf, hid⟩, hfd, if_neg (fun h => h32k h.2)]
        · rw [switch_regs_congr w.tm _ _ _ s3 s4,
            switch_regs_reject _ _ _ (fun h => hid h.1), hccr1, if_neg (fun h => hid h.2)]
      · rw [if_neg hf, hccr1, if_neg (fun h => hf h.1)]
  · -- the counter was stopped: the resume does nothing
    have hbit : (reg32 w.base TMR_CER).testBit (w.tm.evt k).cid = false := by
      cases hb : (reg32 w.base TMR_CER).testBit (w.tm.evt k).cid
      · rfl
      · have := hagree.mpr hb
        rw [h1] at this
        exact absurd this (by decide)
    have hen : ((timer_shutdown latchHw k w).2.tm.evt k).timer_enabled = false := by
      rw [hev]; simp [h1]
    have hres : timer_resume latchHw k (timer_shutdown latchHw k w).2 =
        (0, (timer_shutdown latchHw k w).2) := by
      unfold timer_resume
      rw [hen]; simp
    rw [hres]
    refine ⟨?_, ?_, ?_⟩
    · show ((timer_shutdown latchHw k w).2.tm.evt k).timer_status = _
      rw [hev, h1]
    · intro i
      show (reg32 (timer_shutdown latchHw k w).2.base TMR_CER).testBit i = _
      rw [s1, testBit_cer_clear]
      unfold reg32 at hbit ⊢
      rw [testBit_u32] at hbit ⊢
      by_cases hc : (w.tm.evt k).cid = i
      · subst hc
        rw [hbit]
        cases decide ((w.tm.evt k).cid < 32) <;> simp
      · simp [hc]
    · show reg32 (timer_shutdown latchHw k w).2.base TMR_CCR &&& _ = _
      rw [hccr1]
      by_cases hf : (w.tm.evt k).freq ≠ w.tm.fc_freq
      · by_cases hid : w.tm.id = 0 ∨ w.tm.id = 1 ∨ w.tm.id = 2
        · rw [if_pos ⟨hf, hid⟩, hfield hf hid,
            if_neg (fun h => by rw [h1] at h; exact absurd h.1 (by decide))]
        · rw [if_neg (fun h => hid h.2)]
      · rw [if_neg (fun h => hf h.1)]

/-- C11 amended, at a running counter 0 of block 0 working at 32768 Hz with
the clock-select field at 1. -/
theorem timer_shutdown_resume_restores_witness :
    ((timer_resume latchHw 0 (timer_shutdown latchHw 0
      (sys0 (fun r => if r = 12 then 1 else if r = 0 then 1 else 0)
        (tm0 0 26000000 32768))).2).2.tm.evt 0).timer_status = 0 ∧
    reg32 (timer_resume latchHw 0 (timer_shutdown latchHw 0
      (sys0 (fun r => if r = 12 then 1 else if r = 0 then 1 else 0)
        (tm0 0 26000000 32768))).2).2.base TMR_CCR &&& TMR_CCR_CS 0 3 =
      reg32 (sys0 (fun r => if r = 12 then 1 else if r = 0 then 1 else 0)
        (tm0 0 26000000 32768)).base TMR_CCR &&& TMR_CCR_CS 0 3 :=
  ⟨(timer_shutdown_resume_restores 0
      (sys0 (fun r => if r = 12 then 1 else if r = 0 then 1 else 0) (tm0 0 26000000 32768))
      (by decide) (by decide) (by decide)).1,
   (timer_shutdown_resume_restores 0
      (sys0 (fun r => if r = 12 then 1 else if r = 0 then 1 else 0) (tm0 0 26000000 32768))
      (by decide) (by decide) (by decide)).2.2⟩

/-! ## Verified writes leave the other registers alone -/

/-- Reads of latching or write-one-to-clear registers leave the register
file alone, so the poll loop does. -/
theorem poll_base_w1c (d : Nat → Option Nat) (reg c m : Nat) (loop t : Nat)
    (w : Sys (Nat → Nat)) :
    (timer_write_check_poll (w1cHw d) reg c m loop t w).2.base = w.base := by
  induction loop generalizing t w with
  | zero => rfl
  | succ n ih =>
    unfold timer_write_check_poll
    by_cases hm : t &&& m ≠ c &&& m
    · rw [if_pos hm]
      by_cases hn : n = 0
      · subst hn; rfl
      · simp only [hn, if_false]
        rw [ih]
        rfl
    · rw [if_neg hm]

/-- Without clock switch the retry loop changes no register but `reg`, on
hardware where `reg` latches, whether or not the write is ever verified. -/
theorem from_base_other (d : Nat → Option Nat) (sw : Sys (Nat → Nat) → Sys (Nat → Nat))
    (reg val m c r : Nat) (hd : d reg = none) (hr : r ≠ reg) (n : Nat) (w : Sys (Nat → Nat)) :
    (timer_write_check_from (w1cHw d) sw reg val m c false n w).base r = w.base r := by
  induction n generalizing w with
  | zero => rfl
  | succ n ih =>
    have ha : (timer_write_check_attempt (w1cHw d) sw reg val m c false w).2.base r =
        w.base r := by
      unfold timer_write_check_attempt
      simp only [Bool.false_eq_true, if_false]
      rw [poll_base_w1c, w1c_readl, w1c_writel_latch d _ _ _ hd]
      exact Function.update_noteq hr _ _
    rw [timer_write_check_from]
    rcases hp : timer_write_check_attempt (w1cHw d) sw reg val m c false w with ⟨_ | t, w3⟩
    · rw [hp] at ha; exact ha
    · rw [hp] at ha
      simp only [] at ha ⊢
      by_cases hn : n = 0
      · simp only [hn, ne_eq, not_true_eq_false, if_false]
        exact ha
      · simp only [ne_eq, hn, not_false_eq_true, if_true]
        rw [ih]
        exact ha

/-- The function `timer_write_check` without clock switch changes no latching
register but its target, verified or not. -/
theorem write_check_base_other (reg val mask r : Nat) (clr : Bool) (hr : r ≠ reg)
    (w : Sys (Nat → Nat)) :
    (timer_write_check latchHw reg val mask clr false w).base r = w.base r := by
  rw [latchHw_eq]
  exact from_base_other _ _ reg _ _ _ r rfl hr 100 w

/-! ## No division by zero in bring-up (claim C21) -/

theorem hw_init_run_tm {σ : Type} (H : HwModel σ) (cid delay : Nat) (w : Sys σ) :
    (spacemit_timer_hw_init_run H cid delay w).tm = w.tm := by
  unfold spacemit_timer_hw_init_run
  simp only []
  rw [loop_times_tm]
  · rfl
  · intro s; rfl

/-- The rejecting path of `spacemit_timer_hw_init`: the state after the one
read of `TMR_CCR` done by the clock switch. -/
theorem hw_init_bad {σ : Type} (H : HwModel σ) (k : Fin 3) (w : Sys σ)
    (h : ¬ ((w.tm.id = 0 ∨ w.tm.id = 1 ∨ w.tm.id = 2) ∧
      ((w.tm.evt k).freq = w.tm.fc_freq ∨ (w.tm.evt k).freq = SPACEMIT_TIMER_CLOCK_32KHZ))) :
    spacemit_timer_hw_init H k w = some (-EINVAL, (raw_readl H w TMR_CCR).2) := by
  unfold spacemit_timer_hw_init
  simp only [switch_clock_bad H _ w h]
  rw [if_pos (by decide)]

/-- The accepting path of `spacemit_timer_hw_init` with a non-zero counter
rate: the quotient `fc_freq / freq` is formed and the counter is started. -/
theorem hw_init_ok {σ : Type} (H : HwModel σ) (k : Fin 3) (w : Sys σ)
    (h : (w.tm.id = 0 ∨ w.tm.id = 1 ∨ w.tm.id = 2) ∧
      ((w.tm.evt k).freq = w.tm.fc_freq ∨ (w.tm.evt k).freq = SPACEMIT_TIMER_CLOCK_32KHZ))
    (h0 : (w.tm.evt k).freq ≠ 0) :
    spacemit_timer_hw_init H k w = some (0, spacemit_timer_hw_init_run H (w.tm.evt k).cid
      (u32 (int_to_u32 w.tm.loop_delay_fastclk * (w.tm.fc_freq / (w.tm.evt k).freq)))
      (timer_counter_switch_clock H (w.tm.evt k).freq w).2) := by
  have hr : (timer_counter_switch_clock H (w.tm.evt k).freq w).1 = 0 := by
    rw [switch_clock_ret, if_pos h]
  unfold spacemit_timer_hw_init
  simp only [hr, ne_eq, not_true_eq_false, if_false, if_neg h0,
    (switch_clock_frame H (w.tm.evt k).freq w).2]

/-- An accepted counter rate is non-zero when the fast-clock rate is. -/
theorem accepted_freq_ne_zero (fc freq : Nat) (hfc : fc ≠ 0)
    (h : freq = fc ∨ freq = SPACEMIT_TIMER_CLOCK_32KHZ) : freq ≠ 0 := by
  rcases h with h | h
  · rw [h]; exact hfc
  · rw [h]; decide

/-- With a non-zero fast-clock rate `spacemit_timer_hw_init` returns, and
the block is as before. -/
theorem hw_init_some {σ : Type} (H : HwModel σ) (k : Fin 3) (w : Sys σ)
    (hfc : w.tm.fc_freq ≠ 0) :
    ∃ ret w', spacemit_timer_hw_init H k w = some (ret, w') ∧ w'.tm = w.tm := by
  by_cases h : (w.tm.id = 0 ∨ w.tm.id = 1 ∨ w.tm.id = 2) ∧
      ((w.tm.evt k).freq = w.tm.fc_freq ∨ (w.tm.evt k).freq = SPACEMIT_TIMER_CLOCK_32KHZ)
  · refine ⟨_, _, hw_init_ok H k w h (accepted_freq_ne_zero _ _ hfc h.2), ?_⟩
    rw [hw_init_run_tm]
    exact (switch_clock_frame H _ w).2
  · exact ⟨_, _, hw_init_bad H k w h, rfl⟩

theorem setup_some {σ : Type} (H : HwModel σ) (ncpus : Nat) (rq : Int) (k : Fin 3)
    (w : Sys σ) (hfc : w.tm.fc_freq ≠ 0) :
    ∃ ret w', spacemit_timer_setup H ncpus rq k w = some (ret, w') ∧ w'.tm = w.tm := by
  obtain ⟨r, w1, h1, h2⟩ := hw_init_some H k w hfc
  unfold spacemit_timer_setup
  simp only [h1]
  split_ifs
  · exact ⟨_, _, rfl, rfl⟩
  iterate 3 exact ⟨_, _, rfl, h2⟩

theorem setup_set_evt_some {σ : Type} (H : HwModel σ) (ncpus : Nat) (rq : Int) (k : Fin 3)
    (e : spacemit_timer_evt) (w : Sys σ) (hfc : w.tm.fc_freq ≠ 0) :
    ∃ ret w', spacemit_timer_setup H ncpus rq k (set_evt w k e) = some (ret, w') ∧
      w'.tm.fc_freq = w.tm.fc_freq := by
  obtain ⟨r, w1, h1, h2⟩ := setup_some H ncpus rq k (set_evt w k e) hfc
  exact ⟨r, w1, h1, by rw [h2]; rfl⟩

theorem of_counter_init_some {σ : Type} (H : HwModel σ) (ncpus : Nat) (np : counter_node)
    (tid : Nat) (w : Sys σ) (hfc : w.tm.fc_freq ≠ 0) :
    ∃ ret w', spacemit_of_counter_init H ncpus np tid w = some (ret, w') ∧
      w'.tm.fc_freq = w.tm.fc_freq := by
  unfold spacemit_of_counter_init
  simp only []
  by_cases h : np.counter_id.1 = 0 ∧ np.counter_id.2 < SPACEMIT_MAX_TIMER
  · rw [dif_pos h]
    by_cases h' : ¬ np.broadcast ∧ np.counter_cpu.1 ≠ 0
    · rw [if_pos h']
      exact ⟨_, _, rfl, rfl⟩
    · rw [if_neg h']
      exact setup_set_evt_some H ncpus np.request_irq_ret ⟨np.counter_id.2, h.2⟩ _ w hfc
  · rw [dif_neg h]
    exact ⟨_, _, rfl, rfl⟩

theorem for_each_child_some {σ : Type} (H : HwModel σ) (ncpus tid : Nat)
    (l : List counter_node) (w : Sys σ) (hfc : w.tm.fc_freq ≠ 0) :
    ∃ ret w', for_each_child_of_node H ncpus tid l w = some (ret, w') := by
  induction l generalizing w with
  | nil => exact ⟨_, _, rfl⟩
  | cons c rest ih =>
    unfold for_each_child_of_node
    by_cases ha : (!c.available) = true
    · rw [if_pos ha]; exact ih w hfc
    · rw [if_neg ha]
      obtain ⟨r, w1, h1, h2⟩ := of_counter_init_some H ncpus c tid w hfc
      simp only [h1]
      split_ifs
      · exact ⟨_, _, rfl⟩
      · exact ih w1 (by rw [h2]; exact hfc)

/-- With a non-zero fast-clock rate `spacemit_timer_init` returns, and a
block it registers carries that rate. -/
theorem init_some {σ : Type} (H : HwModel σ) (env : init_env)
    (tid flag fc_freq apb_freq freq : Nat) (b : Boot σ) (hfc : fc_freq ≠ 0) :
    ∃ ret b', spacemit_timer_init H env tid flag fc_freq apb_freq freq b = some (ret, b') ∧
      ∀ tm, b'.slot = some tm → ret = 0 → tm.fc_freq = fc_freq := by
  unfold spacemit_timer_init loop_delay
  rw [if_neg hfc]
  by_cases hs : b.slot.isSome = true
  · rw [if_pos hs]
    exact ⟨_, _, rfl, fun _ _ h => absurd h (by decide)⟩
  · rw [if_neg hs]
    have hn : b.slot = none := by
      cases hb : b.slot with
      | none => rfl
      | some t => rw [hb] at hs; exact absurd rfl hs
    split_ifs
    iterate 5 exact ⟨_, _, rfl, fun _ _ h => absurd h (by decide)⟩
    · cases he : env.resets_err with
      | some e =>
        exact ⟨_, _, rfl, fun tm h _ => by rw [hn] at h; exact absurd h (by simp)⟩
      | none =>
        refine ⟨_, _, rfl, fun tm h _ => ?_⟩
        simp only [Option.some.injEq] at h
        rw [← h, init_idle_tm]
        rfl

theorem of_timer_init_some {σ : Type} (H : HwModel σ) (env : init_env) (ncpus : Nat)
    (np : timer_node) (b : Boot σ) :
    ∃ ret b', spacemit_of_timer_init H env ncpus np b = some (ret, b') := by
  unfold spacemit_of_timer_init
  simp only []
  split_ifs with h1 h2 h3 h4 h5 h6
  iterate 6 exact ⟨_, _, rfl⟩
  · have hfc : np.fastclk_frequency.2 ≠ 0 := fun h => h6 (Or.inl h)
    obtain ⟨r, b1, e1, e2⟩ := init_some H env np.timer_id.2 0 np.fastclk_frequency.2
      np.apb_frequency.2 np.timer_frequency.2 b hfc
    simp only [e1]
    by_cases hr : r ≠ 0
    · rw [if_pos hr]; exact ⟨_, _, rfl⟩
    · rw [if_neg hr]
      cases hsl : b1.slot with
      | none => exact ⟨_, _, rfl⟩
      | some tm =>
        obtain ⟨r2, w2, e3⟩ := for_each_child_some H ncpus np.timer_id.2 np.children
          { base := b1.base, tm := tm, werr_info := b1.werr_info,
            werr_index := b1.werr_index, trace := b1.trace }
          (by rw [e2 tm hsl (not_not.mp hr)]; exact hfc)
        simp only [e3]
        exact ⟨_, _, rfl⟩

/-- Without the validation the model does divide by zero: the loop-count
formula at a fast-clock rate of 0, and `spacemit_timer_hw_init` at a counter
rate of 0 that the clock switch accepts because the fast-clock rate is 0. -/
theorem division_by_zero_unvalidated {σ : Type} (H : HwModel σ) (apb_freq : Nat)
    (k : Fin 3) (w : Sys σ) (hid : w.tm.id = 0 ∨ w.tm.id = 1 ∨ w.tm.id = 2)
    (hfc : w.tm.fc_freq = 0) (hf : (w.tm.evt k).freq = 0) :
    loop_delay apb_freq 0 = none ∧ spacemit_timer_hw_init H k w = none := by
  refine ⟨rfl, ?_⟩
  have hr : (timer_counter_switch_clock H (w.tm.evt k).freq w).1 = 0 := by
    rw [switch_clock_ret, if_pos ⟨hid, Or.inl (hf.trans hfc.symm)⟩]
  unfold spacemit_timer_hw_init
  simp only [hr, ne_eq, not_true_eq_false, if_false, if_pos hf]

/-- C21: with `fc_freq ≠ 0` no division by zero is reachable in bring-up.
The loop-count formula of `spacemit_timer_init` has a value and
`spacemit_timer_init` returns.  In `spacemit_timer_hw_init`, a clock switch
that returned 0 accepted a counter rate equal to `fc_freq` or to 32768, which
is non-zero, and the function goes on to form `fc_freq / freq` and returns 0;
so it returns on every input.  For a counter rate that is neither `fc_freq`
nor 32768 it returns `-EINVAL` in the state left by the single read of
`TMR_CCR`: nothing written, no quotient formed.  `spacemit_of_timer_init`,
which validates `fc_freq` itself, returns on every device-tree node. -/
theorem bring_up_no_division_by_zero {σ : Type} (H : HwModel σ) :
    (∀ apb_freq fc_freq : Nat, fc_freq ≠ 0 →
      loop_delay apb_freq fc_freq = some (u32 (u32 (apb_freq * 2) / fc_freq / 8 + 1))) ∧
    (∀ (env : init_env) (tid flag fc_freq apb_freq freq : Nat) (b : Boot σ), fc_freq ≠ 0 →
      spacemit_timer_init H env tid flag fc_freq apb_freq freq b ≠ none) ∧
    (∀ (k : Fin 3) (w : Sys σ), w.tm.fc_freq ≠ 0 →
      (timer_counter_switch_clock H (w.tm.evt k).freq w).1 = 0 →
      ((w.tm.evt k).freq = w.tm.fc_freq ∨ (w.tm.evt k).freq = 32768) ∧
      (w.tm.evt k).freq ≠ 0 ∧
      spacemit_timer_hw_init H k w = some (0, spacemit_timer_hw_init_run H (w.tm.evt k).cid
        (u32 (int_to_u32 w.tm.loop_delay_fastclk * (w.tm.fc_freq / (w.tm.evt k).freq)))
        (timer_counter_switch_clock H (w.tm.evt k).freq w).2)) ∧
    (∀ (k : Fin 3) (w : Sys σ), w.tm.fc_freq ≠ 0 → spacemit_timer_hw_init H k w ≠ none) ∧
    (∀ (k : Fin 3) (w : Sys σ), (w.tm.evt k).freq ≠ w.tm.fc_freq →
      (w.tm.evt k).freq ≠ 32768 →
      spacemit_timer_hw_init H k w = some (-EINVAL, (raw_readl H w TMR_CCR).2) ∧
      (raw_readl H w TMR_CCR).2.trace =
        w.trace ++ [Event.rd TMR_CCR (raw_readl H w TMR_CCR).1] ∧
      cnt Event.is_wr (raw_readl H w TMR_CCR).2 = cnt Event.is_wr w) ∧
    (∀ (env : init_env) (ncpus : Nat) (np : timer_node) (b : Boot σ),
      spacemit_of_timer_init H env ncpus np b ≠ none) := by
  refine ⟨?_, ?_, ?_, ?_, ?_, ?_⟩
  · intro apb_freq fc_freq hfc
    unfold loop_delay
    rw [if_neg hfc]
  · intro env tid flag fc_freq apb_freq freq b hfc
    obtain ⟨r, b1, e, _⟩ := init_some H env tid flag fc_freq apb_freq freq b hfc
    rw [e]
    exact Option.some_ne_none _
  · intro k w hfc hr
    have ha := switch_clock_accepts H _ w hr
    have h0 := accepted_freq_ne_zero _ _ hfc ha.2
    exact ⟨ha.2, h0, hw_init_ok H k w ha h0⟩
  · intro k w hfc
    obtain ⟨r, w1, e, _⟩ := hw_init_some H k w hfc
    rw [e]
    exact Option.some_ne_none _
  · intro k w h1 h2
    refine ⟨hw_init_bad H k w (fun h => h.2.elim h1 h2), raw_readl_trace H w TMR_CCR, ?_⟩
    simp [cnt, raw_readl, List.countP_append, Event.is_wr]
  · intro env ncpus np b
    obtain ⟨r, b1, e⟩ := of_timer_init_some H env ncpus np b
    rw [e]
    exact Option.some_ne_none _

/-- C21 at a block with a 26 MHz fast clock: a counter at 32768 Hz is
started, a counter at 12345 Hz is refused after the one read of `TMR_CCR`. -/
theorem bring_up_no_division_by_zero_witness :
    loop_delay 52000000 26000000 = some (u32 (u32 (52000000 * 2) / 26000000 / 8 + 1)) ∧
    spacemit_timer_hw_init latchHw 0 (sys0 regs0 (tm0 0 26000000 32768)) ≠ none ∧
    spacemit_timer_hw_init latchHw 0 (sys0 regs0 (tm0 0 26000000 32768)) =
      some (0, spacemit_timer_hw_init_run latchHw 0 (u32 (1 * (26000000 / 32768)))
        (timer_counter_switch_clock latchHw 32768 (sys0 regs0 (tm0 0 26000000 32768))).2) ∧
    spacemit_timer_hw_init latchHw 0 (sys0 regs0 (tm0 0 26000000 12345)) =
      some (-EINVAL, (raw_readl latchHw (sys0 regs0 (tm0 0 26000000 12345)) TMR_CCR).2) ∧
    (raw_readl latchHw (sys0 regs0 (tm0 0 26000000 12345)) TMR_CCR).2.trace =
      (sys0 regs0 (tm0 0 26000000 12345)).trace ++
        [Event.rd TMR_CCR (raw_readl latchHw (sys0 regs0 (tm0 0 26000000 12345)) TMR_CCR).1] :=
  ⟨(bring_up_no_division_by_zero latchHw).1 52000000 26000000 (by decide),
   (bring_up_no_division_by_zero latchHw).2.2.2.1 0 (sys0 regs0 (tm0 0 26000000 32768))
     (by decide),
   ((bring_up_no_division_by_zero latchHw).2.2.1 0 (sys0 regs0 (tm0 0 26000000 32768))
     (by decide) (by decide)).2.2,
   ((bring_up_no_division_by_zero latchHw).2.2.2.2.1 0 (sys0 regs0 (tm0 0 26000000 12345))
     (by decide) (by decide)).1,
   ((bring_up_no_division_by_zero latchHw).2.2.2.2.1 0 (sys0 regs0 (tm0 0 26000000 12345))
     (by decide) (by decide)).2.1⟩

/-! ## The two return paths of the write check (claim C4) -/

/-- The last action of the retry loop: a read that passes the comparison
(fall out of the `while` loop) or the logging of a failure (the `return`
after the last retry). -/
theorem from_end {σ : Type} (H : HwModel σ) (sw : Sys σ → Sys σ) (reg val m c : Nat)
    (cs : Bool) (n : Nat) (w : Sys σ) :
    LastReadOK reg m c (timer_write_check_from H sw reg val m c cs (n + 1) w) ∨
    ∃ t, (timer_write_check_from H sw reg val m c cs (n + 1) w).trace.getLast? =
      some (Event.werr reg c t m) := by
  induction n generalizing w with
  | zero =>
    rw [timer_write_check_from]
    have hl := attempt_last H sw reg val m c cs w
    rcases hp : timer_write_check_attempt H sw reg val m c cs w with ⟨_ | t, w3⟩
    · rw [hp] at hl
      exact Or.inl (hl rfl)
    · exact Or.inr ⟨t, by simp [timer_write_error]⟩
  | succ n ih =>
    rw [timer_write_check_from]
    have hl := attempt_last H sw reg val m c cs w
    rcases hp : timer_write_check_attempt H sw reg val m c cs w with ⟨_ | t, w3⟩
    · rw [hp] at hl
      exact Or.inl (hl rfl)
    · simp only [if_pos (Nat.succ_ne_zero n)]
      exact ih _

/-- The last action of a non-empty extension of a trace. -/
theorem getLast_of_append (a tr : List Event) (h : tr ≠ []) :
    (a ++ tr).getLast? = tr.getLast? := by
  rw [List.getLast?_append, List.getLast?_eq_getLast tr h]
  rfl

/-- On hardware that rejects the first `n` writes, over a content that fails
the comparison, `n + 1` attempts are made: `n` fail, the last one is
verified. -/
theorem reject_late (sw : Sys ((Nat → Nat) × Nat) → Sys ((Nat → Nat) × Nat))
    (reg val m : Nat) (hv : u32 val = val) (n : Nat) (w : Sys ((Nat → Nat) × Nat))
    (hsw : ∀ s, ∃ tr, (sw s).trace = s.trace ++ tr)
    (hn : w.base.2 = n) (hp : u32 (w.base.1 reg) &&& m ≠ val &&& m) :
    ∃ tr : List Event,
      (timer_write_check_from rejectHw sw reg val m val false (n + 1) w).trace =
        w.trace ++ tr ∧
      tr.countP (fun e => decide (e = Event.wr reg (u32 val))) = n + 1 ∧
      tr.countP Event.is_werr = n ∧ LastOK reg m val tr := by
  induction n generalizing w with
  | zero =>
    rw [from_first]
    · refine ⟨[Event.wr reg (u32 val), Event.rd reg val], ?_, ?_, ?_, ?_⟩
      · simp [raw_readl, raw_writel, rejectHw, hn, hv]
      · simp [List.countP_cons]
      · simp [List.countP_cons, Event.is_werr]
      · exact ⟨val, by simp, rfl⟩
    · simp [raw_readl, raw_writel, rejectHw, hn, hv]
  | succ n ih =>
    have h0 : w.base.2 ≠ 0 := by omega
    obtain ⟨t, w3, h1, h2⟩ := reject_failing sw reg val m val w h0 hp
    obtain ⟨tr, g1, -, -, g4⟩ := attempt_some rejectHw sw reg val m val false w w3 t hsw h1
    obtain ⟨-, a, -, b⟩ := g4 rfl
    rw [timer_write_check_from, h1]
    simp only [if_pos (Nat.succ_ne_zero n)]
    have hb : (timer_write_error w3 reg val t m).base = (w.base.1, w.base.2 - 1) := h2
    obtain ⟨tr', i1, i2, i3, i4⟩ := ih (timer_write_error w3 reg val t m)
      (by rw [hb]; show w.base.2 - 1 = n; omega) (by rw [hb]; exact hp)
    refine ⟨tr ++ tr', ?_, ?_, ?_, LastOK_append _ _ _ _ _ i4⟩
    · rw [i1, g1, List.append_assoc]
    · rw [List.countP_append]; omega
    · rw [List.countP_append]; omega

/-- On hardware whose read number `w.base + 4 * k + 3` is the first to
return 1, `k + 1` attempts to set bit 0 all end in the `if (!loop)` block; the
last value read, the 1 returned by the unchecked third re-read of the last
attempt, is logged as a failure. -/
theorem late_exhaust (sw : Sys Nat → Sys Nat) (reg : Nat) (n k : Nat) (w : Sys Nat)
    (hn : w.base + 4 * k + 3 = n) :
    ∃ pre : List Event,
      (timer_write_check_from (lateHw n) sw reg 1 1 1 false (k + 1) w).trace =
        w.trace ++ (pre ++ [Event.rd reg 1, Event.werr reg 1 1 1]) ∧
      pre.countP Event.is_wr = k + 1 ∧ pre.countP Event.is_werr = k := by
  induction k generalizing w with
  | zero =>
    have a0 : w.base < n := by omega
    have a1 : w.base + 1 < n := by omega
    have a2 : w.base + 1 + 1 < n := by omega
    have a3 : ¬ w.base + 1 + 1 + 1 < n := by omega
    refine ⟨[Event.wr reg 1, Event.rd reg 0, Event.rd reg 0, Event.rd reg 0], ?_, ?_, ?_⟩
    · simp [timer_write_check_from, timer_write_check_attempt, timer_write_check_poll,
        raw_readl, raw_writel, lateHw, timer_write_error, u32, a0, a1, a2, a3]
    · simp [List.countP_cons, Event.is_wr]
    · simp [List.countP_cons, Event.is_werr]
  | succ k ih =>
    have a0 : w.base < n := by omega
    have a1 : w.base + 1 < n := by omega
    have a2 : w.base + 1 + 1 < n := by omega
    have a3 : w.base + 1 + 1 + 1 < n := by omega
    have hat : timer_write_check_attempt (lateHw n) sw reg 1 1 1 false w =
        (some 0, { w with base := w.base + 1 + 1 + 1 + 1,
                          trace := w.trace ++ [Event.wr reg 1, Event.rd reg 0, Event.rd reg 0,
                            Event.rd reg 0, Event.rd reg 0] }) := by
      simp [timer_write_check_attempt, timer_write_check_poll,
        raw_readl, raw_writel, lateHw, u32, a0, a1, a2, a3]
    rw [timer_write_check_from, hat]
    simp only [if_pos (Nat.succ_ne_zero k)]
    obtain ⟨pre, i1, i2, i3⟩ := ih (timer_write_error
      { w with base := w.base + 1 + 1 + 1 + 1,
               trace := w.trace ++ [Event.wr reg 1, Event.rd reg 0, Event.rd reg 0,
                 Event.rd reg 0, Event.rd reg 0] } reg 1 0 1)
      (by show w.base + 1 + 1 + 1 + 1 + 4 * k + 3 = n; omega)
    refine ⟨[Event.wr reg 1, Event.rd reg 0, Event.rd reg 0, Event.rd reg 0, Event.rd reg 0,
      Event.werr reg 1 0 1] ++ pre, ?_, ?_, ?_⟩
    · rw [i1]
      simp [timer_write_error]
    · rw [List.countP_append, i2]
      simp [List.countP_cons, Event.is_wr]
      omega
    · rw [List.countP_append, i3]
      simp [List.countP_cons, Event.is_werr]
      omega

/-- C4, as stated, fails: the two ways are not exclusive.  On hardware that
rejects the first 99 writes, `timer_write_check` of value 1 with mask 1 to
`TMR_CER` holding 0 makes its full budget of 100 writes and its last read
passes the comparison.  On hardware whose 400th read is the first to return
1, it makes 100 writes and logs 100 failures, and the last value it read,
the 1 logged with the last failure, passes the comparison as well. -/
theorem timer_write_check_exit_counterexample :
    (∃ tr : List Event,
      (timer_write_check rejectHw TMR_CER 1 1 false false
        (sys0 (regs0, 99) (tm0 0 26000000 26000000))).trace = tr ∧
      LastOK TMR_CER (u32 1) (u32 1) tr ∧
      tr.countP (fun e => decide (e = Event.wr TMR_CER (u32 1))) = 100) ∧
    (∃ pre : List Event,
      (timer_write_check (lateHw 399) TMR_CER 1 1 false false
        (sys0 0 (tm0 0 26000000 26000000))).trace =
        pre ++ [Event.rd TMR_CER 1, Event.werr TMR_CER 1 1 1] ∧
      pre.countP Event.is_wr = 100 ∧ pre.countP Event.is_werr = 99 ∧
      1 &&& u32 1 = u32 1 &&& u32 1) := by
  constructor
  · obtain ⟨tr, h1, h2, -, h4⟩ := reject_late
      (fun s => (timer_counter_switch_clock rejectHw s.tm.fc_freq s).2) TMR_CER (u32 1) (u32 1)
      (u32_u32 1) 99 (sys0 (regs0, 99) (tm0 0 26000000 26000000))
      (fun s => switch_clock_trace rejectHw s.tm.fc_freq s) rfl (by decide)
    rw [u32_u32] at h2
    exact ⟨tr, h1.trans (List.nil_append tr), h4, h2⟩
  · obtain ⟨pre, h1, h2, h3⟩ := late_exhaust
      (fun s => (timer_counter_switch_clock (lateHw 399) s.tm.fc_freq s).2) TMR_CER 399 99
      (sys0 0 (tm0 0 26000000 26000000)) rfl
    exact ⟨pre, h1.trans (List.nil_append _), h2, h3, by decide⟩

/-- C4, amended: for every hardware behaviour and all arguments,
`timer_write_check` returns along exactly one of two paths, told apart by the
last action of the call.  Either that action is a read of `reg` whose value
`v` satisfies `(v & mask) == (t_check & mask)`, where `t_check` is `val`, or
`!val` with the invert flag (the fall out of the `while` loop); or it is the
logging of a failure for `reg` (the `return` after the last retry), and then
the call has made at least 100 writes of `val` to `reg` and logged at least
100 failures, exactly 100 of each when `clk_switch` is off.  In every case
the call ends with a verified read or has made its 100 writes, and if fewer
than 100 failures were logged during the call, the register was verified. -/
theorem timer_write_check_exit {σ : Type} (H : HwModel σ) (reg val mask : Nat)
    (clr clk_switch : Bool) (w : Sys σ) :
    ∃ tr : List Event,
      (timer_write_check H reg val mask clr clk_switch w).trace = w.trace ++ tr ∧
      (LastOK reg (u32 mask) (if clr then lnot (u32 val) else u32 val) tr ∨
        (100 ≤ tr.countP (fun e => decide (e = Event.wr reg (u32 val))) ∧
          100 ≤ tr.countP Event.is_werr)) ∧
      (clk_switch = false →
        LastOK reg (u32 mask) (if clr then lnot (u32 val) else u32 val) tr ∨
          (tr.countP Event.is_wr = 100 ∧ tr.countP Event.is_werr = 100)) ∧
      (tr.countP Event.is_werr < 100 →
        LastOK reg (u32 mask) (if clr then lnot (u32 val) else u32 val) tr) ∧
      ((LastOK reg (u32 mask) (if clr then lnot (u32 val) else u32 val) tr ∧
          ¬ ∃ t, tr.getLast? =
            some (Event.werr reg (if clr then lnot (u32 val) else u32 val) t (u32 mask))) ∨
        (¬ LastOK reg (u32 mask) (if clr then lnot (u32 val) else u32 val) tr ∧
          (∃ t, tr.getLast? =
            some (Event.werr reg (if clr then lnot (u32 val) else u32 val) t (u32 mask))) ∧
          100 ≤ tr.countP (fun e => decide (e = Event.wr reg (u32 val))) ∧
          100 ≤ tr.countP Event.is_werr ∧
          (clk_switch = false →
            tr.countP Event.is_wr = 100 ∧ tr.countP Event.is_werr = 100))) := by
  obtain ⟨tr, h1, h2, h3⟩ := from_trace H
    (fun s => (timer_counter_switch_clock H s.tm.fc_freq s).2) reg (u32 val) (u32 mask)
    (if clr then lnot (u32 val) else u32 val) clk_switch
    (fun s => switch_clock_trace H s.tm.fc_freq s) 99 w
  rw [u32_u32] at h2
  have hne : tr ≠ [] := by
    rintro rfl
    rcases h2 with ⟨v, hv, -⟩ | ⟨h, -⟩
    · simp at hv
    · simp at h
  have hcs : clk_switch = false →
      LastOK reg (u32 mask) (if clr then lnot (u32 val) else u32 val) tr ∨
        (tr.countP Event.is_wr = 100 ∧ tr.countP Event.is_werr = 100) := by
    intro hcs
    rcases (h3 hcs).2.2.2.2 with h | ⟨a, b, -⟩
    · exact Or.inl h
    · exact Or.inr ⟨a, b⟩
  have hlast : (timer_write_check H reg val mask clr clk_switch w).trace.getLast? =
      tr.getLast? := by
    have h := getLast_of_append w.trace tr hne
    rw [← h1] at h
    exact h
  refine ⟨tr, h1, h2, hcs, ?_, ?_⟩
  · intro hlt
    rcases h2 with h | ⟨-, h⟩
    · exact h
    · omega
  · rcases from_end H (fun s => (timer_counter_switch_clock H s.tm.fc_freq s).2) reg (u32 val)
      (u32 mask) (if clr then lnot (u32 val) else u32 val) clk_switch 99 w with
      ⟨v, hv, hp⟩ | ⟨t, ht⟩
    · left
      have hv' : tr.getLast? = some (Event.rd reg v) := hlast.symm.trans hv
      refine ⟨⟨v, hv', hp⟩, ?_⟩
      rintro ⟨t, ht⟩
      rw [hv'] at ht
      cases ht
    · right
      have ht' : tr.getLast? = some (Event.werr reg
          (if clr then lnot (u32 val) else u32 val) t (u32 mask)) := hlast.symm.trans ht
      have hno : ¬ LastOK reg (u32 mask) (if clr then lnot (u32 val) else u32 val) tr := by
        rintro ⟨v, hv, -⟩
        rw [ht'] at hv
        cases hv
      refine ⟨hno, ⟨t, ht'⟩, ?_, ?_, ?_⟩
      · rcases h2 with h | ⟨h, -⟩
        · exact absurd h hno
        · exact h
      · rcases h2 with h | ⟨-, h⟩
        · exact absurd h hno
        · exact h
      · intro hc
        rcases hcs hc with h | h
        · exact absurd h hno
        · exact h

/-- C4 amended, at a latching register: one write, one read, no failure
logged, the register verified. -/
theorem timer_write_check_exit_witness :
    ∃ tr : List Event,
      (timer_write_check latchHw TMR_CER 1 1 false false
        (sys0 regs0 (tm0 0 26000000 26000000))).trace = [] ++ tr ∧
      tr.countP Event.is_werr < 100 ∧ LastOK TMR_CER (u32 1) (u32 1) tr := by
  obtain ⟨tr, h1, -, -, h4, -⟩ := timer_write_check_exit latchHw TMR_CER 1 1 false false
    (sys0 regs0 (tm0 0 26000000 26000000))
  have h : (timer_write_check latchHw TMR_CER 1 1 false false
      (sys0 regs0 (tm0 0 26000000 26000000))).trace =
      [] ++ [Event.wr TMR_CER 1, Event.rd TMR_CER 1] := by decide
  have ht : tr = [Event.wr TMR_CER 1, Event.rd TMR_CER 1] :=
    List.append_cancel_left (h1.symm.trans h)
  have hc : tr.countP Event.is_werr < 100 := by rw [ht]; decide
  exact ⟨tr, h1, hc, h4 hc⟩

/-! ## The enable bit mirrors `timer_status` (claim C19) -/

section Agreement

variable (D : Fin 3 → Prop)

/-- A step that changes neither the counters' indices and status nor
`TMR_CER` keeps the well-formedness and the agreement on `D`. -/
theorem inv_same (w w' : Sys (Nat → Nat)) (hwf : counters_wf_on D w)
    (hinv : cer_agrees_on D w)
    (hcid : ∀ j, (w'.tm.evt j).cid = (w.tm.evt j).cid)
    (hst : ∀ j, (w'.tm.evt j).timer_status = (w.tm.evt j).timer_status)
    (hcer : w'.base TMR_CER = w.base TMR_CER) :
    counters_wf_on D w' ∧ cer_agrees_on D w' := by
  refine ⟨⟨fun j hj => ?_, fun i j hi hj hij => ?_⟩, fun j hj => ?_⟩
  · rw [hcid]; exact hwf.1 j hj
  · rw [hcid, hcid]; exact hwf.2 i j hi hj hij
  · unfold reg32
    rw [hcid, hst, hcer]
    exact hinv j hj

/-- A step that gives counter `k` of `D` the status of `b` (0 when `b`, else
1) and makes bit `cid` of `TMR_CER` equal to `b`, leaving the other counters
and bits alone, keeps the well-formedness and the agreement on `D`. -/
theorem inv_step (w w' : Sys (Nat → Nat)) (k : Fin 3) (b : Bool) (hk : D k)
    (hwf : counters_wf_on D w) (hinv : cer_agrees_on D w)
    (hcid : ∀ j, (w'.tm.evt j).cid = (w.tm.evt j).cid)
    (hst : ∀ j, j ≠ k → (w'.tm.evt j).timer_status = (w.tm.evt j).timer_status)
    (hks : (w'.tm.evt k).timer_status = if b then 0 else 1)
    (hbits : ∀ i, (reg32 w'.base TMR_CER).testBit i =
      if (w.tm.evt k).cid = i then b else (reg32 w.base TMR_CER).testBit i) :
    counters_wf_on D w' ∧ cer_agrees_on D w' := by
  refine ⟨⟨fun j hj => ?_, fun i j hi hj hij => ?_⟩, fun j hj => ?_⟩
  · rw [hcid]; exact hwf.1 j hj
  · rw [hcid, hcid]; exact hwf.2 i j hi hj hij
  · by_cases hjk : j = k
    · subst hjk
      rw [hcid, hbits, if_pos rfl, hks]
      cases b <;> simp
    · rw [hcid, hst j hjk, hbits, if_neg (hwf.2 k j hk hj (Ne.symm hjk))]
      exact hinv j hj

/-- The function `timer_counter_enable` keeps the agreement on `D`. -/
theorem inv_enable (k : Fin 3) (w : Sys (Nat → Nat)) (hk : D k)
    (hwf : counters_wf_on D w) (hinv : cer_agrees_on D w) :
    counters_wf_on D (timer_counter_enable latchHw k w) ∧
      cer_agrees_on D (timer_counter_enable latchHw k w) := by
  have h32 : (w.tm.evt k).cid < 32 := by have := hwf.1 k hk; omega
  apply inv_step D w _ k true hk hwf hinv
  · intro j
    rw [(enable_frame _ _ _).2]
    by_cases hjk : j = k
    · subst hjk; simp
    · simp [Function.update_noteq hjk]
  · intro j hjk
    rw [(enable_frame _ _ _).2]
    simp [Function.update_noteq hjk]
  · rw [(enable_frame _ _ _).2]
    simp
  · intro i
    rw [enable_cer, testBit_cer_set]
    unfold reg32
    rw [testBit_u32]
    by_cases hc : (w.tm.evt k).cid = i
    · subst hc; simp [h32]
    · simp [hc]

/-- The function `timer_counter_disable` keeps the agreement on `D`. -/
theorem inv_disable (k : Fin 3) (w : Sys (Nat → Nat)) (hk : D k)
    (hwf : counters_wf_on D w) (hinv : cer_agrees_on D w) :
    counters_wf_on D (timer_counter_disable latchHw k w) ∧
      cer_agrees_on D (timer_counter_disable latchHw k w) := by
  apply inv_step D w _ k false hk hwf hinv
  · intro j
    rw [(disable_frame _ _ _).2]
    by_cases hjk : j = k
    · subst hjk; simp
    · simp [Function.update_noteq hjk]
  · intro j hjk
    rw [(disable_frame _ _ _).2]
    simp [Function.update_noteq hjk]
  · rw [(disable_frame _ _ _).2]
    simp
  · intro i
    rw [disable_cer, testBit_cer_clear]
    unfold reg32
    rw [testBit_u32]
    by_cases hc : (w.tm.evt k).cid = i
    · subst hc; simp
    · simp [hc]

/-- The function `timer_write_check` of a register other than `TMR_CER`,
without clock switch, keeps the agreement on `D`. -/
theorem inv_write_check (reg val mask : Nat) (clr : Bool) (hr : TMR_CER ≠ reg)
    (w : Sys (Nat → Nat)) (hwf : counters_wf_on D w) (hinv : cer_agrees_on D w) :
    counters_wf_on D (timer_write_check latchHw reg val mask clr false w) ∧
      cer_agrees_on D (timer_write_check latchHw reg val mask clr false w) := by
  apply inv_same D w _ hwf hinv
  · intro j; rw [(write_check_frame _ _ _ _ _ _ _).2]
  · intro j; rw [(write_check_frame _ _ _ _ _ _ _).2]
  · exact write_check_base_other reg val mask TMR_CER clr hr w

/-- A read keeps the agreement on `D`. -/
theorem inv_read (reg : Nat) (w : Sys (Nat → Nat)) (hwf : counters_wf_on D w)
    (hinv : cer_agrees_on D w) :
    counters_wf_on D (raw_readl latchHw w reg).2 ∧
      cer_agrees_on D (raw_readl latchHw w reg).2 :=
  inv_same D w _ hwf hinv (fun _ => rfl) (fun _ => rfl) rfl

/-- An update of counter `k` that keeps its index and its status keeps the
agreement on `D`. -/
theorem inv_set_evt (k : Fin 3) (e : spacemit_timer_evt) (w : Sys (Nat → Nat))
    (hwf : counters_wf_on D w) (hinv : cer_agrees_on D w)
    (hc : e.cid = (w.tm.evt k).cid) (hs : e.timer_status = (w.tm.evt k).timer_status) :
    counters_wf_on D (set_evt w k e) ∧ cer_agrees_on D (set_evt w k e) := by
  apply inv_same D w _ hwf hinv
  · intro j
    by_cases hjk : j = k
    · subst hjk; simp [set_evt, hc]
    · simp [set_evt, Function.update_noteq hjk]
  · intro j
    by_cases hjk : j = k
    · subst hjk; simp [set_evt, hs]
    · simp [set_evt, Function.update_noteq hjk]
  · rfl

end Agreement

theorem cer_not_counter_reg (c : Nat) (h : c ≤ 2) :
    TMR_CER ≠ TMR_TN_MM c 0 ∧ TMR_CER ≠ TMR_IER c ∧ TMR_CER ≠ TMR_ICR c := by
  interval_cases c <;> decide

/-! ### The counters that bring-up declares -/

/-- A returning `spacemit_timer_hw_init` leaves the block as it was. -/
theorem hw_init_tm {σ : Type} (H : HwModel σ) (k : Fin 3) (w w' : Sys σ) (r : Int)
    (h : spacemit_timer_hw_init H k w = some (r, w')) : w'.tm = w.tm := by
  unfold spacemit_timer_hw_init at h
  simp only [] at h
  split_ifs at h
  · simp only [Option.some.injEq, Prod.mk.injEq] at h
    rw [← h.2]
    exact (switch_clock_frame H _ w).2
  · simp only [Option.some.injEq, Prod.mk.injEq] at h
    rw [← h.2, hw_init_run_tm]
    exact (switch_clock_frame H _ w).2

/-- A returning `spacemit_timer_setup` leaves the block as it was. -/
theorem setup_tm {σ : Type} (H : HwModel σ) (ncpus : Nat) (rq : Int) (k : Fin 3)
    (w w' : Sys σ) (r : Int) (h : spacemit_timer_setup H ncpus rq k w = some (r, w')) :
    w'.tm = w.tm := by
  unfold spacemit_timer_setup at h
  simp only [] at h
  by_cases hc : int_to_u32 (w.tm.evt k).cpu ≠ SPACEMIT_TIMER_ALL_CPU ∧
      int_to_u32 (w.tm.evt k).cpu ≥ ncpus
  · rw [if_pos hc] at h
    simp only [Option.some.injEq, Prod.mk.injEq] at h
    rw [← h.2]
  · rw [if_neg hc] at h
    rcases hh : spacemit_timer_hw_init H k w with _ | ⟨r1, w1⟩
    · rw [hh] at h; simp at h
    · rw [hh] at h
      have ht := hw_init_tm H k w w1 r1 hh
      simp only [] at h
      split_ifs at h <;>
        (simp only [Option.some.injEq, Prod.mk.injEq] at h
         rw [← h.2]
         exact ht)

/-- Every counter that `spacemit_of_counter_init` writes carries the index of
its slot; the other slots are untouched. -/
theorem of_counter_init_cid {σ : Type} (H : HwModel σ) (ncpus : Nat) (np : counter_node)
    (tid : Nat) (w w' : Sys σ) (r : Int)
    (h : spacemit_of_counter_init H ncpus np tid w = some (r, w')) (j : Fin 3) :
    w'.tm.evt j = w.tm.evt j ∨ (w'.tm.evt j).cid = j.val := by
  unfold spacemit_of_counter_init at h
  simp only [] at h
  by_cases h1 : np.counter_id.1 = 0 ∧ np.counter_id.2 < SPACEMIT_MAX_TIMER
  · rw [dif_pos h1] at h
    by_cases h2 : ¬ np.broadcast ∧ np.counter_cpu.1 ≠ 0
    · rw [if_pos h2] at h
      simp only [Option.some.injEq, Prod.mk.injEq] at h
      rw [← h.2]
      exact Or.inl rfl
    · rw [if_neg h2] at h
      rw [setup_tm H ncpus _ _ _ w' r h]
      by_cases hj : j = ⟨np.counter_id.2, h1.2⟩
      · right
        subst hj
        simp [set_evt]
      · left
        simp [set_evt, Function.update_noteq hj]
  · rw [dif_neg h1] at h
    simp only [Option.some.injEq, Prod.mk.injEq] at h
    rw [← h.2]
    exact Or.inl rfl

/-- Every counter that the child loop of `spacemit_of_timer_init` writes
carries the index of its slot; the other slots are untouched. -/
theorem for_each_child_cid {σ : Type} (H : HwModel σ) (ncpus tid : Nat)
    (l : List counter_node) (w w' : Sys σ) (r : Int)
    (h : for_each_child_of_node H ncpus tid l w = some (r, w')) (j : Fin 3) :
    w'.tm.evt j = w.tm.evt j ∨ (w'.tm.evt j).cid = j.val := by
  induction l generalizing w with
  | nil =>
    simp only [for_each_child_of_node, Option.some.injEq, Prod.mk.injEq] at h
    rw [← h.2]
    exact Or.inl rfl
  | cons c rest ih =>
    unfold for_each_child_of_node at h
    by_cases ha : (!c.available) = true
    · rw [if_pos ha] at h
      exact ih w h
    · rw [if_neg ha] at h
      rcases hh : spacemit_of_counter_init H ncpus c tid w with _ | ⟨r1, w1⟩
      · rw [hh] at h; simp at h
      · rw [hh] at h
        have h1 := of_counter_init_cid H ncpus c tid w w1 r1 hh j
        simp only [] at h
        by_cases hr : r1 ≠ 0
        · rw [if_pos hr] at h
          simp only [Option.some.injEq, Prod.mk.injEq] at h
          rw [← h.2]
          exact h1
        · rw [if_neg hr] at h
          rcases ih w1 h with h2 | h2
          · rcases h1 with h1 | h1
            · exact Or.inl (h2.trans h1)
            · exact Or.inr (by rw [h2]; exact h1)
          · exact Or.inr h2

/-- The block that `spacemit_timer_init` registers has every counter
zero-filled. -/
theorem init_evt {σ : Type} (H : HwModel σ) (env : init_env)
    (tid flag fc_freq apb_freq freq : Nat) (b b' : Boot σ) (r : Int) (tm : spacemit_timer)
    (h : spacemit_timer_init H env tid flag fc_freq apb_freq freq b = some (r, b'))
    (hb : b.slot = none) (hs : b'.slot = some tm) : tm.evt = tm_zero.evt := by
  unfold spacemit_timer_init at h
  rw [hb] at h
  simp only [Option.isSome_none, Bool.false_eq_true, if_false] at h
  split_ifs at h
  iterate 5
    (simp only [Option.some.injEq, Prod.mk.injEq] at h
     rw [← h.2, hb] at hs
     exact absurd hs (by simp))
  rcases he : env.resets_err with _ | e
  · rw [he] at h
    rcases hl : loop_delay apb_freq fc_freq with _ | delay
    · rw [hl] at h; simp at h
    · rw [hl] at h
      simp only [Option.some.injEq, Prod.mk.injEq] at h
      rw [← h.2] at hs
      simp only [Option.some.injEq] at hs
      rw [← hs, init_idle_tm]
      rfl
  · rw [he] at h
    simp only [Option.some.injEq, Prod.mk.injEq] at h
    rw [← h.2, hb] at hs
    exact absurd hs (by simp)

/-- After `spacemit_of_timer_init` on a fresh block, every counter is either
still zero-filled (not declared) or carries the index of its slot. -/
theorem of_timer_init_cid {σ : Type} (H : HwModel σ) (env : init_env) (ncpus : Nat)
    (np : timer_node) (b b' : Boot σ) (r : Int) (tm : spacemit_timer)
    (h : spacemit_of_timer_init H env ncpus np b = some (r, b'))
    (hb : b.slot = none) (hs : b'.slot = some tm) (j : Fin 3) :
    tm.evt j = tm_zero.evt j ∨ (tm.evt j).cid = j.val := by
  unfold spacemit_of_timer_init at h
  simp only [] at h
  split_ifs at h
  iterate 6
    (simp only [Option.some.injEq, Prod.mk.injEq] at h
     rw [← h.2, hb] at hs
     exact absurd hs (by simp))
  rcases hi : spacemit_timer_init H env np.timer_id.2 0 np.fastclk_frequency.2
      np.apb_frequency.2 np.timer_frequency.2 b with _ | ⟨r1, b1⟩
  · rw [hi] at h; simp at h
  · rw [hi] at h
    simp only [] at h
    by_cases hr : r1 ≠ 0
    · rw [if_pos hr] at h
      simp only [Option.some.injEq, Prod.mk.injEq] at h
      rw [← h.2] at hs
      rw [init_evt H env _ _ _ _ _ b b1 r1 tm hi hb hs]
      exact Or.inl rfl
    · rw [if_neg hr] at h
      rcases hsl : b1.slot with _ | tm1
      · rw [hsl] at h
        simp only [Option.some.injEq, Prod.mk.injEq] at h
        rw [← h.2, hsl] at hs
        exact absurd hs (by simp)
      · rw [hsl] at h
        simp only [] at h
        have hz := init_evt H env _ _ _ _ _ b b1 r1 tm1 hi hb hsl
        rcases hf : for_each_child_of_node H ncpus np.timer_id.2 np.children
            { base := b1.base, tm := tm1, werr_info := b1.werr_info,
              werr_index := b1.werr_index, trace := b1.trace } with _ | ⟨r2, w2⟩
        · rw [hf] at h; simp at h
        · rw [hf] at h
          simp only [Option.some.injEq, Prod.mk.injEq] at h
          rw [← h.2] at hs
          simp only [Option.some.injEq] at hs
          rw [← hs]
          rcases for_each_child_cid H ncpus _ _ _ w2 r2 hf j with h2 | h2
          · left
            rw [h2]
            show tm1.evt j = _
            rw [hz]
          · exact Or.inr h2

/-- Counters that carry the index of their slot have indices in 0..2,
pairwise distinct. -/
theorem declared_wf {σ : Type} (D : Fin 3 → Prop) (w : Sys σ)
    (h : ∀ j, D j → (w.tm.evt j).cid = j.val) : counters_wf_on D w := by
  refine ⟨fun j hj => ?_, fun i j hi hj hij => ?_⟩
  · rw [h j hj]
    have := j.isLt
    omega
  · rw [h i hi, h j hj]
    exact fun he => hij (Fin.ext he)

/-- After `spacemit_of_timer_init` on a fresh block, the counters that are no
longer zero-filled have indices in 0..2, pairwise distinct. -/
theorem bring_up_counters_wf {σ : Type} (H : HwModel σ) (env : init_env) (ncpus : Nat)
    (np : timer_node) (b b' : Boot σ) (r : Int) (tm : spacemit_timer)
    (h : spacemit_of_timer_init H env ncpus np b = some (r, b'))
    (hb : b.slot = none) (hs : b'.slot = some tm) (D : Fin 3 → Prop)
    (hD : ∀ j, D j → tm.evt j ≠ tm_zero.evt j) :
    counters_wf_on D (Sys.mk b'.base tm b'.werr_info b'.werr_index b'.trace) :=
  declared_wf D _ (fun j hj =>
    (of_timer_init_cid H env ncpus np b b' r tm h hb hs j).resolve_left (hD j hj))

/-- Over all three slots of a block that declares counter 0 only, the
zero-filled slots 1 and 2 share index 0 with counter 0: the agreement read
over the slots holds after bring-up and is lost when counter 0 is shut down,
while the agreement on the declared counter is kept. -/
theorem undeclared_slots :
    (spacemit_of_timer_init latchHw env_ok 8 (node_with [0]) boot0).map
      (fun r => (r.1, r.2.slot.isSome)) = some (0, true) ∧
    ¬ counters_wf one_counter_block ∧
    cer_agrees one_counter_block ∧
    ¬ cer_agrees (timer_shutdown latchHw 0 one_counter_block).2 ∧
    counters_wf_on (fun j => j = 0) one_counter_block ∧
    cer_agrees_on (fun j => j = 0) one_counter_block := by
  decide

/-- C19: on latching hardware, for the set `D` of the counters of a block,
whose indices are pairwise distinct and in 0..2, the predicate "for every
counter in `D`, `timer_status = 0` if and only if bit `cid` of `TMR_CER` is
set" is an invariant: if it holds before `timer_set_next_event`,
`timer_shutdown`, `timer_resume` or `timer_interrupt` applied to any counter
`k` in `D`, it holds afterwards for all counters in `D`, whose indices are as
before. -/
theorem cer_agrees_invariant (D : Fin 3 → Prop) (k : Fin 3) (w : Sys (Nat → Nat))
    (delta : Nat) (hk : D k) (hwf : counters_wf_on D w) (hinv : cer_agrees_on D w) :
    (counters_wf_on D (timer_set_next_event latchHw delta k w).2 ∧
      cer_agrees_on D (timer_set_next_event latchHw delta k w).2) ∧
    (counters_wf_on D (timer_shutdown latchHw k w).2 ∧
      cer_agrees_on D (timer_shutdown latchHw k w).2) ∧
    (counters_wf_on D (timer_resume latchHw k w).2 ∧
      cer_agrees_on D (timer_resume latchHw k w).2) ∧
    (counters_wf_on D (timer_interrupt latchHw k w).2 ∧
      cer_agrees_on D (timer_interrupt latchHw k w).2) := by
  obtain ⟨n1, n2, n3⟩ := cer_not_counter_reg _ (hwf.1 k hk)
  refine ⟨?_, ?_, ?_, ?_⟩
  · -- timer_set_next_event
    obtain ⟨a0, b0⟩ := inv_read D TMR_CER w hwf hinv
    have h1 : counters_wf_on D
        (if (raw_readl latchHw w TMR_CER).1 &&& TMR_CER_COUNTER (w.tm.evt k).cid ≠ 0 then
          timer_counter_disable latchHw k (raw_readl latchHw w TMR_CER).2
        else (raw_readl latchHw w TMR_CER).2) ∧
      cer_agrees_on D
        (if (raw_readl latchHw w TMR_CER).1 &&& TMR_CER_COUNTER (w.tm.evt k).cid ≠ 0 then
          timer_counter_disable latchHw k (raw_readl latchHw w TMR_CER).2
        else (raw_readl latchHw w TMR_CER).2) := by
      by_cases hb : (raw_readl latchHw w TMR_CER).1 &&& TMR_CER_COUNTER (w.tm.evt k).cid ≠ 0
      · rw [if_pos hb]; exact inv_disable D k _ hk a0 b0
      · rw [if_neg hb]; exact ⟨a0, b0⟩
    obtain ⟨a2, b2⟩ := inv_write_check D (TMR_TN_MM (w.tm.evt k).cid 0)
      (u32 (delta + 2 ^ 32 - 1)) (u32 (2 ^ 32 - 1)) false n1 _ h1.1 h1.2
    obtain ⟨a3, b3⟩ := inv_write_check D (TMR_IER (w.tm.evt k).cid) 0x1 0x1 false n2 _ a2 b2
    obtain ⟨a4, b4⟩ := inv_enable D k _ hk a3 b3
    exact inv_set_evt D k _ _ a4 b4 rfl rfl
  · -- timer_shutdown
    obtain ⟨a0, b0⟩ := inv_set_evt D k { w.tm.evt k with
      timer_enabled := decide ((w.tm.evt k).timer_status = 0) } w hwf hinv rfl rfl
    exact inv_disable D k _ hk a0 b0
  · -- timer_resume
    unfold timer_resume
    by_cases he : (w.tm.evt k).timer_enabled = true
    · rw [if_pos he]
      exact inv_enable D k w hk hwf hinv
    · rw [if_neg he]
      exact ⟨hwf, hinv⟩
  · -- timer_interrupt
    by_cases hb : u32 (latchHw.readl w.base (TMR_SR (w.tm.evt k).cid)).1 &&& 1 ≠ 0
    · rw [interrupt_ours latchHw k w hb]
      obtain ⟨a0, b0⟩ := inv_read D (TMR_SR (w.tm.evt k).cid) w hwf hinv
      obtain ⟨a1, b1⟩ := inv_disable D k _ hk a0 b0
      obtain ⟨a2, b2⟩ := inv_write_check D (TMR_IER (w.tm.evt k).cid) 0 0x7 false n2 _ a1 b1
      obtain ⟨a3, b3⟩ := inv_write_check D (TMR_ICR (w.tm.evt k).cid) 0x1 0x7 true n3 _ a2 b2
      exact inv_same D _ _ a3 b3 (fun _ => rfl) (fun _ => rfl) rfl
    · rw [interrupt_not_ours latchHw k w hb]
      exact inv_read D _ w hwf hinv

/-- C19 at the block that bring-up leaves for a node declaring counter 0
only, and at a block with counters 0, 1, 2, all stopped but counter 1. -/
theorem cer_agrees_invariant_witness :
    cer_agrees_on (fun j => j = 0) (timer_shutdown latchHw 0 one_counter_block).2 ∧
    cer_agrees_on (fun _ => True) (timer_set_next_event latchHw 1000 0
      (set_evt (set_evt (sys0 (fun r => if r = 0 then 2 else 0) (tm0 0 26000000 32768)) 0
        ⟨32768, 0, 0, 0, 0, false, 1, 0⟩) 2 ⟨32768, 0, 2, 0, 0, false, 1, 0⟩)).2 :=
  ⟨(cer_agrees_invariant (fun j => j = 0) 0 one_counter_block 0 rfl
      (by decide) (by decide)).2.1.2,
   (cer_agrees_invariant (fun _ => True) 0
    (set_evt (set_evt (sys0 (fun r => if r = 0 then 2 else 0) (tm0 0 26000000 32768)) 0
      ⟨32768, 0, 0, 0, 0, false, 1, 0⟩) 2 ⟨32768, 0, 2, 0, 0, false, 1, 0⟩) 1000
    trivial (by decide) (by decide)).1.2⟩

end TimerK1x
